import Mathlib

/-!
# rtengine/iccstore.cc : a shallow embedding

The colour-profile store of RawTherapee (`rtengine/iccstore.cc`) is embedded as
pure functions:

* raw buffers are lists of bytes (`List Nat`, every byte below 256); a 32-bit
  word is a `Nat` below `2^32`; the byte order of the host is the parameter
  `le` (`true` on a little-endian host);
* a buffer access that leaves its allocation is reported as a `Fault` through
  `Except`, never silently dropped;
* the colour-management library (parser, intent query), the file system and the
  gamma solver are parameters;
* a `double` is the rational it denotes; the products, sums and quotients of
  `createFromMatrix` and of the preset branches of `getGammaArray` are rounded to
  binary64, the free-gamma branch of `getGammaArray` is in exact arithmetic.
-/

set_option autoImplicit false

namespace rtengine

/-! ## Raw memory -/

/-- The ways in which a raw buffer access of the C++ code can go wrong. -/
inductive Fault where
  /-- A read past the end of the allocation. -/
  | readOutOfBounds
  /-- A write past the end of the allocation. -/
  | writeOutOfBounds
  deriving DecidableEq, Repr

deriving instance DecidableEq for Except

/-- The four bytes of a 32-bit word, most significant byte first. -/
def beBytes (v : Nat) : List Nat :=
  [v / 16777216 % 256, v / 65536 % 256, v / 256 % 256, v % 256]

/-- The four bytes of a 32-bit word, least significant byte first. -/
def leBytes (v : Nat) : List Nat :=
  [v % 256, v / 256 % 256, v / 65536 % 256, v / 16777216 % 256]

/-- The in-memory representation of a 32-bit word on the host. -/
def hostBytes (le : Bool) (v : Nat) : List Nat :=
  if le then leBytes v else beBytes v

/-- The word whose big-endian representation is the four bytes `b`. -/
def beValue (b : List Nat) : Nat :=
  b.getD 0 0 * 16777216 + b.getD 1 0 * 65536 + b.getD 2 0 * 256 + b.getD 3 0

/-- The word whose little-endian representation is the four bytes `b`. -/
def leValue (b : List Nat) : Nat :=
  b.getD 3 0 * 16777216 + b.getD 2 0 * 65536 + b.getD 1 0 * 256 + b.getD 0 0

/-- The word the host reads from four bytes of memory. -/
def hostValue (le : Bool) (b : List Nat) : Nat :=
  if le then leValue b else beValue b

/-- C `htonl`: the identity on a big-endian host, a byte swap on a little-endian one. -/
def htonl (le : Bool) (v : Nat) : Nat :=
  if le then beValue (leBytes v) else v

/-- C `ntohl`: the same permutation of bytes as `htonl`. -/
def ntohl (le : Bool) (v : Nat) : Nat :=
  htonl le v

/-- C `htons` on a 16-bit value. -/
def htons (le : Bool) (v : Nat) : Nat :=
  if le then v % 256 * 256 + v / 256 % 256 else v

/-- The in-memory representation of a 16-bit value on the host. -/
def hostBytes16 (le : Bool) (v : Nat) : List Nat :=
  if le then [v % 256, v / 256 % 256] else [v / 256 % 256, v % 256]

/-- `memcpy (dst + off, src, src.length)`: a checked write into the buffer `mem`. -/
def storeBytes (mem : List Nat) (off : Nat) (src : List Nat) : Except Fault (List Nat) :=
  if off + src.length ≤ mem.length then
    .ok (mem.take off ++ src ++ mem.drop (off + src.length))
  else
    .error .writeOutOfBounds

/-- A checked read of `n` bytes at byte offset `off` of the buffer `mem`. -/
def loadBytes (mem : List Nat) (off n : Nat) : Except Fault (List Nat) :=
  if off + n ≤ mem.length then .ok ((mem.drop off).take n) else .error .readOutOfBounds

/-- The assignment `p[idx] = v` through an `unsigned*` pointer to the start of the buffer. -/
def storeWord (le : Bool) (mem : List Nat) (idx v : Nat) : Except Fault (List Nat) :=
  storeBytes mem (4 * idx) (hostBytes le v)

/-- The value of `p[idx]` read through an `unsigned*` pointer to the start of the buffer. -/
def loadWord (le : Bool) (mem : List Nat) (idx : Nat) : Except Fault Nat := do
  let b ← loadBytes mem (4 * idx) 4
  pure (hostValue le b)

/-- `memcpy` of an array of 32-bit words (in host representation) to byte offset `off`. -/
def storeWords (le : Bool) (mem : List Nat) (off : Nat) (ws : List Nat) :
    Except Fault (List Nat) :=
  storeBytes mem off (ws.flatMap (hostBytes le))

/-- The bytes `c_str ()` of a string exposes to `strcpy`: its UTF-8 encoding up to the
first NUL. -/
def cstr (s : String) : List Nat :=
  ((s.data.flatMap String.utf8EncodeChar).map UInt8.toNat).takeWhile (fun b => b ≠ 0)

/-- `strcpy ((char*) mem + off, s)`: the bytes of the string followed by the terminating NUL. -/
def strcpy (mem : List Nat) (off : Nat) (s : List Nat) : Except Fault (List Nat) :=
  storeBytes mem off (s ++ [0])

/-- `(x + 3) & ~3` on 32-bit unsigned values. -/
def align4 (x : Nat) : Nat :=
  ((x + 3) % 4294967296) &&& 0xFFFFFFFC

/-- The conversion of a `double` to `unsigned`: truncation toward zero; a value outside the
range of `unsigned` is reduced modulo `2^32`. -/
def toUnsigned (x : ℚ) : Nat :=
  ((if 0 ≤ x then ⌊x⌋ else ⌈x⌉) % 4294967296).toNat

/-! ## Binary64 arithmetic

A `double` is modelled by the rational it denotes. The result of an arithmetic operation on
`double` values is the nearest binary64 value, ties to even; an operand written as a decimal
literal is the binary64 value nearest to it. The exponent range is bounded below (subnormal numbers);
overflow to infinity is not modelled. -/

/-- The power `2^e` for an integer exponent `e`. -/
def twoPow (e : Int) : ℚ :=
  if 0 ≤ e then ((2 ^ e.toNat : Nat) : ℚ) else 1 / ((2 ^ (-e).toNat : Nat) : ℚ)

/-- The number of halvings that bring `n` below 2, with `fuel` bounding the count. -/
def halvings : Nat → Nat → Nat
  | 0, _ => 0
  | fuel + 1, n => if n < 2 then 0 else halvings fuel (n / 2) + 1

/-- The integer `⌊log2 n⌋` for a positive natural number `n`. -/
def natLog2 (n : Nat) : Nat := halvings n n

/-- The integer `⌊log2 q⌋` for a positive rational `q`. -/
def floorLog2 (q : ℚ) : Int :=
  let l : Int := (natLog2 q.num.toNat : Int) - (natLog2 q.den : Int)
  if twoPow l ≤ q then l else l - 1

/-- The integer nearest to a non-negative rational, ties to even. -/
def roundHalfEven (s : ℚ) : Int :=
  let f : Int := ⌊s⌋
  if s - f < 1 / 2 then f
  else if 1 / 2 < s - f then f + 1
  else if f % 2 = 0 then f
  else f + 1

/-- The binary64 value nearest to a rational: 53 significant bits, round to nearest, ties to
even, with the fixed quantum `2^-1074` below `2^-1022`. -/
def roundDouble (q : ℚ) : ℚ :=
  if q = 0 then 0
  else
    let e : Int := max (floorLog2 |q| - 52) (-1074)
    let m : Int := roundHalfEven (|q| / twoPow e)
    if 0 < q then m * twoPow e else -(m * twoPow e)

/-- The sum `a + b` of two `double` values. -/
def doubleAdd (a b : ℚ) : ℚ := roundDouble (roundDouble a + roundDouble b)

/-- The product `a * b` of two `double` values. -/
def doubleMul (a b : ℚ) : ℚ := roundDouble (roundDouble a * roundDouble b)

/-- The quotient `a / b` of two `double` values. -/
def doubleDiv (a b : ℚ) : ℚ := roundDouble (roundDouble a / roundDouble b)

/-! ## `ICCStore::createFromMatrix` -/

/-- The array `phead` of `createFromMatrix`. -/
def phead : List Nat :=
  [1024, 0, 0x2100000, 0x6d6e7472, 0x52474220, 0x58595a20, 0, 0, 0,
   0x61637370, 0, 0, 0, 0, 0, 0, 0, 0xf6d6, 0x10000, 0xd32d]

/-- The initial content of the array `pbody` of `createFromMatrix`. -/
def pbody0 : List Nat :=
  [10, 0x63707274, 0, 36,
   0x64657363, 0, 40,
   0x77747074, 0, 20,
   0x626b7074, 0, 20,
   0x72545243, 0, 14,
   0x67545243, 0, 14,
   0x62545243, 0, 14,
   0x7258595a, 0, 20,
   0x6758595a, 0, 20,
   0x6258595a, 0, 20]

/-- The array `pwhite` of `createFromMatrix` (D65). -/
def pwhite : List Nat := [0xf351, 0x10000, 0x116cc]

/-- The array `pcurve` of `createFromMatrix` after the `if (gamma)` statement. -/
def pcurve (gamma : Bool) : List Nat :=
  let pcurve := [0x63757276, 0, 0, 0x1000000]
  if gamma then
    (pcurve.set 2 1).set 3 0x2390000
  else
    (pcurve.set 2 1).set 3 0x1000000

/-- One pass of the loop "constructing tag directory" over the pair `(oprof, pbody)`. -/
def tagDirectoryStep (le : Bool) (st : List Nat × List Nat) (i : Nat) :
    Except Fault (List Nat × List Nat) := do
  let (oprof, pbody) := st
  let o0 ← loadWord le oprof 0
  let oprof ← storeWord le oprof (o0 / 4)
    (if i ≠ 0 then (if i > 1 then 0x58595a20 else 0x64657363) else 0x74657874)
  let o0 ← loadWord le oprof 0
  let pbody := pbody.set (i * 3 + 2) o0
  let o0 ← loadWord le oprof 0
  let oprof ← storeWord le oprof 0 ((o0 + align4 (pbody.getD (i * 3 + 3) 0)) % 4294967296)
  pure (oprof, pbody)

/-- The first part of `createFromMatrix`: header, tag directory, white point and the three
tone-response curves, on the host-order words of `oprof`. Returns `(oprof, pbody)`. -/
def createFromMatrixTags (le : Bool) (gamma : Bool) : Except Fault (List Nat × List Nat) := do
  let pbody := pbody0
  -- constructing profile header
  let oprof := List.replicate (phead.getD 0 0 / 4 * 4) 0
  let oprof ← storeWords le oprof 0 phead
  let oprof ← storeWord le oprof 0 (132 + 12 * pbody.getD 0 0)
  -- constructing tag directory (pointers inside the file), and types
  let (oprof, pbody) ← (List.range (pbody.getD 0 0)).foldlM (tagDirectoryStep le) (oprof, pbody)
  let oprof ← storeWords le oprof (4 * 32) pbody
  -- wtpt
  let oprof ← storeWords le oprof (pbody.getD 8 0 + 8) pwhite
  -- r/g/b TRC
  let oprof ← [4, 5, 6].foldlM
    (fun oprof i => storeWords le oprof (pbody.getD (i * 3 + 2) 0) (pcurve gamma)) oprof
  pure (oprof, pbody)

/-- The loop "r/g/b XYZ" of `createFromMatrix`. -/
def createFromMatrixXYZ (le : Bool) (matrix : Nat → Nat → ℚ) (pbody oprof : List Nat) :
    Except Fault (List Nat) :=
  (List.range 3).foldlM (fun oprof i =>
    (List.range 3).foldlM (fun oprof j =>
      storeWord le oprof (pbody.getD (j * 3 + 23) 0 / 4 + i + 2)
        (toUnsigned (doubleAdd (doubleMul (matrix i j) 0x10000) 0.5))) oprof) oprof

/-- The loop "convert to network byte order" of `createFromMatrix`, over `n` words. -/
def createFromMatrixHtonl (le : Bool) (n : Nat) (oprof : List Nat) : Except Fault (List Nat) :=
  (List.range n).foldlM (fun oprof i => do
    let w ← loadWord le oprof i
    storeWord le oprof i (htonl le w)) oprof

/-- The buffer `createFromMatrix` assembles, with the length it passes to
`cmsOpenProfileFromMem`. -/
def createFromMatrixBuffer (le : Bool) (matrix : Nat → Nat → ℚ) (gamma : Bool)
    (name : String) : Except Fault (List Nat × Nat) := do
  let (oprof, pbody) ← createFromMatrixTags le gamma
  -- r/g/b XYZ
  let oprof ← createFromMatrixXYZ le matrix pbody oprof
  -- convert to network byte order
  let oprof ← createFromMatrixHtonl le (phead.getD 0 0 / 4) oprof
  -- cprt
  let oprof ← strcpy oprof (pbody.getD 2 0 + 8) (cstr "--rawtherapee profile--")
  -- desc
  let oprof ← storeWord le oprof (pbody.getD 5 0 / 4 + 2) ((name.length + 1) % 4294967296)
  let oprof ← strcpy oprof (pbody.getD 5 0 + 12) (cstr name)
  let o0 ← loadWord le oprof 0
  pure (oprof, ntohl le o0)

/-- `ICCStore::createFromMatrix`: the assembled bytes are handed to the library's parser
`cmsOpenProfileFromMem`, which sees the first `ntohl (oprof[0])` bytes of the buffer. -/
def createFromMatrix {H : Type} (cmsOpenProfileFromMem : List Nat → Option H) (le : Bool)
    (matrix : Nat → Nat → ℚ) (gamma : Bool) (name : String) : Except Fault (Option H) := do
  let (oprof, len) ← createFromMatrixBuffer le matrix gamma name
  let mem ← loadBytes oprof 0 len
  pure (cmsOpenProfileFromMem mem)

/-! ### Closed form of the assembled buffer, and readers of a serialized profile -/

/-- The array `pbody` of `createFromMatrix` once the tag-directory loop has filled in the
offsets. -/
def pbodyFinal : List Nat :=
  [10, 0x63707274, 252, 36,
   0x64657363, 288, 40,
   0x77747074, 328, 20,
   0x626b7074, 348, 20,
   0x72545243, 368, 14,
   0x67545243, 384, 14,
   0x62545243, 400, 14,
   0x7258595a, 416, 20,
   0x6758595a, 436, 20,
   0x6258595a, 456, 20]

/-- The 256 words of `oprof` in `createFromMatrix` before the conversion to network byte
order, given the fixed-point words `xyz i j` of the matrix. -/
def profileWords (gamma : Bool) (xyz : Nat → Nat → Nat) : List Nat :=
  phead.set 0 476 ++ List.replicate 12 0 ++ pbodyFinal
    ++ (0x74657874 :: List.replicate 8 0)
    ++ (0x64657363 :: List.replicate 9 0)
    ++ (0x58595a20 :: 0 :: pwhite)
    ++ [0x58595a20, 0, 0, 0, 0]
    ++ pcurve gamma ++ pcurve gamma ++ pcurve gamma
    ++ [0x58595a20, 0, xyz 0 0, xyz 1 0, xyz 2 0]
    ++ [0x58595a20, 0, xyz 0 1, xyz 1 1, xyz 2 1]
    ++ [0x58595a20, 0, xyz 0 2, xyz 1 2, xyz 2 2]
    ++ List.replicate 137 0

/-- The matrix words `x` with the word of row `i`, column `j` replaced by `v`. -/
def setXYZ (x : Nat → Nat → Nat) (i j v : Nat) : Nat → Nat → Nat :=
  fun a b => if a = i ∧ b = j then v else x a b

/-- The fixed-point words `matrix[i][j] * 0x10000 + 0.5` that `createFromMatrix` stores: the
product and the sum are those of `double`, the conversion to `unsigned` truncates. -/
def matrixWords (matrix : Nat → Nat → ℚ) : Nat → Nat → Nat :=
  fun i j => toUnsigned (doubleAdd (doubleMul (matrix i j) 0x10000) 0.5)

/-- The buffer `mem` with the bytes `src` written at byte offset `off`. -/
def splice (mem : List Nat) (off : Nat) (src : List Nat) : List Nat :=
  mem.take off ++ src ++ mem.drop (off + src.length)

/-- The bytes of the buffer `createFromMatrix` assembles, in closed form. -/
def profileBytes (le : Bool) (matrix : Nat → Nat → ℚ) (gamma : Bool) (name : String) : List Nat :=
  splice
    (splice
      (splice ((profileWords gamma (matrixWords matrix)).flatMap beBytes)
        260 (cstr "--rawtherapee profile--" ++ [0]))
      296 (hostBytes le ((name.length + 1) % 4294967296)))
    300 (cstr name ++ [0])

/-- The `n` bytes of `buf` from byte offset `off` on. -/
def bytesAt (buf : List Nat) (off n : Nat) : List Nat := (buf.drop off).take n
def wordAt (buf : List Nat) (off : Nat) : Nat := beValue (bytesAt buf off 4)
def halfAt (buf : List Nat) (off : Nat) : Nat :=
  (bytesAt buf off 2).getD 0 0 * 256 + (bytesAt buf off 2).getD 1 0
def tagSig (buf : List Nat) (i : Nat) : Nat := wordAt buf (128 + 4 + i * 12)
def tagOffset (buf : List Nat) (i : Nat) : Nat := wordAt buf (128 + 4 + i * 12 + 4)
def tagSize (buf : List Nat) (i : Nat) : Nat := wordAt buf (128 + 4 + i * 12 + 8)

/-- The matrix `mat` of `createXYZProfile`. -/
def identityMatrix : Nat → Nat → ℚ := fun i j => if i = j then 1 else 0

/-- The name made of `n` letters `A`. -/
def nameOfLength (n : Nat) : String := String.mk (List.replicate n 'A')

/-- The local `struct icctag` of `makeStdGammaProfile`. -/
structure IccTag where
  sig : Nat
  offset : Nat
  size : Nat
  deriving DecidableEq, Repr

/-- A read of `n` bytes at offset `off` of the array `data` of `makeStdGammaProfile`. The
array is allocated with `bytesNeeded + 1` bytes, of which the library writes the first
`bytesNeeded`: the list `data` holds those, and `spare` is the value, whatever it is, of the
last byte of the allocation, which nothing writes. A read inside the allocation returns its
bytes; a read that leaves it is a fault. -/
def loadSource (spare : Nat) (data : List Nat) (off n : Nat) : Except Fault (List Nat) :=
  if off + n ≤ data.length + 1 then
    .ok (((data ++ [spare]).drop off).take n)
  else
    .error .readOutOfBounds

/-- The constant `gamma` of `makeStdGammaProfile`. -/
def stdGamma : Nat := 0x239

/-- The variable `gamma_size` of `makeStdGammaProfile`. -/
def gamma_size : Nat := if stdGamma = 0 ∨ stdGamma = 256 then 12 else 14

/-- One pass of the first loop of `makeStdGammaProfile`: reads directory entry `i` and adds
its aligned size to `data_size` unless it is a tone-response tag. The state is
`(tags, data_size)`. -/
def readTag (le : Bool) (spare : Nat) (data : List Nat) (st : List IccTag × Nat) (i : Nat) :
    Except Fault (List IccTag × Nat) := do
  let (tags, data_size) := st
  let raw ← loadSource spare data (128 + 4 + 12 * i) 12
  let tag : IccTag :=
    { sig := ntohl le (hostValue le (raw.take 4))
      offset := ntohl le (hostValue le ((raw.drop 4).take 4))
      size := ntohl le (hostValue le ((raw.drop 8).take 4)) }
  if tag.sig ≠ 0x62545243 ∧ tag.sig ≠ 0x67545243 ∧ tag.sig ≠ 0x72545243 ∧
      tag.sig ≠ 0x6B545243 then
    pure (tags ++ [tag], (data_size + align4 tag.size) % 4294967296)
  else
    pure (tags ++ [tag], data_size)

/-- The variables `nd`, `offset` and `gamma_offset` of `makeStdGammaProfile`. -/
structure RewriteState where
  nd : List Nat
  offset : Nat
  gamma_offset : Nat
  deriving DecidableEq, Repr

/-- One pass of the second loop of `makeStdGammaProfile`, for entry `i` of the directory. -/
def rewriteTag (le : Bool) (spare : Nat) (data : List Nat) (st : RewriteState) (i : Nat) (t : IccTag) :
    Except Fault RewriteState := do
  let sig := htonl le t.sig
  if t.sig = 0x62545243 ∨ t.sig = 0x67545243 ∨ t.sig = 0x72545243 ∨ t.sig = 0x6B545243 then
    let st ←
      if st.gamma_offset = 0 then do
        let gamma_offset := st.offset
        let pcurve := [htonl le 0x63757276, htonl le 0, htonl le (if gamma_size = 12 then 0 else 1)]
        let nd ← storeWords le st.nd st.offset pcurve
        let nd ←
          if gamma_size = 14 then
            storeBytes nd ((st.offset + 12) % 4294967296) (hostBytes16 le (htons le stdGamma))
          else
            pure nd
        pure ({ nd := nd
                offset := (st.offset + align4 gamma_size) % 4294967296
                gamma_offset := gamma_offset } : RewriteState)
      else
        pure st
    let nd ← storeWords le st.nd ((128 + 4 + i * 12) % 4294967296)
      [sig, htonl le st.gamma_offset, htonl le gamma_size]
    pure { st with nd := nd }
  else
    let payload ← loadSource spare data t.offset t.size
    let nd ← storeBytes st.nd st.offset payload
    let offset := (st.offset + align4 t.size) % 4294967296
    let nd ← storeWords le nd ((128 + 4 + i * 12) % 4294967296)
      [sig, htonl le st.offset, htonl le t.size]
    pure { nd := nd, offset := offset, gamma_offset := st.gamma_offset }

/-- The second loop of `makeStdGammaProfile` over the entries `ts`, the first of which has
index `i`. -/
def rewriteTags (le : Bool) (spare : Nat) (data : List Nat) :
    List IccTag → Nat → RewriteState → Except Fault RewriteState
  | [], _, st => pure st
  | t :: ts, i, st => do
    let st ← rewriteTag le spare data st i t
    rewriteTags le spare data ts (i + 1) st

/-- The buffer `nd` that `makeStdGammaProfile` builds from the serialized profile `data`. -/
def makeStdGammaBuffer (le : Bool) (spare : Nat) (data : List Nat) : Except Fault (List Nat) := do
  let raw ← loadSource spare data 128 4
  let tag_count := ntohl le (hostValue le raw)
  let data_size := align4 gamma_size
  let (tags, data_size) ← (List.range tag_count).foldlM (readTag le spare data) ([], data_size)
  let sz := (128 + 4 + tag_count * 12 + data_size) % 4294967296
  let nd := List.replicate sz 0
  let head ← loadSource spare data 0 (128 + 4)
  let nd ← storeBytes nd 0 head
  let nd ← storeBytes nd 0 (hostBytes le (htonl le sz))
  let offset := (128 + 4 + tag_count * 12) % 4294967296
  let st ← rewriteTags le spare data tags 0 { nd := nd, offset := offset, gamma_offset := 0 }
  pure st.nd

/-- `ICCStore::makeStdGammaProfile`. The library is the pair of `cmsSaveProfileToMem` (the
serialization of a handle; the empty list when it reports `bytesNeeded == 0`) and the parser
`cmsOpenProfileFromMem`; a null handle is `none`; `spare` is the content of the byte
`data[bytesNeeded]`. -/
def makeStdGammaProfile {H : Type} (cmsSaveProfileToMem : H → List Nat)
    (cmsOpenProfileFromMem : List Nat → Option H) (le : Bool) (spare : Nat)
    (iprof : Option H) : Except Fault (Option H) :=
  match iprof with
  | none => pure none
  | some h =>
    let data := cmsSaveProfileToMem h
    if data.length = 0 then
      pure none
    else do
      let nd ← makeStdGammaBuffer le spare data
      pure (cmsOpenProfileFromMem nd)

/-! ### Quantities of the rewritten profile -/

/-- The four tone-response signatures `bTRC`, `gTRC`, `rTRC`, `kTRC`. -/
def isTrcSig (sig : Nat) : Prop :=
  sig = 0x62545243 ∨ sig = 0x67545243 ∨ sig = 0x72545243 ∨ sig = 0x6B545243

instance (sig : Nat) : Decidable (isTrcSig sig) := by
  unfold isTrcSig; infer_instance

/-- A size rounded up to the next multiple of 4. -/
def roundUp4 (x : Nat) : Nat := (x + 3) / 4 * 4

/-- The effect of one pass of the second loop of `makeStdGammaProfile` on the pair
`(offset, gamma_offset)`, when no 32-bit sum wraps. -/
def advance (c : Nat × Nat) (t : IccTag) : Nat × Nat :=
  if isTrcSig t.sig then
    (if c.2 = 0 then (c.1 + 16, c.1) else c)
  else
    (c.1 + roundUp4 t.size, c.2)

/-- Entry `i` of the tag directory of the serialized profile `data`. -/
def sourceTag (data : List Nat) (i : Nat) : IccTag :=
  { sig := tagSig data i, offset := tagOffset data i, size := tagSize data i }

/-- The tag directory of the serialized profile `data`. -/
def sourceTags (data : List Nat) : List IccTag :=
  (List.range (wordAt data 128)).map (sourceTag data)

/-- The sum of the aligned sizes of the tags that are not tone-response tags. -/
def payloadSize (ts : List IccTag) : Nat :=
  (ts.map (fun t => if isTrcSig t.sig then 0 else roundUp4 t.size)).sum

/-- The pair `(offset, gamma_offset)` of `makeStdGammaProfile` when the second loop reaches
entry `k`. -/
def cursor (data : List Nat) (k : Nat) : Nat × Nat :=
  ((sourceTags data).take k).foldl advance (128 + 4 + wordAt data 128 * 12, 0)

/-- The offset the rewritten directory records for entry `k` when it is not a tone-response
tag: the write cursor at the time entry `k` is reached. -/
def newOffset (data : List Nat) (k : Nat) : Nat := (cursor data k).1

/-- The value of `gamma_offset` when the second loop of `makeStdGammaProfile` ends. -/
def gammaOffset (data : List Nat) : Nat := (cursor data (wordAt data 128)).2

/-- The 14-byte curve record `makeStdGammaProfile` writes: `curv`, reserved, one entry, the
value `0x0239`. -/
def curveBlock : List Nat :=
  beBytes 0x63757276 ++ beBytes 0 ++ beBytes 1 ++ [0x02, 0x39]

/-- A serialized profile whose tag table is well formed: bytes are bytes, the directory and
every tag's payload lie inside the buffer, and the size of the rewritten profile fits 32 bits. -/
structure WellFormed (data : List Nat) : Prop where
  bytes : ∀ b ∈ data, b < 256
  directory : 128 + 4 + 12 * wordAt data 128 ≤ data.length
  payloads : ∀ i, i < wordAt data 128 → tagOffset data i + tagSize data i ≤ data.length
  noWrap : 128 + 4 + 12 * wordAt data 128 + 16 + payloadSize (sourceTags data) < 4294967296

/-- The number of bytes one pass of the second loop of `makeStdGammaProfile` writes at the
write cursor, given the current `gamma_offset`. -/
def written (gamma_offset : Nat) (t : IccTag) : Nat :=
  if isTrcSig t.sig then (if gamma_offset = 0 then 14 else 0) else t.size

/-- A small well-formed serialized profile: a description tag of 5 bytes and two
tone-response tags that share one payload. -/
def sampleProfile : List Nat :=
  beBytes 188 ++ List.replicate 124 0 ++ beBytes 3
    ++ beBytes 0x64657363 ++ beBytes 168 ++ beBytes 5
    ++ beBytes 0x72545243 ++ beBytes 176 ++ beBytes 12
    ++ beBytes 0x67545243 ++ beBytes 176 ++ beBytes 12
    ++ [1, 2, 3, 4, 5, 0, 0, 0]
    ++ [0x63, 0x75, 0x72, 0x76, 0, 0, 0, 0, 0, 0, 0, 0]

/-- A small well-formed serialized profile without a tone-response tag: its only tag is a
description tag of 5 bytes. -/
def plainProfile : List Nat :=
  beBytes 152 ++ List.replicate 124 0 ++ beBytes 1
    ++ beBytes 0x64657363 ++ beBytes 144 ++ beBytes 5
    ++ [1, 2, 3, 4, 5, 0, 0, 0]

/-- A serialized profile of 144 bytes whose only tag, a description tag, declares the
payload range 140..145: its last byte is the spare byte of the source allocation. -/
def spareByteProfile : List Nat :=
  beBytes 144 ++ List.replicate 124 0 ++ beBytes 1
    ++ beBytes 0x64657363 ++ beBytes 140 ++ beBytes 5

/-! ## `ICCStore::getGammaArray` -/

/-- The fields of `procparams::ColorManagementParams` that `iccstore.cc` reads. -/
structure ColorManagementParams where
  freegamma : Bool
  gamma : String
  gampos : ℚ
  slpos : ℚ
  working : String
  output : String

/-- The type `GammaValues`: an array of seven `double`. -/
abbrev GammaValues := Fin 7 → ℚ

/-- `ICCStore::getGammaArray`. The solver `Color::calcGamma (pwr, ts, mode, imax, g_a)` is a
parameter that returns the array `g_a` it fills; `ga` is the content of the output array
before the call, the result its content after. In the preset branches the quotient
`1. / eps` of the two constants is the quotient of `double`, and a literal that is stored as
it stands is kept as written; the free-gamma branch, which works on the outputs of the
solver, is in exact arithmetic. -/
def getGammaArray (calcGamma : ℚ → ℚ → Int → Int → GammaValues) (icm : ColorManagementParams)
    (ga : GammaValues) : GammaValues :=
  let eps : ℚ := 0.000000001
  if !icm.freegamma then
    let ga :=
      if icm.gamma = "BT709_g2.2_s4.5" then
        let ga := Function.update ga 0 2.22
        let ga := Function.update ga 1 0.909995
        let ga := Function.update ga 2 0.090005
        let ga := Function.update ga 3 0.222222
        Function.update ga 4 0.081071
      else if icm.gamma = "sRGB_g2.4_s12.92" then
        let ga := Function.update ga 0 2.40
        let ga := Function.update ga 1 0.947858
        let ga := Function.update ga 2 0.052142
        let ga := Function.update ga 3 0.077399
        Function.update ga 4 0.039293
      else if icm.gamma = "High_g1.3_s3.35" then
        let ga := Function.update ga 0 1.3
        let ga := Function.update ga 1 0.998279
        let ga := Function.update ga 2 0.001721
        let ga := Function.update ga 3 0.298507
        Function.update ga 4 0.005746
      else if icm.gamma = "Low_g2.6_s6.9" then
        let ga := Function.update ga 0 2.6
        let ga := Function.update ga 1 0.891161
        let ga := Function.update ga 2 0.108839
        let ga := Function.update ga 3 0.144928
        Function.update ga 4 0.076332
      else if icm.gamma = "standard_g2.2" then
        let ga := Function.update ga 0 2.2
        let ga := Function.update ga 1 1
        let ga := Function.update ga 2 0
        let ga := Function.update ga 3 (doubleDiv 1 eps)
        Function.update ga 4 0
      else if icm.gamma = "standard_g1.8" then
        let ga := Function.update ga 0 1.8
        let ga := Function.update ga 1 1
        let ga := Function.update ga 2 0
        let ga := Function.update ga 3 (doubleDiv 1 eps)
        Function.update ga 4 0
      else
        let ga := Function.update ga 0 1.0
        let ga := Function.update ga 1 1
        let ga := Function.update ga 2 0
        let ga := Function.update ga 3 (doubleDiv 1 eps)
        Function.update ga 4 0
    let ga := Function.update ga 5 0.0
    Function.update ga 6 0.0
  else
    let pwr : ℚ := 1.0 / icm.gampos
    let ts : ℚ := icm.slpos
    let slope : ℚ := if icm.slpos = 0 then eps else icm.slpos
    let mode : Int := 0
    let imax : Int := 0
    let g_a := calcGamma pwr ts mode imax
    let ga := Function.update ga 4 (g_a 3 * ts)
    let ga := Function.update ga 0 icm.gampos
    let ga := Function.update ga 1 (1 / (1.0 + g_a 4))
    let ga := Function.update ga 2 (g_a 4 / (1.0 + g_a 4))
    let ga := Function.update ga 3 (1 / slope)
    let ga := Function.update ga 5 0.0
    Function.update ga 6 0.0

/-- A solver stub that returns the same coefficients for every input. -/
def constSolver (g : GammaValues) : ℚ → ℚ → Int → Int → GammaValues :=
  fun _ _ _ _ => g

/-- Free-gamma parameters with the given power and slope. -/
def freeGammaParams (gampos slpos : ℚ) : ColorManagementParams :=
  { freegamma := true, gamma := "default", gampos := gampos, slpos := slpos,
    working := "sRGB", output := "sRGB" }

/-- Preset parameters with the given gamma name. -/
def presetParams (gamma : String) (gampos slpos : ℚ) : ColorManagementParams :=
  { freegamma := false, gamma := gamma, gampos := gampos, slpos := slpos,
    working := "sRGB", output := "sRGB" }

/-- The array of seven coefficients with the given content. -/
def gammaValues (l : List ℚ) : GammaValues := fun i => l.getD i.val 0

/-! ## The store: maps, profile contents, the directory loader -/

/-- The handle type `cmsHPROFILE`: a pointer to a profile `H` of the library, or null. -/
abbrev cmsHPROFILE (H : Type) := Option H

/-- `std::map::find`: the value stored under `k`, if any. A map is a list of pairs in
which `find` sees the first pair of a key. -/
def mapFind {V : Type} (m : List (String × V)) (k : String) : Option V :=
  match m with
  | [] => none
  | (k', v) :: m => if k' = k then some v else mapFind m k

/-- `std::map::insert (std::make_pair (k, v))`: does nothing when the key is present. -/
def mapInsert {V : Type} (m : List (String × V)) (k : String) (v : V) : List (String × V) :=
  match mapFind m k with
  | some _ => m
  | none => (k, v) :: m

/-- `std::map::erase` of the element with key `k`. -/
def mapErase {V : Type} (m : List (String × V)) (k : String) : List (String × V) :=
  match m with
  | [] => []
  | (k', v) :: m => if k' = k then mapErase m k else (k', v) :: mapErase m k

/-- The assignment `m[k] = v`. -/
def mapAssign {V : Type} (m : List (String × V)) (k : String) (v : V) : List (String × V) :=
  match mapFind m k with
  | some _ => m.map (fun p => if p.1 = k then (k, v) else p)
  | none => (k, v) :: m

/-- The class `ProfileContent`: the bytes read from a file, or a null `data` pointer. -/
structure ProfileContent where
  data : Option (List Nat)
  deriving DecidableEq, Repr

/-- The collaborators of the store: the file system, Glib's string functions and the
colour-management library. -/
structure Env (H : Type) where
  /-- `g_fopen` and `fread`: the bytes of a file, `none` when it cannot be opened. -/
  readFile : String → Option (List Nat)
  /-- `Glib::Dir`: the entries of a directory, `none` when the iteration throws. -/
  dir : String → Option (List String)
  /-- `Glib::file_test (path, Glib::FILE_TEST_IS_REGULAR)`. -/
  isRegular : String → Bool
  /-- `Glib::build_filename`. -/
  build_filename : String → String → String
  /-- `Glib::ustring::casefold`. -/
  casefold : String → String
  /-- `Glib::ustring::uppercase`. -/
  uppercase : String → String
  /-- `cmsOpenProfileFromMem`. -/
  cmsOpenProfileFromMem : List Nat → cmsHPROFILE H
  /-- `cmsGetColorSpace (profile) == cmsSigRgbData`. -/
  isRgb : H → Bool

/-- The constructor `ProfileContent::ProfileContent (const Glib::ustring& fileName)`. -/
def ProfileContent.ofFile {H : Type} (env : Env H) (fileName : String) : ProfileContent :=
  { data := env.readFile fileName }

/-- `ProfileContent::toProfile`. -/
def ProfileContent.toProfile {H : Type} (env : Env H) (c : ProfileContent) : cmsHPROFILE H :=
  match c.data with
  | some data => env.cmsOpenProfileFromMem data
  | none => none

/-- The three map pointers `loadProfiles` receives; a null pointer is `none`. -/
structure LoadMaps (H : Type) where
  profiles : Option (List (String × cmsHPROFILE H))
  profileContents : Option (List (String × ProfileContent))
  profileNames : Option (List (String × String))

/-- The body of the loop of `loadProfiles` for the directory entry `fileName`. -/
def loadProfilesEntry {H : Type} (env : Env H) (dirName : String) (nameUpper onlyRgb : Bool)
    (m : LoadMaps H) (fileName : String) : LoadMaps H :=
  if fileName.length < 4 then m
  else
    let extension := env.casefold (fileName.drop (fileName.length - 4))
    if extension ≠ ".icc" ∧ extension ≠ ".icm" then m
    else
      let filePath := env.build_filename dirName fileName
      if !env.isRegular filePath then m
      else
        let name := fileName.take (fileName.length - 4)
        let name := if nameUpper then env.uppercase name else name
        let m :=
          match m.profiles with
          | some profiles =>
            let content := ProfileContent.ofFile env filePath
            let profile := content.toProfile env
            match profile with
            | some h =>
              if !onlyRgb || env.isRgb h then
                { m with
                  profiles := some (mapInsert profiles name profile)
                  profileContents := m.profileContents.map (fun c => mapInsert c name content) }
              else m
            | none => m
          | none => m
        match m.profileNames with
        | some profileNames => { m with profileNames := some (mapInsert profileNames name filePath) }
        | none => m

/-- The function `loadProfiles`: the maps after the call. -/
def loadProfiles {H : Type} (env : Env H) (dirName : String) (m : LoadMaps H)
    (nameUpper onlyRgb : Bool) : LoadMaps H :=
  if dirName.isEmpty then m
  else
    match env.dir dirName with
    | some entries => entries.foldl (loadProfilesEntry env dirName nameUpper onlyRgb) m
    | none => m

/-- The data members of `ICCStore` that the modelled operations use. -/
structure ICCStore (H : Type) where
  wProfiles : List (String × cmsHPROFILE H)
  wProfilesGamma : List (String × cmsHPROFILE H)
  wMatrices : List (String × (Nat → Nat → ℚ))
  iwMatrices : List (String × (Nat → Nat → ℚ))
  profilesDir : String
  fileProfiles : List (String × cmsHPROFILE H)
  fileProfileContents : List (String × ProfileContent)
  stdProfilesDir : String
  fileStdProfiles : List (String × cmsHPROFILE H)
  fileStdProfilesFileNames : List (String × String)
  xyz : cmsHPROFILE H
  srgb : cmsHPROFILE H

/-- The result of an operation that may read files: the handle returned, the store after the
call, and the paths of the files the call tried to read, in order. -/
structure Lookup (H : Type) where
  profile : cmsHPROFILE H
  store : ICCStore H
  loads : List String

/-- `ICCStore::outputProfileExist`. -/
def outputProfileExist {H : Type} (s : ICCStore H) (name : String) : Bool :=
  (mapFind s.fileProfiles name).isSome

/-- `ICCStore::getProfile`. -/
def getProfile {H : Type} (env : Env H) (s : ICCStore H) (name : String) : Lookup H :=
  match mapFind s.fileProfiles name with
  | some r => { profile := r, store := s, loads := [] }
  | none =>
    if name.take 5 = "file:" then
      let content := ProfileContent.ofFile env (name.drop 5)
      let profile := content.toProfile env
      match profile with
      | some h =>
        { profile := some h
          store := { s with
            fileProfiles := mapInsert s.fileProfiles name profile
            fileProfileContents := mapInsert s.fileProfileContents name content }
          loads := [name.drop 5] }
      | none => { profile := none, store := s, loads := [name.drop 5] }
    else
      { profile := none, store := s, loads := [] }

/-- `ICCStore::getStdProfile`. -/
def getStdProfile {H : Type} (env : Env H) (s : ICCStore H) (name : String) : Lookup H :=
  let nameUpper := env.uppercase name
  match mapFind s.fileStdProfiles nameUpper with
  | some r => { profile := r, store := s, loads := [] }
  | none =>
    match mapFind s.fileStdProfilesFileNames nameUpper with
    | none => { profile := none, store := s, loads := [] }
    | some path =>
      let content := ProfileContent.ofFile env path
      let profile := content.toProfile env
      let fileStdProfiles :=
        match profile with
        | some _ => mapInsert s.fileStdProfiles nameUpper profile
        | none => s.fileStdProfiles
      { profile := profile
        store := { s with
          fileStdProfiles := fileStdProfiles
          fileStdProfilesFileNames := mapErase s.fileStdProfilesFileNames nameUpper }
        loads := [path] }

/-- `ICCStore::getContent`. -/
def getContent {H : Type} (s : ICCStore H) (name : String) : ProfileContent :=
  match mapFind s.fileProfileContents name with
  | some r => r
  | none => { data := none }

/-- `ICCStore::init`. -/
def init {H : Type} (env : Env H) (s : ICCStore H) (usrICCDir rtICCDir : String) : ICCStore H :=
  -- RawTherapee's profiles take precedence if a user's profile of the same name exists
  let profilesDir := env.build_filename rtICCDir "output"
  let m : LoadMaps H := { profiles := some [], profileContents := some [], profileNames := none }
  let m := loadProfiles env profilesDir m false true
  let m := loadProfiles env usrICCDir m false true
  -- Input profiles
  let stdProfilesDir := env.build_filename rtICCDir "input"
  let n : LoadMaps H := { profiles := none, profileContents := none, profileNames := some [] }
  let n := loadProfiles env stdProfilesDir n true false
  { s with
    profilesDir := profilesDir
    fileProfiles := m.profiles.getD []
    fileProfileContents := m.profileContents.getD []
    stdProfilesDir := stdProfilesDir
    fileStdProfiles := []
    fileStdProfilesFileNames := n.profileNames.getD [] }

/-! ## The working spaces -/

/-- The array `wpnames`. -/
def wpnames : List String :=
  ["sRGB", "Adobe RGB", "ProPhoto", "WideGamut", "BruceRGB", "Beta RGB", "BestRGB", "Rec2020"]

/-- The array `wpgamma`. -/
def wpgamma : List String :=
  ["default", "BT709_g2.2_s4.5", "sRGB_g2.4_s12.92", "linear_g1.0", "standard_g2.2",
   "standard_g1.8", "High_g1.3_s3.35", "Low_g2.6_s6.9"]

/-- The function `getGamma`. -/
def getGamma : List String :=
  (List.range wpgamma.length).foldl (fun res i => res ++ [wpgamma.getD i ""]) []

/-- The function `getWorkingProfiles`. -/
def getWorkingProfiles : List String :=
  (List.range wpnames.length).foldl (fun res i => res ++ [wpnames.getD i ""]) []

/-- The function `createXYZProfile`. -/
def createXYZProfile {H : Type} (cmsOpenProfileFromMem : List Nat → cmsHPROFILE H) (le : Bool) :
    Except Fault (cmsHPROFILE H) :=
  createFromMatrix cmsOpenProfileFromMem le identityMatrix false "XYZ"

/-- One pass of the loop of the constructor `ICCStore::ICCStore`, for the working space `i`.
The arrays `wprofiles` and `iwprofiles` of matrices (`iccmatrices.h`) are parameters; the two
calls of `createFromMatrix` use the default arguments of its declaration, `gamma = false` and
the empty name. -/
def constructorStep {H : Type} (cmsOpenProfileFromMem : List Nat → cmsHPROFILE H) (le : Bool)
    (wprofiles iwprofiles : Nat → Nat → Nat → ℚ) (s : ICCStore H) (i : Nat) :
    Except Fault (ICCStore H) := do
  let p ← createFromMatrix cmsOpenProfileFromMem le (wprofiles i) false ""
  let pg ← createFromMatrix cmsOpenProfileFromMem le (wprofiles i) true ""
  pure { s with
    wProfiles := mapAssign s.wProfiles (wpnames.getD i "") p
    wProfilesGamma := mapAssign s.wProfilesGamma (wpnames.getD i "") pg
    wMatrices := mapAssign s.wMatrices (wpnames.getD i "") (wprofiles i)
    iwMatrices := mapAssign s.iwMatrices (wpnames.getD i "") (iwprofiles i) }

/-- The constructor `ICCStore::ICCStore`; `cmsCreate_sRGBProfile` is the handle the library
returns for it. -/
def ICCStore.construct {H : Type} (cmsOpenProfileFromMem : List Nat → cmsHPROFILE H)
    (cmsCreate_sRGBProfile : cmsHPROFILE H) (le : Bool)
    (wprofiles iwprofiles : Nat → Nat → Nat → ℚ) : Except Fault (ICCStore H) := do
  let xyz ← createXYZProfile cmsOpenProfileFromMem le
  let s : ICCStore H :=
    { wProfiles := [], wProfilesGamma := [], wMatrices := [], iwMatrices := []
      profilesDir := "", fileProfiles := [], fileProfileContents := []
      stdProfilesDir := "", fileStdProfiles := [], fileStdProfilesFileNames := []
      xyz := xyz, srgb := cmsCreate_sRGBProfile }
  (List.range wpnames.length).foldlM
    (constructorStep cmsOpenProfileFromMem le wprofiles iwprofiles) s

/-- An additional fault: `->second` applied to the iterator `end ()` of a map. -/
inductive LookupFault where
  | endIteratorDereferenced
  deriving DecidableEq, Repr

/-- The common body of the four working-space lookups: `find (name)`, and `find ("sRGB")`
when the name is not a key. -/
def findOrSRGB {V : Type} (m : List (String × V)) (name : String) : Except LookupFault V :=
  match mapFind m name with
  | some r => .ok r
  | none =>
    match mapFind m "sRGB" with
    | some r => .ok r
    | none => .error .endIteratorDereferenced

/-- `ICCStore::workingSpaceMatrix`. -/
def workingSpaceMatrix {H : Type} (s : ICCStore H) (name : String) :
    Except LookupFault (Nat → Nat → ℚ) :=
  findOrSRGB s.wMatrices name

/-- `ICCStore::workingSpaceInverseMatrix`. -/
def workingSpaceInverseMatrix {H : Type} (s : ICCStore H) (name : String) :
    Except LookupFault (Nat → Nat → ℚ) :=
  findOrSRGB s.iwMatrices name

/-- `ICCStore::workingSpace`. -/
def workingSpace {H : Type} (s : ICCStore H) (name : String) :
    Except LookupFault (cmsHPROFILE H) :=
  findOrSRGB s.wProfiles name

/-- `ICCStore::workingSpaceGamma`. -/
def workingSpaceGamma {H : Type} (s : ICCStore H) (name : String) :
    Except LookupFault (cmsHPROFILE H) :=
  findOrSRGB s.wProfilesGamma name

/-! ### Sample collaborators for concrete runs -/

/-- Upper-casing of the ASCII letters of a string. -/
def asciiUpper (s : String) : String := String.mk (s.data.map Char.toUpper)

/-- Lower-casing of the ASCII letters of a string. -/
def asciiLower (s : String) : String := String.mk (s.data.map Char.toLower)

/-- A store with empty maps and null handles. -/
def emptyStore (H : Type) : ICCStore H :=
  { wProfiles := [], wProfilesGamma := [], wMatrices := [], iwMatrices := []
    profilesDir := "", fileProfiles := [], fileProfileContents := []
    stdProfilesDir := "", fileStdProfiles := [], fileStdProfilesFileNames := []
    xyz := none, srgb := none }

/-- A sample environment. Handles are the parsed bytes themselves; the parser accepts the
buffers that start with the byte 1 and rejects the others; a profile is RGB when its second
byte is 2. The application directory `/rt` holds `output/A.icc`, `output/Bad.icc` (rejected
by the parser) and `input/Nikon D700.icc`; the user directory `/home/icc` holds its own
`A.icc` and `U.icm`. -/
def sampleEnv : Env (List Nat) :=
  { readFile := fun p =>
      if p = "/rt/output/A.icc" then some [1, 2, 10]
      else if p = "/rt/output/Bad.icc" then some [0, 2, 11]
      else if p = "/rt/input/Nikon D700.icc" then some [1, 2, 12]
      else if p = "/home/icc/A.icc" then some [1, 2, 13]
      else if p = "/home/icc/U.icm" then some [1, 2, 14]
      else none
    dir := fun d =>
      if d = "/rt/output" then some ["A.icc", "Bad.icc", "readme.txt"]
      else if d = "/rt/input" then some ["Nikon D700.icc"]
      else if d = "/home/icc" then some ["U.icm", "A.icc"]
      else none
    isRegular := fun _ => true
    build_filename := fun a b => a ++ "/" ++ b
    casefold := asciiLower
    uppercase := asciiUpper
    cmsOpenProfileFromMem := fun b => if b.getD 0 0 = 1 then some b else none
    isRgb := fun h => h.getD 1 0 == 2 }

/-! ### What the directory loader does with one entry -/

/-- The name `loadProfiles` derives from a file name: the name without its last four
characters, upper-cased when `nameUpper` is set. -/
def derivedName {H : Type} (env : Env H) (nameUpper : Bool) (fileName : String) : String :=
  if nameUpper then env.uppercase (fileName.take (fileName.length - 4))
  else fileName.take (fileName.length - 4)

/-- The filter of `loadProfiles`: at least four characters, the last four case-fold to
`.icc` or `.icm`, and the path is a regular file. -/
def passesFilter {H : Type} (env : Env H) (dirName fileName : String) : Bool :=
  decide (4 ≤ fileName.length) &&
  (decide (env.casefold (fileName.drop (fileName.length - 4)) = ".icc") ||
    decide (env.casefold (fileName.drop (fileName.length - 4)) = ".icm")) &&
  env.isRegular (env.build_filename dirName fileName)

/-- The handle `loadProfiles` inserts for a directory entry, when a handle map is requested:
the entry passes the filter, its bytes parse, and the profile is RGB when only RGB profiles
are wanted. -/
def loadedHandle {H : Type} (env : Env H) (dirName : String) (onlyRgb : Bool)
    (fileName : String) : Option H :=
  if passesFilter env dirName fileName then
    match (ProfileContent.ofFile env (env.build_filename dirName fileName)).toProfile env with
    | some h => if !onlyRgb || env.isRgb h then some h else none
    | none => none
  else none

/-- An environment whose directory `/icc` lists `A.icc`, `a.ICM` and `B.txt`, all regular
files; no file parses. -/
def listingEnv : Env (List Nat) :=
  { readFile := fun _ => none
    dir := fun d => if d = "/icc" then some ["A.icc", "a.ICM", "B.txt"] else none
    isRegular := fun _ => true
    build_filename := fun a b => a ++ "/" ++ b
    casefold := asciiLower
    uppercase := asciiUpper
    cmsOpenProfileFromMem := fun _ => none
    isRgb := fun _ => false }

/-! ## `getSupportedIntents` and the intent queries -/

/-- Modelled from the spec: the constant `INTENT_PERCEPTUAL` of the colour library's header,
which is not part of the sources; the bit position of an intent is its ordinal, and
perceptual is the first of the four. -/
def INTENT_PERCEPTUAL : Nat := 0

/-- Modelled from the spec: the constant `INTENT_RELATIVE_COLORIMETRIC` of the colour
library's header, the second of the four intents. -/
def INTENT_RELATIVE_COLORIMETRIC : Nat := 1

/-- Modelled from the spec: the constant `INTENT_SATURATION` of the colour library's header,
the third of the four intents. -/
def INTENT_SATURATION : Nat := 2

/-- Modelled from the spec: the constant `INTENT_ABSOLUTE_COLORIMETRIC` of the colour
library's header, the fourth of the four intents. -/
def INTENT_ABSOLUTE_COLORIMETRIC : Nat := 3

/-- Modelled from the spec: the direction constant `LCMS_USED_AS_INPUT` of the colour
library's header. -/
def LCMS_USED_AS_INPUT : Nat := 0

/-- Modelled from the spec: the direction constant `LCMS_USED_AS_OUTPUT` of the colour
library's header. -/
def LCMS_USED_AS_OUTPUT : Nat := 1

/-- Modelled from the spec: the direction constant `LCMS_USED_AS_PROOF` of the colour
library's header. -/
def LCMS_USED_AS_PROOF : Nat := 2

/-- The state of `getSupportedIntents`: the `uint8_t` mask `result`, and the calls of
`cmsIsIntentSupported` made so far, each with its handle, intent and direction. -/
structure IntentState (H : Type) where
  result : Nat
  queries : List (H × Nat × Nat)

/-- The function `getSupportedIntent`; `cmsIsIntentSupported` is the library's query. -/
def getSupportedIntent {H : Type} (cmsIsIntentSupported : H → Nat → Nat → Bool)
    (profile : H) (intent direction : Nat) (st : IntentState H) : IntentState H :=
  let queries := st.queries ++ [(profile, intent, direction)]
  if cmsIsIntentSupported profile intent direction then
    { result := (st.result ||| (1 <<< intent)) % 256, queries := queries }
  else
    { result := st.result, queries := queries }

/-- The function `getSupportedIntents`. -/
def getSupportedIntents {H : Type} (cmsIsIntentSupported : H → Nat → Nat → Bool)
    (profile : cmsHPROFILE H) (direction : Nat) : IntentState H :=
  match profile with
  | none => { result := 0, queries := [] }
  | some h =>
    let st : IntentState H := { result := 0, queries := [] }
    let st := getSupportedIntent cmsIsIntentSupported h INTENT_PERCEPTUAL direction st
    let st := getSupportedIntent cmsIsIntentSupported h INTENT_RELATIVE_COLORIMETRIC direction st
    let st := getSupportedIntent cmsIsIntentSupported h INTENT_SATURATION direction st
    let st := getSupportedIntent cmsIsIntentSupported h INTENT_ABSOLUTE_COLORIMETRIC direction st
    st

/-- `ICCStore::getInputIntents`. -/
def getInputIntents {H : Type} (cmsIsIntentSupported : H → Nat → Nat → Bool)
    (profile : cmsHPROFILE H) : IntentState H :=
  getSupportedIntents cmsIsIntentSupported profile LCMS_USED_AS_INPUT

/-- `ICCStore::getOutputIntents`. -/
def getOutputIntents {H : Type} (cmsIsIntentSupported : H → Nat → Nat → Bool)
    (profile : cmsHPROFILE H) : IntentState H :=
  getSupportedIntents cmsIsIntentSupported profile LCMS_USED_AS_OUTPUT

/-- `ICCStore::getProofIntents`. -/
def getProofIntents {H : Type} (cmsIsIntentSupported : H → Nat → Nat → Bool)
    (profile : cmsHPROFILE H) : IntentState H :=
  getSupportedIntents cmsIsIntentSupported profile LCMS_USED_AS_PROOF

/-- A sample query: handles are numbers; handle 7 supports, as an output profile, the
perceptual and the saturation intent, and as an input profile all four. -/
def sampleIntentSupport : Nat → Nat → Nat → Bool :=
  fun h intent direction =>
    decide (h = 7) && (decide (direction = 0) ||
      (decide (direction = 1) && (decide (intent = 0) || decide (intent = 2))))

/-! ## `ICCStore::createCustomGammaOutputProfile` -/

/-- The output-profile names of `options.rtSettings` that `createCustomGammaOutputProfile`
reads. -/
structure RTSettings where
  prophoto : String
  adobe : String
  widegamut : String
  beta : String
  best : String
  bruce : String
  srgb : String
  srgb10 : String
  prophoto10 : String
  rec2020 : String

/-- The value of the local `pro` of `createCustomGammaOutputProfile` after its first
statement. -/
def customGammaPro (icm : ColorManagementParams) : Bool :=
  if icm.freegamma && decide (icm.gampos < 1.35) then
    true
  else if decide (icm.gamma = "linear_g1.0") || decide (icm.gamma = "High_g1.3_s3.35") then
    true
  else
    false

/-- The chain of tests of `createCustomGammaOutputProfile` that selects `outProfile`; `none`
is the final `else`, which returns `nullptr`. -/
def customGammaOutProfile {H : Type} (s : ICCStore H) (rt : RTSettings)
    (icm : ColorManagementParams) : Option String :=
  let pro := customGammaPro icm
  if decide (icm.working = "ProPhoto") && outputProfileExist s rt.prophoto && !pro then
    some rt.prophoto
  else if decide (icm.working = "Adobe RGB") && outputProfileExist s rt.adobe then
    some rt.adobe
  else if decide (icm.working = "WideGamut") && outputProfileExist s rt.widegamut then
    some rt.widegamut
  else if decide (icm.working = "Beta RGB") && outputProfileExist s rt.beta then
    some rt.beta
  else if decide (icm.working = "BestRGB") && outputProfileExist s rt.best then
    some rt.best
  else if decide (icm.working = "BruceRGB") && outputProfileExist s rt.bruce then
    some rt.bruce
  else if decide (icm.working = "sRGB") && outputProfileExist s rt.srgb && !pro then
    some rt.srgb
  else if decide (icm.working = "sRGB") && outputProfileExist s rt.srgb10 && pro then
    some rt.srgb10
  else if decide (icm.working = "ProPhoto") && outputProfileExist s rt.prophoto10 && pro then
    some rt.prophoto10
  else if decide (icm.working = "Rec2020") && outputProfileExist s rt.rec2020 then
    some rt.rec2020
  else
    none

/-- A call of `cmsWriteTag` on a profile: the description tag with its text, or one of the
tone-curve tags with the type and the parameters of the parametric curve. -/
inductive TagWrite (H : Type) where
  | description (profile : H) (text : String)
  | toneCurve (profile : H) (sig : Nat) (curveType : Int) (parameters : List ℚ)

/-- The text `createCustomGammaOutputProfile` puts in the description tag; `formatFloat` is
the stream output of a `float` at precision 2. -/
def customGammaDescription (formatFloat : ℚ → String) (icm : ColorManagementParams) : String :=
  if !icm.freegamma then
    if icm.gamma = "High_g1.3_s3.35" then "GammaTRC: High g=1.3 s=3.35"
    else if icm.gamma = "Low_g2.6_s6.9" then "GammaTRC: Low g=2.6 s=6.9"
    else if icm.gamma = "sRGB_g2.4_s12.92" then "GammaTRC: sRGB g=2.4 s=12.92"
    else if icm.gamma = "BT709_g2.2_s4.5" then "GammaTRC: BT709 g=2.2 s=4.5"
    else if icm.gamma = "linear_g1.0" then "GammaTRC: Linear g=1.0"
    else if icm.gamma = "standard_g2.2" then "GammaTRC: g=2.2"
    else if icm.gamma = "standard_g1.8" then "GammaTRC: g=1.8"
    else ""
  else
    "Manual GammaTRC: g=" ++ formatFloat icm.gampos ++ " s=" ++ formatFloat icm.slpos

/-- The result of `createCustomGammaOutputProfile`: the handle returned, the store after the
call, the files the call tried to read, and the calls of `cmsWriteTag` it made, in order. -/
structure CustomGammaResult (H : Type) where
  profile : cmsHPROFILE H
  store : ICCStore H
  loads : List String
  writes : List (TagWrite H)

/-- `ICCStore::createCustomGammaOutputProfile`. `mluAlloc` tells whether `cmsMLUalloc`
returns a record; `ga` is the array of seven curve parameters. -/
def createCustomGammaOutputProfile {H : Type} (env : Env H) (mluAlloc : Bool)
    (formatFloat : ℚ → String) (rt : RTSettings) (s : ICCStore H)
    (icm : ColorManagementParams) (ga : GammaValues) : CustomGammaResult H :=
  -- Check that output profiles exist, otherwise use LCMS2
  match customGammaOutProfile s rt icm with
  | none => { profile := none, store := s, loads := [], writes := [] }
  | some outProfile =>
    let r := getProfile env s outProfile
    match r.profile with
    | none => { profile := none, store := r.store, loads := r.loads, writes := [] }
    | some outputProfile =>
      -- 7 parameters for smoother curves
      let Parameters := [ga 0, ga 1, ga 2, ga 3, ga 4, ga 5, ga 6]
      let desc :=
        if mluAlloc then
          [TagWrite.description outputProfile (customGammaDescription formatFloat icm)]
        else []
      { profile := some outputProfile
        store := r.store
        loads := r.loads
        writes := desc ++
          [TagWrite.toneCurve outputProfile 0x72545243 5 Parameters,
           TagWrite.toneCurve outputProfile 0x67545243 5 Parameters,
           TagWrite.toneCurve outputProfile 0x62545243 5 Parameters] }

/-- The output-profile name the specification resolves for a working space and a value of
the professional flag: the second definition, after the words of the specification, that the
chain of tests of the code is compared with. -/
def resolvedOutputName (rt : RTSettings) (working : String) (pro : Bool) : Option String :=
  if working = "sRGB" then some (if pro then rt.srgb10 else rt.srgb)
  else if working = "ProPhoto" then some (if pro then rt.prophoto10 else rt.prophoto)
  else if working = "Adobe RGB" then some rt.adobe
  else if working = "WideGamut" then some rt.widegamut
  else if working = "Beta RGB" then some rt.beta
  else if working = "BestRGB" then some rt.best
  else if working = "BruceRGB" then some rt.bruce
  else if working = "Rec2020" then some rt.rec2020
  else none

/-- Sample settings: the names of the bundled output profiles. -/
def sampleSettings : RTSettings :=
  { prophoto := "RT_Large_gBT709", adobe := "RT_Medium_gsRGB", widegamut := "WideGamutRGB"
    beta := "BetaRGB", best := "BestRGB", bruce := "Bruce", srgb := "RT_sRGB"
    srgb10 := "RT_sRGB_g10", prophoto10 := "RT_Large_g10", rec2020 := "Rec2020" }

/-- Sample parameters: free gamma selected with power 2.4, while the preset field still
names the linear preset. -/
def stalePresetParams : ColorManagementParams :=
  { freegamma := true, gamma := "linear_g1.0", gampos := 2.4, slpos := 12.92
    working := "sRGB", output := "RT_sRGB" }

/-- A store whose output-profile cache holds `RT_sRGB` and `RT_sRGB_g10`. -/
def sampleOutputStore : ICCStore (List Nat) :=
  { emptyStore (List Nat) with
    fileProfiles := [("RT_sRGB", some [1, 2, 20]), ("RT_sRGB_g10", some [1, 2, 21])] }

/-! ## Sequences of calls on the store -/

/-- `ICCStore::getProfiles`: the keys of the output-profile map; `order` is the order in
which the iteration of a `std::map` meets a set of keys. -/
def getProfiles {H : Type} (order : List String → List String) (s : ICCStore H) :
    List String :=
  order (s.fileProfiles.map Prod.fst)

/-- `ICCStore::getProfilesFromDir`: the keys of a local map filled by two runs of the
loader. -/
def getProfilesFromDir {H : Type} (env : Env H) (order : List String → List String)
    (s : ICCStore H) (dirName : String) : List String :=
  let profiles : LoadMaps H :=
    { profiles := some [], profileContents := none, profileNames := none }
  let profiles := loadProfiles env s.profilesDir profiles false true
  let profiles := loadProfiles env dirName profiles false true
  order ((profiles.profiles.getD []).map Prod.fst)

/-- A call of one of the operations of the store that take its lock. -/
inductive StoreCall where
  | init (usrICCDir rtICCDir : String)
  | getProfile (name : String)
  | getStdProfile (name : String)
  | getContent (name : String)
  | getProfiles
  | getProfilesFromDir (dirName : String)
  | outputProfileExist (name : String)
  deriving DecidableEq, Repr

/-- The store after a call. `getContent`, `getProfiles`, `getProfilesFromDir` and
`outputProfileExist` only read the members of the store: they return a value and leave the
store as it is. -/
def runCall {H : Type} (env : Env H) (s : ICCStore H) (call : StoreCall) : ICCStore H :=
  match call with
  | StoreCall.init usrICCDir rtICCDir => init env s usrICCDir rtICCDir
  | StoreCall.getProfile name => (getProfile env s name).store
  | StoreCall.getStdProfile name => (getStdProfile env s name).store
  | StoreCall.getContent _ => s
  | StoreCall.getProfiles => s
  | StoreCall.getProfilesFromDir _ => s
  | StoreCall.outputProfileExist _ => s

/-- The output-profile cache is consistent: a name is a key of the handle map exactly when
it is a key of the content map, and then the handle is not null and is what the content
parses to. -/
def CacheConsistent {H : Type} (env : Env H) (P : List (String × cmsHPROFILE H))
    (C : List (String × ProfileContent)) : Prop :=
  ∀ k, (mapFind P k = none ∧ mapFind C k = none) ∨
    ∃ h c, mapFind P k = some (some h) ∧ mapFind C k = some c ∧ c.toProfile env = some h

theorem length_hostBytes (le : Bool) (v : Nat) : (hostBytes le v).length = 4 := by
  cases le <;> rfl

theorem take_flatMap_four {f : Nat → List Nat} (hf : ∀ x, (f x).length = 4) :
    ∀ (ws : List Nat) (k : Nat), (ws.flatMap f).take (4 * k) = (ws.take k).flatMap f
  | [], k => by simp
  | w :: ws, 0 => by simp
  | w :: ws, k + 1 => by
    have ih := take_flatMap_four hf ws k
    simp only [List.flatMap_cons, List.take_succ_cons]
    rw [List.take_append_eq_append_take, hf]
    have h1 : 4 * (k + 1) - 4 = 4 * k := by omega
    rw [h1, ih, List.take_of_length_le (by rw [hf]; omega)]

theorem drop_flatMap_four {f : Nat → List Nat} (hf : ∀ x, (f x).length = 4) :
    ∀ (ws : List Nat) (k : Nat), (ws.flatMap f).drop (4 * k) = (ws.drop k).flatMap f
  | [], k => by simp
  | w :: ws, 0 => by simp
  | w :: ws, k + 1 => by
    have ih := drop_flatMap_four hf ws k
    simp only [List.flatMap_cons, List.drop_succ_cons]
    rw [List.drop_append_eq_append_drop, hf]
    have h1 : 4 * (k + 1) - 4 = 4 * k := by omega
    rw [h1, ih, List.drop_of_length_le (by rw [hf]; omega)]
    simp

theorem length_flatMap_four {f : Nat → List Nat} (hf : ∀ x, (f x).length = 4) :
    ∀ (ws : List Nat), (ws.flatMap f).length = 4 * ws.length
  | [] => by simp
  | w :: ws => by
    simp only [List.flatMap_cons, List.length_append, hf, List.length_cons,
      length_flatMap_four hf ws]
    omega

theorem hostValue_hostBytes (le : Bool) (v : Nat) (hv : v < 4294967296) :
    hostValue le (hostBytes le v) = v := by
  cases le <;> simp [hostValue, hostBytes, leValue, beValue, leBytes, beBytes] <;> omega

theorem beBytes_of_bytes (a b c d : Nat) (ha : a < 256) (hb : b < 256) (hc : c < 256)
    (hd : d < 256) : beBytes (a * 16777216 + b * 65536 + c * 256 + d) = [a, b, c, d] := by
  simp only [beBytes, List.cons.injEq, and_true]
  refine ⟨?_, ?_, ?_, ?_⟩ <;> omega

theorem leBytes_of_bytes (a b c d : Nat) (ha : a < 256) (hb : b < 256) (hc : c < 256)
    (hd : d < 256) : leBytes (a * 16777216 + b * 65536 + c * 256 + d) = [d, c, b, a] := by
  simp only [leBytes, List.cons.injEq, and_true]
  refine ⟨?_, ?_, ?_, ?_⟩ <;> omega

theorem hostBytes_htonl (le : Bool) (v : Nat) :
    hostBytes le (htonl le v) = beBytes v := by
  cases le
  · simp [hostBytes, htonl]
  · have h := leBytes_of_bytes (v % 256) (v / 256 % 256) (v / 65536 % 256) (v / 16777216 % 256)
      (by omega) (by omega) (by omega) (by omega)
    simp only [hostBytes, htonl, if_true, beValue, leBytes, List.getD_cons_zero,
      List.getD_cons_succ, beBytes] at h ⊢
    exact h

theorem ntohl_hostValue_beBytes (le : Bool) (v : Nat) (hv : v < 4294967296) :
    ntohl le (hostValue le (beBytes v)) = v := by
  cases le
  · simp [ntohl, htonl, hostValue, beBytes, beValue]; omega
  · have h := leBytes_of_bytes (v % 256) (v / 256 % 256) (v / 65536 % 256) (v / 16777216 % 256)
      (by omega) (by omega) (by omega) (by omega)
    simp only [ntohl, htonl, hostValue, if_true, beValue, leValue, beBytes, List.getD_cons_zero,
      List.getD_cons_succ]
    rw [h]
    simp only [List.getD_cons_zero, List.getD_cons_succ]
    omega

theorem storeWord_words (le : Bool) (ws : List Nat) (k v : Nat) (hk : k < ws.length) :
    storeWord le (ws.flatMap (hostBytes le)) k v = .ok ((ws.set k v).flatMap (hostBytes le)) := by
  have hf := length_hostBytes le
  unfold storeWord storeBytes
  rw [length_flatMap_four hf, hf, if_pos (by omega)]
  have h1 : 4 * k + 4 = 4 * (k + 1) := by omega
  rw [h1, take_flatMap_four hf, drop_flatMap_four hf, List.set_eq_take_append_cons_drop,
    if_pos hk]
  simp [List.flatMap_append, List.flatMap_cons]

theorem loadWord_words (le : Bool) (ws : List Nat) (k : Nat) (hk : k < ws.length)
    (hv : ws.getD k 0 < 4294967296) :
    loadWord le (ws.flatMap (hostBytes le)) k = .ok (ws.getD k 0) := by
  have hf := length_hostBytes le
  unfold loadWord loadBytes
  rw [length_flatMap_four hf, if_pos (by omega), drop_flatMap_four hf]
  have hdrop : ws.drop k = ws.getD k 0 :: ws.drop (k + 1) := by
    rw [List.getD_eq_getElem _ _ hk]
    exact List.drop_eq_getElem_cons hk
  rw [hdrop, List.flatMap_cons, List.take_append_of_le_length (by rw [hf]),
    List.take_of_length_le (by rw [hf])]
  simp only [bind, Except.bind, pure, Except.pure]
  rw [hostValue_hostBytes le _ hv]

theorem set_map_take_append_drop (h : Nat → Nat) (ws : List Nat) (n : Nat) (hn : n < ws.length) :
    ((ws.take n).map h ++ ws.drop n).set n (h (ws.getD n 0))
      = (ws.take (n + 1)).map h ++ ws.drop (n + 1) := by
  have hlen : ((ws.take n).map h).length = n := by simp; omega
  rw [List.set_append_right _ _ (by omega), hlen, Nat.sub_self]
  have hd : ws.drop n = ws.getD n 0 :: ws.drop (n + 1) := by
    rw [List.getD_eq_getElem _ _ hn]
    exact List.drop_eq_getElem_cons hn
  have ht : ws.take (n + 1) = ws.take n ++ [ws.getD n 0] := by
    rw [List.take_succ, List.getElem?_eq_getElem hn, List.getD_eq_getElem _ _ hn]; rfl
  rw [hd, List.set_cons_zero, ht, List.map_append, List.append_assoc]
  rfl

theorem createFromMatrixHtonl_words (le : Bool) (ws : List Nat)
    (hws : ∀ k, k < ws.length → ws.getD k 0 < 4294967296) :
    ∀ n, n ≤ ws.length →
      createFromMatrixHtonl le n (ws.flatMap (hostBytes le))
        = .ok (((ws.take n).map (htonl le) ++ ws.drop n).flatMap (hostBytes le))
  | 0, _ => by simp [createFromMatrixHtonl, pure, Except.pure]
  | n + 1, hn => by
    have ih := createFromMatrixHtonl_words le ws hws n (by omega)
    unfold createFromMatrixHtonl at ih ⊢
    rw [List.range_succ, List.foldlM_append, ih]
    have hlen : ((ws.take n).map (htonl le) ++ ws.drop n).length = ws.length := by
      simp; omega
    have hget : ((ws.take n).map (htonl le) ++ ws.drop n).getD n 0 = ws.getD n 0 := by
      rw [List.getD_append_right _ _ _ _ (by simp)]
      have : min n ws.length = n := by omega
      simp [this]
    simp only [bind, Except.bind, List.foldlM_cons, List.foldlM_nil]
    rw [loadWord_words le _ n (by omega) (by rw [hget]; exact hws n (by omega))]
    simp only [hget]
    rw [storeWord_words le _ n _ (by omega),
      set_map_take_append_drop (htonl le) ws n (by omega)]
    rfl

theorem createFromMatrixHtonl_all (le : Bool) (ws : List Nat)
    (hws : ∀ k, k < ws.length → ws.getD k 0 < 4294967296) :
    createFromMatrixHtonl le ws.length (ws.flatMap (hostBytes le)) = .ok (ws.flatMap beBytes) := by
  rw [createFromMatrixHtonl_words le ws hws ws.length (le_refl _)]
  simp only [List.take_length, List.drop_length, List.append_nil, List.flatMap_def, List.map_map]
  congr 2
  apply List.map_congr_left
  intro w _
  exact hostBytes_htonl le w

set_option maxRecDepth 1000000 in
theorem createFromMatrixTags_eq (le gamma : Bool) :
    createFromMatrixTags le gamma
      = .ok ((profileWords gamma (fun _ _ => 0)).flatMap (hostBytes le), pbodyFinal) := by
  cases le <;> cases gamma <;> decide!

set_option maxRecDepth 100000 in
theorem length_profileWords (gamma : Bool) (x : Nat → Nat → Nat) :
    (profileWords gamma x).length = 256 := by
  cases gamma <;> rfl

set_option maxRecDepth 100000 in
theorem set_profileWords (gamma : Bool) (x : Nat → Nat → Nat) (i j v : Nat) (hi : i < 3)
    (hj : j < 3) :
    (profileWords gamma x).set (pbodyFinal.getD (j * 3 + 23) 0 / 4 + i + 2) v
      = profileWords gamma (setXYZ x i j v) := by
  interval_cases i <;> interval_cases j <;> cases gamma <;> rfl

theorem profileWords_congr (gamma : Bool) (x y : Nat → Nat → Nat)
    (h : ∀ i j, i < 3 → j < 3 → x i j = y i j) : profileWords gamma x = profileWords gamma y := by
  unfold profileWords
  rw [h 0 0, h 1 0, h 2 0, h 0 1, h 1 1, h 2 1, h 0 2, h 1 2, h 2 2] <;> omega

theorem createFromMatrixXYZ_eq (le gamma : Bool) (matrix : Nat → Nat → ℚ) :
    createFromMatrixXYZ le matrix pbodyFinal
        ((profileWords gamma (fun _ _ => 0)).flatMap (hostBytes le))
      = .ok ((profileWords gamma (matrixWords matrix)).flatMap (hostBytes le)) := by
  have step : ∀ (x : Nat → Nat → Nat) (i j v : Nat), i < 3 → j < 3 →
      storeWord le ((profileWords gamma x).flatMap (hostBytes le))
          (pbodyFinal.getD (j * 3 + 23) 0 / 4 + i + 2) v
        = .ok ((profileWords gamma (setXYZ x i j v)).flatMap (hostBytes le)) := by
    intro x i j v hi hj
    rw [storeWord_words le _ _ _ (by
      rw [length_profileWords]
      interval_cases j <;> simp [pbodyFinal] <;> omega), set_profileWords gamma x i j v hi hj]
  unfold createFromMatrixXYZ
  have hr : List.range 3 = [0, 1, 2] := rfl
  simp only [hr, List.foldlM_cons, List.foldlM_nil, bind, Except.bind, pure, Except.pure]
  simp only [step _ _ _ _ (by decide : (0 : Nat) < 3) (by decide : (0 : Nat) < 3),
    step _ _ _ _ (by decide : (0 : Nat) < 3) (by decide : (1 : Nat) < 3),
    step _ _ _ _ (by decide : (0 : Nat) < 3) (by decide : (2 : Nat) < 3),
    step _ _ _ _ (by decide : (1 : Nat) < 3) (by decide : (0 : Nat) < 3),
    step _ _ _ _ (by decide : (1 : Nat) < 3) (by decide : (1 : Nat) < 3),
    step _ _ _ _ (by decide : (1 : Nat) < 3) (by decide : (2 : Nat) < 3),
    step _ _ _ _ (by decide : (2 : Nat) < 3) (by decide : (0 : Nat) < 3),
    step _ _ _ _ (by decide : (2 : Nat) < 3) (by decide : (1 : Nat) < 3),
    step _ _ _ _ (by decide : (2 : Nat) < 3) (by decide : (2 : Nat) < 3)]
  rw [profileWords_congr gamma _ (matrixWords matrix)]
  intro i j hi hj
  interval_cases i <;> interval_cases j <;> simp [setXYZ, matrixWords]

theorem storeBytes_ok (mem : List Nat) (off : Nat) (src : List Nat)
    (h : off + src.length ≤ mem.length) : storeBytes mem off src = .ok (splice mem off src) := by
  simp [storeBytes, splice, h]

theorem storeBytes_fault (mem : List Nat) (off : Nat) (src : List Nat)
    (h : mem.length < off + src.length) : storeBytes mem off src = .error .writeOutOfBounds := by
  simp [storeBytes, Nat.not_le.mpr h]

theorem length_splice (mem : List Nat) (off : Nat) (src : List Nat)
    (h : off + src.length ≤ mem.length) : (splice mem off src).length = mem.length := by
  simp [splice]; omega

theorem take_splice (mem : List Nat) (off : Nat) (src : List Nat) (n : Nat) (hn : n ≤ off)
    (h : off + src.length ≤ mem.length) : (splice mem off src).take n = mem.take n := by
  unfold splice
  rw [List.append_assoc, List.take_append_of_le_length (by simp; omega), List.take_take]
  congr 1; omega

theorem toUnsigned_lt (x : ℚ) : toUnsigned x < 4294967296 := by
  unfold toUnsigned
  omega

theorem length_beBytes (v : Nat) : (beBytes v).length = 4 := rfl

set_option maxRecDepth 100000 in
theorem profileWords_lt (gamma : Bool) (x : Nat → Nat → Nat)
    (hx : ∀ i j, x i j < 4294967296) :
    ∀ k, k < (profileWords gamma x).length → (profileWords gamma x).getD k 0 < 4294967296 := by
  intro k hk
  rw [List.getD_eq_getElem _ _ hk]
  have hmem := List.getElem_mem hk
  generalize (profileWords gamma x)[k] = w at hmem
  have h00 := hx 0 0; have h10 := hx 1 0; have h20 := hx 2 0
  have h01 := hx 0 1; have h11 := hx 1 1; have h21 := hx 2 1
  have h02 := hx 0 2; have h12 := hx 1 2; have h22 := hx 2 2
  cases gamma <;>
    simp [profileWords, pcurve, phead, pbodyFinal, pwhite] at hmem <;> omega

theorem length_cstr_cprt : (cstr "--rawtherapee profile--").length = 23 := by decide

theorem length_profileBytes_aux (le : Bool) (matrix : Nat → Nat → ℚ) (gamma : Bool)
    (name : String) (hname : (cstr name).length ≤ 723) :
    ((profileWords gamma (matrixWords matrix)).flatMap beBytes).length = 1024 ∧
    (splice ((profileWords gamma (matrixWords matrix)).flatMap beBytes)
        260 (cstr "--rawtherapee profile--" ++ [0])).length = 1024 ∧
    (splice (splice ((profileWords gamma (matrixWords matrix)).flatMap beBytes)
        260 (cstr "--rawtherapee profile--" ++ [0]))
      296 (hostBytes le ((name.length + 1) % 4294967296))).length = 1024 ∧
    (profileBytes le matrix gamma name).length = 1024 := by
  have hB : ((profileWords gamma (matrixWords matrix)).flatMap beBytes).length = 1024 := by
    rw [length_flatMap_four length_beBytes, length_profileWords]
  have l1 : (splice ((profileWords gamma (matrixWords matrix)).flatMap beBytes) 260
      (cstr "--rawtherapee profile--" ++ [0])).length = 1024 := by
    rw [length_splice _ _ _ (by simp [length_cstr_cprt, hB]), hB]
  have l2 : (splice (splice ((profileWords gamma (matrixWords matrix)).flatMap beBytes) 260
      (cstr "--rawtherapee profile--" ++ [0]))
      296 (hostBytes le ((name.length + 1) % 4294967296))).length = 1024 := by
    rw [length_splice _ _ _ (by rw [length_hostBytes, l1]; omega), l1]
  refine ⟨hB, l1, l2, ?_⟩
  unfold profileBytes
  rw [length_splice _ _ _ (by rw [l2]; simp; omega), l2]

theorem length_profileBytes (le : Bool) (matrix : Nat → Nat → ℚ) (gamma : Bool)
    (name : String) (hname : (cstr name).length ≤ 723) :
    (profileBytes le matrix gamma name).length = 1024 :=
  (length_profileBytes_aux le matrix gamma name hname).2.2.2

theorem take_four_profileBytes (le : Bool) (matrix : Nat → Nat → ℚ) (gamma : Bool)
    (name : String) (hname : (cstr name).length ≤ 723) :
    (profileBytes le matrix gamma name).take 4 = beBytes 476 := by
  obtain ⟨hB, l1, l2, -⟩ := length_profileBytes_aux le matrix gamma name hname
  unfold profileBytes
  rw [take_splice _ _ _ _ (by omega) (by rw [l2]; simp; omega),
    take_splice _ _ _ _ (by omega) (by rw [length_hostBytes, l1]; omega),
    take_splice _ _ _ _ (by omega) (by simp [length_cstr_cprt, hB])]
  have h4 : 4 = 4 * 1 := rfl
  conv_lhs => rw [h4, take_flatMap_four length_beBytes]
  cases gamma <;> rfl

theorem createFromMatrixBuffer_eq (le : Bool) (matrix : Nat → Nat → ℚ) (gamma : Bool)
    (name : String) (hname : (cstr name).length ≤ 723) :
    createFromMatrixBuffer le matrix gamma name
      = .ok (profileBytes le matrix gamma name, 476) := by
  obtain ⟨hB, l1, l2, l3⟩ := length_profileBytes_aux le matrix gamma name hname
  have hfirst := take_four_profileBytes le matrix gamma name hname
  have h256 : phead.getD 0 0 / 4 = (profileWords gamma (matrixWords matrix)).length := by
    rw [length_profileWords]; rfl
  have hhtonl := createFromMatrixHtonl_all le (profileWords gamma (matrixWords matrix))
    (profileWords_lt gamma _ (fun i j => toUnsigned_lt _))
  have e2 : pbodyFinal.getD 2 0 + 8 = 260 := rfl
  have e5 : 4 * (pbodyFinal.getD 5 0 / 4 + 2) = 296 := rfl
  have e5b : pbodyFinal.getD 5 0 + 12 = 300 := rfl
  unfold createFromMatrixBuffer
  simp only [createFromMatrixTags_eq, bind, Except.bind, createFromMatrixXYZ_eq, h256, hhtonl,
    e2, e5, e5b, strcpy, storeWord]
  rw [storeBytes_ok _ 260 _ (by simp [length_cstr_cprt, hB])]
  simp only []
  rw [storeBytes_ok _ 296 _ (by rw [length_hostBytes, l1]; omega)]
  simp only []
  rw [storeBytes_ok _ 300 _ (by rw [l2]; simp; omega)]
  simp only [loadWord, loadBytes, bind, Except.bind, pure, Except.pure, Nat.mul_zero,
    Nat.zero_add, List.drop_zero]
  unfold profileBytes at l3 hfirst ⊢
  rw [if_pos (by rw [l3]; omega)]
  simp only [hfirst]
  rw [ntohl_hostValue_beBytes le 476 (by omega)]

theorem createFromMatrixBuffer_fault (le : Bool) (matrix : Nat → Nat → ℚ) (gamma : Bool)
    (name : String) (hname : 723 < (cstr name).length) :
    createFromMatrixBuffer le matrix gamma name = .error .writeOutOfBounds := by
  have hB : ((profileWords gamma (matrixWords matrix)).flatMap beBytes).length = 1024 := by
    rw [length_flatMap_four length_beBytes, length_profileWords]
  have l1 : (splice ((profileWords gamma (matrixWords matrix)).flatMap beBytes) 260
      (cstr "--rawtherapee profile--" ++ [0])).length = 1024 := by
    rw [length_splice _ _ _ (by simp [length_cstr_cprt, hB]), hB]
  have l2 : (splice (splice ((profileWords gamma (matrixWords matrix)).flatMap beBytes) 260
      (cstr "--rawtherapee profile--" ++ [0]))
      296 (hostBytes le ((name.length + 1) % 4294967296))).length = 1024 := by
    rw [length_splice _ _ _ (by rw [length_hostBytes, l1]; omega), l1]
  have h256 : phead.getD 0 0 / 4 = (profileWords gamma (matrixWords matrix)).length := by
    rw [length_profileWords]; rfl
  have hhtonl := createFromMatrixHtonl_all le (profileWords gamma (matrixWords matrix))
    (profileWords_lt gamma _ (fun i j => toUnsigned_lt _))
  have e2 : pbodyFinal.getD 2 0 + 8 = 260 := rfl
  have e5 : 4 * (pbodyFinal.getD 5 0 / 4 + 2) = 296 := rfl
  have e5b : pbodyFinal.getD 5 0 + 12 = 300 := rfl
  unfold createFromMatrixBuffer
  simp only [createFromMatrixTags_eq, bind, Except.bind, createFromMatrixXYZ_eq, h256, hhtonl,
    e2, e5, e5b, strcpy, storeWord]
  rw [storeBytes_ok _ 260 _ (by simp [length_cstr_cprt, hB])]
  simp only []
  rw [storeBytes_ok _ 296 _ (by rw [length_hostBytes, l1]; omega)]
  simp only []
  rw [storeBytes_fault _ 300 _ (by rw [l2]; simp; omega)]

theorem bytesAt_splice_left (mem : List Nat) (off : Nat) (src : List Nat) (a n : Nat)
    (h : off + src.length ≤ mem.length) (ha : a + n ≤ off) :
    bytesAt (splice mem off src) a n = bytesAt mem a n := by
  unfold bytesAt splice
  rw [List.append_assoc, List.drop_append_of_le_length (by simp; omega),
    List.take_append_of_le_length (by simp; omega), List.drop_take,
    List.take_take]
  congr 1; omega

theorem bytesAt_splice_right (mem : List Nat) (off : Nat) (src : List Nat) (a n : Nat)
    (h : off + src.length ≤ mem.length) (ha : off + src.length ≤ a) :
    bytesAt (splice mem off src) a n = bytesAt mem a n := by
  unfold bytesAt splice
  have hl : (mem.take off ++ src).length = off + src.length := by simp; omega
  have ha' : a = (mem.take off ++ src).length + (a - (off + src.length)) := by omega
  conv_lhs => rw [ha', List.drop_append, List.drop_drop]
  congr 2; omega

theorem bytesAt_splice_self (mem : List Nat) (off : Nat) (src : List Nat)
    (h : off + src.length ≤ mem.length) :
    bytesAt (splice mem off src) off src.length = src := by
  unfold bytesAt splice
  have hl : (mem.take off).length = off := by simp; omega
  have hd := @List.drop_append _ (mem.take off) (src ++ mem.drop (off + src.length)) 0
  rw [hl, Nat.add_zero, List.drop_zero] at hd
  rw [List.append_assoc, hd]
  simp

theorem bytesAt_sub (buf : List Nat) (a n k m : Nat) (h : k + m ≤ n) :
    bytesAt buf (a + k) m = bytesAt (bytesAt buf a n) k m := by
  unfold bytesAt
  rw [List.drop_take, List.take_take, List.drop_drop]
  congr 1; omega

theorem bytesAt_words (ws : List Nat) (k n : Nat) :
    bytesAt (ws.flatMap beBytes) (4 * k) (4 * n) = ((ws.drop k).take n).flatMap beBytes := by
  unfold bytesAt
  rw [drop_flatMap_four length_beBytes, take_flatMap_four length_beBytes]

theorem bytesAt_profileBytes_low (le : Bool) (matrix : Nat → Nat → ℚ) (gamma : Bool)
    (name : String) (hname : (cstr name).length ≤ 723) (k n : Nat) (h : 4 * k + 4 * n ≤ 260) :
    bytesAt (profileBytes le matrix gamma name) (4 * k) (4 * n)
      = (((profileWords gamma (matrixWords matrix)).drop k).take n).flatMap beBytes := by
  obtain ⟨hB, l1, l2, -⟩ := length_profileBytes_aux le matrix gamma name hname
  unfold profileBytes
  rw [bytesAt_splice_left _ _ _ _ _ (by rw [l2]; simp; omega) (by omega),
    bytesAt_splice_left _ _ _ _ _ (by rw [length_hostBytes, l1]; omega) (by omega),
    bytesAt_splice_left _ _ _ _ _ (by simp [length_cstr_cprt, hB]) (by omega), bytesAt_words]

theorem bytesAt_profileBytes_high (le : Bool) (matrix : Nat → Nat → ℚ) (gamma : Bool)
    (name : String) (hname : (cstr name).length ≤ 723) (k n : Nat)
    (h : 300 + (cstr name).length + 1 ≤ 4 * k) :
    bytesAt (profileBytes le matrix gamma name) (4 * k) (4 * n)
      = (((profileWords gamma (matrixWords matrix)).drop k).take n).flatMap beBytes := by
  obtain ⟨hB, l1, l2, -⟩ := length_profileBytes_aux le matrix gamma name hname
  unfold profileBytes
  rw [bytesAt_splice_right _ _ _ _ _ (by rw [l2]; simp; omega) (by simp; omega),
    bytesAt_splice_right _ _ _ _ _ (by rw [length_hostBytes, l1]; omega)
      (by rw [length_hostBytes]; omega),
    bytesAt_splice_right _ _ _ _ _ (by simp [length_cstr_cprt, hB])
      (by simp [length_cstr_cprt]; omega), bytesAt_words]

set_option maxRecDepth 100000 in
theorem directoryWords (gamma : Bool) (x : Nat → Nat → Nat) :
    ((profileWords gamma x).drop 32).take 31 = pbodyFinal := by
  cases gamma <;> rfl

set_option maxRecDepth 100000 in
theorem curveWords (gamma : Bool) (x : Nat → Nat → Nat) :
    ((profileWords gamma x).drop 92).take 12 = pcurve gamma ++ pcurve gamma ++ pcurve gamma := by
  cases gamma <;> rfl

theorem wordAt_of_bytesAt (buf : List Nat) (a n k : Nat) (l : List Nat)
    (h : bytesAt buf a n = l) (hk : k + 4 ≤ n) : wordAt buf (a + k) = wordAt l k := by
  unfold wordAt
  rw [bytesAt_sub buf a n k 4 hk, h]

theorem halfAt_of_bytesAt (buf : List Nat) (a n k : Nat) (l : List Nat)
    (h : bytesAt buf a n = l) (hk : k + 2 ≤ n) : halfAt buf (a + k) = halfAt l k := by
  unfold halfAt
  rw [bytesAt_sub buf a n k 2 hk, h]

theorem trcEntry_of_regions (buf c : List Nat) (hc : c.length = 4)
    (hdir : bytesAt buf 128 124 = pbodyFinal.flatMap beBytes)
    (hcur : bytesAt buf 368 48 = (c ++ c ++ c).flatMap beBytes) (i : Nat) (hi : i < 3) :
    tagSig buf (4 + i) = [0x72545243, 0x67545243, 0x62545243].getD i 0 ∧
    tagOffset buf (4 + i) = 368 + 16 * i ∧
    tagSize buf (4 + i) = 14 ∧
    bytesAt buf (368 + 16 * i) 16 = c.flatMap beBytes := by
  have hw : ∀ k, k + 4 ≤ 124 → wordAt buf (128 + k) = wordAt (pbodyFinal.flatMap beBytes) k :=
    fun k hk => wordAt_of_bytesAt buf 128 124 k _ hdir hk
  have hb : ∀ j, j < 3 → bytesAt buf (368 + 4 * (4 * j)) (4 * 4) = c.flatMap beBytes := by
    intro j hj
    rw [bytesAt_sub buf 368 48 _ _ (by omega), hcur, bytesAt_words]
    match c, hc with
    | [c0, c1, c2, c3], _ => interval_cases j <;> rfl
  interval_cases i
  · exact ⟨(hw 52 (by decide)).trans (by decide), (hw 56 (by decide)).trans (by decide),
      (hw 60 (by decide)).trans (by decide), hb 0 (by decide)⟩
  · exact ⟨(hw 64 (by decide)).trans (by decide), (hw 68 (by decide)).trans (by decide),
      (hw 72 (by decide)).trans (by decide), hb 1 (by decide)⟩
  · exact ⟨(hw 76 (by decide)).trans (by decide), (hw 80 (by decide)).trans (by decide),
      (hw 84 (by decide)).trans (by decide), hb 2 (by decide)⟩

theorem createFromMatrix_trc (le : Bool) (matrix : Nat → Nat → ℚ) (gamma : Bool)
    (name : String) (hname : (cstr name).length ≤ 67) (i : Nat) (hi : i < 3) :
    tagSig (profileBytes le matrix gamma name) (4 + i)
      = [0x72545243, 0x67545243, 0x62545243].getD i 0 ∧
    tagOffset (profileBytes le matrix gamma name) (4 + i) = 368 + 16 * i ∧
    tagSize (profileBytes le matrix gamma name) (4 + i) = 14 ∧
    bytesAt (profileBytes le matrix gamma name) (368 + 16 * i) 16
      = (pcurve gamma).flatMap beBytes := by
  have hdir := bytesAt_profileBytes_low le matrix gamma name (by omega) 32 31 (by omega)
  have hcur := bytesAt_profileBytes_high le matrix gamma name (by omega) 92 12 (by omega)
  rw [directoryWords] at hdir
  rw [curveWords] at hcur
  exact trcEntry_of_regions _ (pcurve gamma) (by cases gamma <;> rfl) hdir hcur i hi

/-! ## Theorems: `makeStdGammaProfile` -/

theorem land_mask (n : Nat) (hn : n < 4294967296) : n &&& 0xFFFFFFFC = n / 4 * 4 := by
  apply Nat.eq_of_testBit_eq
  intro i
  have hm : (0xFFFFFFFC : Nat) = (2 ^ 30 - 1) <<< 2 := by decide
  have hd : n / 4 * 4 = (n >>> 2) <<< 2 := by
    rw [Nat.shiftLeft_eq, Nat.shiftRight_eq_div_pow]
  rw [Nat.testBit_and, hm, hd, Nat.testBit_shiftLeft, Nat.testBit_shiftLeft,
    Nat.testBit_shiftRight, Nat.testBit_two_pow_sub_one]
  by_cases h2 : 2 ≤ i
  · have e : 2 + (i - 2) = i := by omega
    by_cases h32 : i < 32
    · have : i - 2 < 30 := by omega
      simp [h2, this, e]
    · have hf : n.testBit i = false :=
        Nat.testBit_lt_two_pow (Nat.lt_of_lt_of_le hn
          (by
            have : (4294967296 : Nat) = 2 ^ 32 := by norm_num
            rw [this]
            exact Nat.pow_le_pow_right (by decide) (by omega)))
      simp [hf, e]
  · simp [h2]

theorem align4_eq (x : Nat) (hx : x + 3 < 4294967296) : align4 x = roundUp4 x := by
  unfold align4 roundUp4
  rw [Nat.mod_eq_of_lt hx, land_mask _ hx]

theorem gamma_size_eq : gamma_size = 14 := by decide

theorem align4_gamma_size : align4 gamma_size = 16 := by decide

theorem hostBytes16_htons (le : Bool) (v : Nat) :
    hostBytes16 le (htons le v) = [v / 256 % 256, v % 256] := by
  cases le
  · simp [hostBytes16, htons]
  · simp only [hostBytes16, htons, if_true, List.cons.injEq, and_true]
    have ha : v % 256 < 256 := by omega
    have hb : v / 256 % 256 < 256 := by omega
    generalize v % 256 = a at ha ⊢
    generalize v / 256 % 256 = b at hb ⊢
    constructor <;> omega

theorem ntohl_hostValue_bytes (le : Bool) (b : List Nat) (hlen : b.length = 4)
    (hb : ∀ x ∈ b, x < 256) : ntohl le (hostValue le b) = beValue b := by
  match b, hlen with
  | [b0, b1, b2, b3], _ =>
    have h0 := hb b0 (by simp)
    have h1 := hb b1 (by simp)
    have h2 := hb b2 (by simp)
    have h3 := hb b3 (by simp)
    have e := beBytes_of_bytes b0 b1 b2 b3 h0 h1 h2 h3
    have hv : b0 * 16777216 + b1 * 65536 + b2 * 256 + b3 < 4294967296 := by omega
    have := ntohl_hostValue_beBytes le _ hv
    rw [e] at this
    rw [this]
    rfl

theorem bytesAt_add (buf : List Nat) (a m1 m2 : Nat) :
    bytesAt buf a (m1 + m2) = bytesAt buf a m1 ++ bytesAt buf (a + m1) m2 := by
  unfold bytesAt
  rw [List.take_add, List.drop_drop]

theorem length_bytesAt (buf : List Nat) (a n : Nat) (h : a + n ≤ buf.length) :
    (bytesAt buf a n).length = n := by
  unfold bytesAt
  simp; omega

theorem loadSource_ok (spare : Nat) (data : List Nat) (off n : Nat)
    (h : off + n ≤ data.length) :
    loadSource spare data off n = .ok (bytesAt data off n) := by
  unfold loadSource bytesAt
  rw [if_pos (by omega), List.drop_append_of_le_length (by omega),
    List.take_append_of_le_length (by simp; omega)]

theorem storeWords_three (le : Bool) (mem : List Nat) (off a b c : Nat)
    (h : off + 12 ≤ mem.length) :
    storeWords le mem off [htonl le a, htonl le b, htonl le c]
      = .ok (splice mem off (beBytes a ++ beBytes b ++ beBytes c)) := by
  unfold storeWords
  have e : [htonl le a, htonl le b, htonl le c].flatMap (hostBytes le)
      = beBytes a ++ beBytes b ++ beBytes c := by
    simp [List.flatMap_cons, hostBytes_htonl]
  rw [e, storeBytes_ok _ _ _ (by simp [length_beBytes]; omega)]

theorem advance_fst_ge (c : Nat × Nat) (t : IccTag) : c.1 ≤ (advance c t).1 := by
  unfold advance
  split
  · split <;> simp
  · simp

theorem align4_14 : align4 14 = 16 := by decide

theorem rewriteTag_spec (le : Bool) (spare : Nat) (data : List Nat) (st : RewriteState) (i : Nat) (t : IccTag)
    (L D : Nat) (hL : st.nd.length = L) (hL32 : L < 4294967296)
    (hi : 128 + 4 + i * 12 + 12 ≤ D) (hD : D ≤ st.offset)
    (hend : (advance (st.offset, st.gamma_offset) t).1 ≤ L)
    (hsrc : ¬ isTrcSig t.sig → t.offset + t.size ≤ data.length) :
    ∃ nd', rewriteTag le spare data st i t
        = .ok { nd := nd'
                offset := (advance (st.offset, st.gamma_offset) t).1
                gamma_offset := (advance (st.offset, st.gamma_offset) t).2 } ∧
      nd'.length = L ∧
      (∀ a m, (a + m ≤ 128 + 4 + i * 12 ∨ 128 + 4 + i * 12 + 12 ≤ a) →
        (a + m ≤ st.offset ∨ st.offset + written st.gamma_offset t ≤ a) →
        bytesAt nd' a m = bytesAt st.nd a m) ∧
      bytesAt nd' (128 + 4 + i * 12) 12
        = beBytes t.sig
          ++ beBytes (if isTrcSig t.sig then (advance (st.offset, st.gamma_offset) t).2
              else st.offset)
          ++ beBytes (if isTrcSig t.sig then 14 else t.size) ∧
      (¬ isTrcSig t.sig → bytesAt nd' st.offset t.size = bytesAt data t.offset t.size) ∧
      (isTrcSig t.sig → st.gamma_offset = 0 → bytesAt nd' st.offset 14 = curveBlock) := by
  have hmono := advance_fst_ge (st.offset, st.gamma_offset) t
  have hdir : (128 + 4 + i * 12) % 4294967296 = 128 + 4 + i * 12 :=
    Nat.mod_eq_of_lt (by simp only [] at hmono; omega)
  clear hmono
  have hentry : ∀ a b c : Nat, (beBytes a ++ beBytes b ++ beBytes c).length = 12 := by
    intro a b c; simp [length_beBytes]
  by_cases htrc : isTrcSig t.sig
  · have htrc' : t.sig = 0x62545243 ∨ t.sig = 0x67545243 ∨ t.sig = 0x72545243 ∨
        t.sig = 0x6B545243 := htrc
    by_cases hg : st.gamma_offset = 0
    · -- the curve block is written
      simp only [advance, htrc, hg, if_true] at hend ⊢
      have hc12 : (beBytes 0x63757276 ++ beBytes 0 ++ beBytes 1).length = 12 := hentry _ _ _
      have l1 : (splice st.nd st.offset (beBytes 0x63757276 ++ beBytes 0 ++ beBytes 1)).length
          = L := by rw [length_splice _ _ _ (by rw [hc12]; omega), hL]
      have l2 : (splice (splice st.nd st.offset (beBytes 0x63757276 ++ beBytes 0 ++ beBytes 1))
          (st.offset + 12) [stdGamma / 256 % 256, stdGamma % 256]).length = L := by
        rw [length_splice _ _ _ (by rw [l1]; simp; omega), l1]
      refine ⟨splice (splice (splice st.nd st.offset
          (beBytes 0x63757276 ++ beBytes 0 ++ beBytes 1))
          (st.offset + 12) [stdGamma / 256 % 256, stdGamma % 256])
          (128 + 4 + i * 12) (beBytes t.sig ++ beBytes st.offset ++ beBytes 14), ?_, ?_, ?_, ?_,
          ?_, ?_⟩
      · unfold rewriteTag
        simp only [if_pos htrc', hg, if_true, gamma_size_eq, bind, Except.bind, pure, Except.pure,
          align4_14, hdir, hostBytes16_htons]
        rw [storeWords_three le _ _ _ _ _ (by omega)]
        simp only [show ((14 : Nat) = 12) = False from by decide, if_false]
        rw [Nat.mod_eq_of_lt (by omega : st.offset + 12 < 4294967296),
          storeBytes_ok _ _ _ (by rw [l1]; simp; omega)]
        simp only []
        rw [Nat.mod_eq_of_lt (by omega : st.offset + 16 < 4294967296),
          storeWords_three le _ _ _ _ _ (by rw [l2]; omega)]
      · rw [length_splice _ _ _ (by rw [hentry, l2]; omega), l2]
      · intro a m h1 h2
        simp only [written, htrc, hg, if_true] at h2
        have e1 : bytesAt (splice (splice (splice st.nd st.offset
            (beBytes 0x63757276 ++ beBytes 0 ++ beBytes 1))
            (st.offset + 12) [stdGamma / 256 % 256, stdGamma % 256])
            (128 + 4 + i * 12) (beBytes t.sig ++ beBytes st.offset ++ beBytes 14)) a m
            = bytesAt (splice (splice st.nd st.offset
            (beBytes 0x63757276 ++ beBytes 0 ++ beBytes 1))
            (st.offset + 12) [stdGamma / 256 % 256, stdGamma % 256]) a m := by
          rcases h1 with h1 | h1
          · exact bytesAt_splice_left _ _ _ _ _ (by rw [hentry, l2]; omega) h1
          · exact bytesAt_splice_right _ _ _ _ _ (by rw [hentry, l2]; omega)
              (by rw [hentry]; omega)
        rw [e1]
        rcases h2 with h2 | h2
        · rw [bytesAt_splice_left _ _ _ _ _ (by rw [l1]; simp; omega) (by omega),
            bytesAt_splice_left _ _ _ _ _ (by rw [hc12]; omega) (by omega)]
        · rw [bytesAt_splice_right _ _ _ _ _ (by rw [l1]; simp; omega) (by simp; omega),
            bytesAt_splice_right _ _ _ _ _ (by rw [hc12]; omega) (by rw [hc12]; omega)]
      · have := bytesAt_splice_self (splice (splice st.nd st.offset
            (beBytes 0x63757276 ++ beBytes 0 ++ beBytes 1))
            (st.offset + 12) [stdGamma / 256 % 256, stdGamma % 256])
            (128 + 4 + i * 12) (beBytes t.sig ++ beBytes st.offset ++ beBytes 14)
            (by rw [hentry, l2]; omega)
        rw [hentry] at this
        exact this
      · intro h; exact (h (by first | exact htrc | trivial)).elim
      · intro _ _
        rw [bytesAt_splice_right _ _ _ _ _ (by rw [hentry, l2]; omega) (by rw [hentry]; omega),
          show (14 : Nat) = 12 + 2 from rfl, bytesAt_add]
        have p1 : bytesAt (splice (splice st.nd st.offset
            (beBytes 0x63757276 ++ beBytes 0 ++ beBytes 1))
            (st.offset + 12) [stdGamma / 256 % 256, stdGamma % 256]) st.offset 12
            = beBytes 0x63757276 ++ beBytes 0 ++ beBytes 1 := by
          rw [bytesAt_splice_left _ _ _ _ _ (by rw [l1]; simp; omega) (by omega)]
          have := bytesAt_splice_self st.nd st.offset
            (beBytes 0x63757276 ++ beBytes 0 ++ beBytes 1) (by rw [hc12]; omega)
          rw [hc12] at this
          exact this
        have p2 : bytesAt (splice (splice st.nd st.offset
            (beBytes 0x63757276 ++ beBytes 0 ++ beBytes 1))
            (st.offset + 12) [stdGamma / 256 % 256, stdGamma % 256]) (st.offset + 12) 2
            = [stdGamma / 256 % 256, stdGamma % 256] :=
          bytesAt_splice_self _ _ [stdGamma / 256 % 256, stdGamma % 256]
            (by rw [l1]; simp; omega)
        rw [p1, p2]
        rfl
    · -- the curve block exists already
      simp only [advance, htrc, hg, if_true, if_false] at hend ⊢
      refine ⟨splice st.nd (128 + 4 + i * 12)
          (beBytes t.sig ++ beBytes st.gamma_offset ++ beBytes 14), ?_, ?_, ?_, ?_, ?_, ?_⟩
      · unfold rewriteTag
        simp only [if_pos htrc', hg, if_false, gamma_size_eq, bind, Except.bind, pure,
          Except.pure, hdir]
        rw [storeWords_three le _ _ _ _ _ (by omega)]
      · rw [length_splice _ _ _ (by rw [hentry]; omega), hL]
      · intro a m h1 _
        rcases h1 with h1 | h1
        · exact bytesAt_splice_left _ _ _ _ _ (by rw [hentry]; omega) h1
        · exact bytesAt_splice_right _ _ _ _ _ (by rw [hentry]; omega) (by rw [hentry]; omega)
      · have := bytesAt_splice_self st.nd (128 + 4 + i * 12)
            (beBytes t.sig ++ beBytes st.gamma_offset ++ beBytes 14) (by rw [hentry]; omega)
        rw [hentry] at this
        exact this
      · intro h; exact (h (by first | exact htrc | trivial)).elim
      · intro _ h; exact (by first | exact absurd h hg | exact h.elim)
  · -- a payload is copied
    have htrc' : ¬ (t.sig = 0x62545243 ∨ t.sig = 0x67545243 ∨ t.sig = 0x72545243 ∨
        t.sig = 0x6B545243) := htrc
    have hs := hsrc htrc
    simp only [advance, htrc, if_false] at hend ⊢
    have hsz : t.size + 3 < 4294967296 := by unfold roundUp4 at hend; omega
    have hle : t.size ≤ roundUp4 t.size := by unfold roundUp4; omega
    have hpl : (bytesAt data t.offset t.size).length = t.size := length_bytesAt _ _ _ hs
    have l1 : (splice st.nd st.offset (bytesAt data t.offset t.size)).length = L := by
      rw [length_splice _ _ _ (by rw [hpl]; omega), hL]
    refine ⟨splice (splice st.nd st.offset (bytesAt data t.offset t.size))
        (128 + 4 + i * 12) (beBytes t.sig ++ beBytes st.offset ++ beBytes t.size),
        ?_, ?_, ?_, ?_, ?_, ?_⟩
    · unfold rewriteTag
      simp only [if_neg htrc', bind, Except.bind, pure, Except.pure, hdir]
      rw [loadSource_ok _ _ _ _ hs]
      simp only []
      rw [storeBytes_ok _ _ _ (by rw [hpl]; omega)]
      simp only []
      rw [storeWords_three le _ _ _ _ _ (by rw [l1]; omega), align4_eq _ hsz,
        Nat.mod_eq_of_lt (by omega)]
    · rw [length_splice _ _ _ (by rw [hentry, l1]; omega), l1]
    · intro a m h1 h2
      simp only [written, htrc, if_false] at h2
      have e1 : bytesAt (splice (splice st.nd st.offset (bytesAt data t.offset t.size))
          (128 + 4 + i * 12) (beBytes t.sig ++ beBytes st.offset ++ beBytes t.size)) a m
          = bytesAt (splice st.nd st.offset (bytesAt data t.offset t.size)) a m := by
        rcases h1 with h1 | h1
        · exact bytesAt_splice_left _ _ _ _ _ (by rw [hentry, l1]; omega) h1
        · exact bytesAt_splice_right _ _ _ _ _ (by rw [hentry, l1]; omega)
            (by rw [hentry]; omega)
      rw [e1]
      rcases h2 with h2 | h2
      · exact bytesAt_splice_left _ _ _ _ _ (by rw [hpl]; omega) h2
      · exact bytesAt_splice_right _ _ _ _ _ (by rw [hpl]; omega) (by rw [hpl]; omega)
    · have := bytesAt_splice_self (splice st.nd st.offset (bytesAt data t.offset t.size))
          (128 + 4 + i * 12) (beBytes t.sig ++ beBytes st.offset ++ beBytes t.size)
          (by rw [hentry, l1]; omega)
      rw [hentry] at this
      exact this
    · intro _
      rw [bytesAt_splice_right _ _ _ _ _ (by rw [hentry, l1]; omega) (by rw [hentry]; omega)]
      have := bytesAt_splice_self st.nd st.offset (bytesAt data t.offset t.size)
        (by rw [hpl]; omega)
      rw [hpl] at this
      exact this
    · intro h; exact (htrc (by first | exact h | trivial)).elim

theorem foldl_advance_fst_ge (ts : List IccTag) (c : Nat × Nat) :
    c.1 ≤ (ts.foldl advance c).1 := by
  induction ts generalizing c with
  | nil => simp
  | cons t ts ih =>
    rw [List.foldl_cons]
    exact Nat.le_trans (advance_fst_ge c t) (ih _)

theorem written_le (c : Nat × Nat) (t : IccTag) :
    c.1 + written c.2 t ≤ (advance c t).1 := by
  unfold written advance roundUp4
  split
  · split <;> simp
  · simp only []; omega

theorem rewriteTags_spec (le : Bool) (spare : Nat) (data : List Nat) (L D : Nat) (hL32 : L < 4294967296) :
    ∀ (ts : List IccTag) (i : Nat) (st : RewriteState),
      st.nd.length = L →
      128 + 4 + (i + ts.length) * 12 ≤ D →
      D ≤ st.offset →
      (ts.foldl advance (st.offset, st.gamma_offset)).1 ≤ L →
      (∀ t ∈ ts, ¬ isTrcSig t.sig → t.offset + t.size ≤ data.length) →
      ∃ nd', rewriteTags le spare data ts i st
          = .ok { nd := nd'
                  offset := (ts.foldl advance (st.offset, st.gamma_offset)).1
                  gamma_offset := (ts.foldl advance (st.offset, st.gamma_offset)).2 } ∧
        nd'.length = L ∧
        (∀ a m, (a + m ≤ 128 + 4 + i * 12 ∨ 128 + 4 + (i + ts.length) * 12 ≤ a) →
          (a + m ≤ st.offset ∨ (ts.foldl advance (st.offset, st.gamma_offset)).1 ≤ a) →
          bytesAt nd' a m = bytesAt st.nd a m) ∧
        (∀ k t, ts[k]? = some t →
          bytesAt nd' (128 + 4 + (i + k) * 12) 12
            = beBytes t.sig
              ++ beBytes (if isTrcSig t.sig then
                  (advance ((ts.take k).foldl advance (st.offset, st.gamma_offset)) t).2
                else ((ts.take k).foldl advance (st.offset, st.gamma_offset)).1)
              ++ beBytes (if isTrcSig t.sig then 14 else t.size) ∧
          (¬ isTrcSig t.sig →
            bytesAt nd' ((ts.take k).foldl advance (st.offset, st.gamma_offset)).1 t.size
              = bytesAt data t.offset t.size) ∧
          (isTrcSig t.sig → ((ts.take k).foldl advance (st.offset, st.gamma_offset)).2 = 0 →
            bytesAt nd' ((ts.take k).foldl advance (st.offset, st.gamma_offset)).1 14
              = curveBlock ∧
            bytesAt nd' (((ts.take k).foldl advance (st.offset, st.gamma_offset)).1 + 14) 2
              = bytesAt st.nd
                (((ts.take k).foldl advance (st.offset, st.gamma_offset)).1 + 14) 2))
  | [], i, st, hL, _, _, _, _ => by
    refine ⟨st.nd, rfl, hL, fun _ _ _ _ => rfl, ?_⟩
    intro k t hk
    simp at hk
  | t :: ts, i, st, hL, hdir, hD, hend, hsrc => by
    rw [List.foldl_cons] at hend
    have hmono1 := advance_fst_ge (st.offset, st.gamma_offset) t
    have hmono2 := foldl_advance_fst_ge ts (advance (st.offset, st.gamma_offset) t)
    have hw := written_le (st.offset, st.gamma_offset) t
    simp only [List.length_cons] at hdir
    obtain ⟨nd1, hstep, hlen1, hpres1, hentry1, hpay1, hcur1⟩ :=
      rewriteTag_spec le spare data st i t L D hL hL32 (by omega) hD (by omega)
        (hsrc t (List.mem_cons_self _ _))
    obtain ⟨nd', hloop, hlen', hpres', hfacts'⟩ :=
      rewriteTags_spec le spare data L D hL32 ts (i + 1)
        { nd := nd1
          offset := (advance (st.offset, st.gamma_offset) t).1
          gamma_offset := (advance (st.offset, st.gamma_offset) t).2 }
        hlen1 (by omega) (by simp only []; omega) hend
        (fun t' ht' => hsrc t' (List.mem_cons_of_mem _ ht'))
    simp only [Prod.mk.eta] at hpres' hfacts' hloop
    simp only [] at hw
    refine ⟨nd', ?_, hlen', ?_, ?_⟩
    · simp only [rewriteTags, bind, Except.bind, hstep, List.foldl_cons]
      exact hloop
    · intro a m h1 h2
      simp only [List.length_cons, List.foldl_cons] at h1 h2
      rw [hpres' a m (by omega) (by omega), hpres1 a m (by omega) (by omega)]
    · intro k t' hk
      cases k with
      | zero =>
        simp only [List.getElem?_cons_zero, Option.some.injEq] at hk
        subst hk
        simp only [List.take_zero, List.foldl_nil, Nat.add_zero]
        refine ⟨?_, ?_, ?_⟩
        · rw [hpres' _ _ (by omega) (by omega)]
          exact hentry1
        · intro h
          have hw' : st.offset + t.size ≤ (advance (st.offset, st.gamma_offset) t).1 := by
            simpa [written, h] using hw
          rw [hpres' _ _ (by omega) (by omega)]
          exact hpay1 h
        · intro h hg
          have hw' : st.offset + 14 ≤ (advance (st.offset, st.gamma_offset) t).1 := by
            simpa [written, h, hg] using hw
          have h16 : (advance (st.offset, st.gamma_offset) t).1 = st.offset + 16 := by
            simp [advance, h, hg]
          rw [hpres' _ _ (by omega) (by omega), hpres' _ _ (by omega) (by omega)]
          refine ⟨hcur1 h hg, hpres1 _ _ (by omega) (Or.inr ?_)⟩
          simp only [written, h, hg, if_true]
          omega
      | succ k =>
        simp only [List.getElem?_cons_succ] at hk
        obtain ⟨f1, f2, f3⟩ := hfacts' k t' hk
        simp only [List.take_succ_cons, List.foldl_cons]
        rw [show i + (k + 1) = i + 1 + k from by omega]
        refine ⟨f1, f2, fun h hg => ?_⟩
        obtain ⟨f4, f5⟩ := f3 h hg
        refine ⟨f4, ?_⟩
        rw [f5]
        have hm := foldl_advance_fst_ge (ts.take k) (advance (st.offset, st.gamma_offset) t)
        exact hpres1 _ _ (by omega) (Or.inr (by omega))

theorem mem_bytesAt (buf : List Nat) (a n x : Nat) (h : x ∈ bytesAt buf a n) : x ∈ buf :=
  List.mem_of_mem_drop (List.mem_of_mem_take h)

theorem beValue_lt (b : List Nat) (hb : ∀ x ∈ b, x < 256) : beValue b < 4294967296 := by
  have h : ∀ k, b.getD k 0 < 256 := by
    intro k
    by_cases hk : k < b.length
    · rw [List.getD_eq_getElem _ _ hk]
      exact hb _ (List.getElem_mem hk)
    · rw [List.getD_eq_default _ _ (by omega)]
      decide
  have h0 := h 0; have h1 := h 1; have h2 := h 2; have h3 := h 3
  unfold beValue
  omega

theorem wordAt_lt (buf : List Nat) (hb : ∀ x ∈ buf, x < 256) (off : Nat) :
    wordAt buf off < 4294967296 :=
  beValue_lt _ (fun x hx => hb x (mem_bytesAt _ _ _ _ hx))

theorem beValue_beBytes (v : Nat) (hv : v < 4294967296) : beValue (beBytes v) = v := by
  simp only [beValue, beBytes, List.getD_cons_zero, List.getD_cons_succ]
  omega

theorem readTag_ok (le : Bool) (spare : Nat) (data : List Nat) (hb : ∀ x ∈ data, x < 256)
    (tags : List IccTag) (d i : Nat) (hlen : 128 + 4 + 12 * i + 12 ≤ data.length) :
    readTag le spare data (tags, d) i
      = .ok (tags ++ [sourceTag data i],
          if isTrcSig (tagSig data i) then d
          else (d + align4 (tagSize data i)) % 4294967296) := by
  have hraw : ∀ k, k + 4 ≤ 12 →
      ntohl le (hostValue le (bytesAt (bytesAt data (128 + 4 + 12 * i) 12) k 4))
        = wordAt data (128 + 4 + i * 12 + k) := by
    intro k hk
    rw [ntohl_hostValue_bytes le _
      (length_bytesAt _ _ _ (by rw [length_bytesAt _ _ _ hlen]; omega))
      (fun x hx => hb x (mem_bytesAt _ _ _ _ (mem_bytesAt _ _ _ _ hx))),
      ← bytesAt_sub _ _ 12 k 4 hk, Nat.mul_comm 12 i]
    rfl
  have e0 := hraw 0 (by decide)
  have e4 := hraw 4 (by decide)
  have e8 := hraw 8 (by decide)
  simp only [bytesAt, List.drop_zero, Nat.add_zero] at e0 e4 e8
  unfold readTag
  simp only [loadSource_ok _ _ _ _ hlen, bind, Except.bind, bytesAt, e0, e4, e8]
  by_cases htrc : isTrcSig (tagSig data i)
  · have : ¬ (wordAt data (128 + 4 + i * 12) ≠ 0x62545243 ∧
        wordAt data (128 + 4 + i * 12) ≠ 0x67545243 ∧
        wordAt data (128 + 4 + i * 12) ≠ 0x72545243 ∧
        wordAt data (128 + 4 + i * 12) ≠ 0x6B545243) := by
      unfold isTrcSig tagSig at htrc
      omega
    rw [if_neg this, if_pos htrc]
    rfl
  · have : (wordAt data (128 + 4 + i * 12) ≠ 0x62545243 ∧
        wordAt data (128 + 4 + i * 12) ≠ 0x67545243 ∧
        wordAt data (128 + 4 + i * 12) ≠ 0x72545243 ∧
        wordAt data (128 + 4 + i * 12) ≠ 0x6B545243) := by
      unfold isTrcSig tagSig at htrc
      omega
    rw [if_pos this, if_neg htrc]
    rfl

theorem payloadSize_append (l1 l2 : List IccTag) :
    payloadSize (l1 ++ l2) = payloadSize l1 + payloadSize l2 := by
  simp [payloadSize]

theorem readTags_ok (le : Bool) (spare : Nat) (data : List Nat) (hb : ∀ x ∈ data, x < 256) (d0 : Nat) :
    ∀ n, 128 + 4 + 12 * n ≤ data.length →
      d0 + payloadSize ((List.range n).map (sourceTag data)) < 4294967296 →
      (List.range n).foldlM (readTag le spare data) ([], d0)
        = .ok ((List.range n).map (sourceTag data),
            d0 + payloadSize ((List.range n).map (sourceTag data)))
  | 0, _, _ => by simp [payloadSize, pure, Except.pure]
  | n + 1, hlen, hsum => by
    rw [List.range_succ, List.map_append, payloadSize_append] at hsum
    have ih := readTags_ok le spare data hb d0 n (by omega) (by omega)
    rw [List.range_succ, List.foldlM_append, ih]
    simp only [bind, Except.bind, List.foldlM_cons, List.foldlM_nil]
    rw [readTag_ok le spare data hb _ _ n (by omega)]
    simp only [pure, Except.pure, List.map_append, List.map_cons, List.map_nil,
      payloadSize_append]
    congr 2
    simp only [payloadSize, List.map_cons, List.map_nil, List.sum_cons, List.sum_nil,
      sourceTag] at hsum ⊢
    by_cases htrc : isTrcSig (tagSig data n)
    · simp [htrc]
    · simp only [htrc, if_false] at hsum ⊢
      have hsz : tagSize data n + 3 < 4294967296 := by unfold roundUp4 at hsum; omega
      rw [align4_eq _ hsz, Nat.mod_eq_of_lt (by omega)]
      omega

theorem payloadSize_cons (t : IccTag) (ts : List IccTag) :
    payloadSize (t :: ts)
      = (if isTrcSig t.sig then 0 else roundUp4 t.size) + payloadSize ts := by
  simp [payloadSize]

theorem foldl_advance_fst_le (ts : List IccTag) (c : Nat × Nat) (hc : 0 < c.1) :
    (ts.foldl advance c).1 ≤ c.1 + (if c.2 = 0 then 16 else 0) + payloadSize ts := by
  induction ts generalizing c with
  | nil => simp [payloadSize]
  | cons t ts ih =>
    rw [List.foldl_cons, payloadSize_cons]
    have h := ih (advance c t) (Nat.lt_of_lt_of_le hc (advance_fst_ge c t))
    unfold advance at h ⊢
    by_cases htrc : isTrcSig t.sig
    · by_cases hg : c.2 = 0
      · simp only [htrc, hg, if_true] at h ⊢
        have : ¬ c.1 = 0 := by omega
        simp only [this, if_false] at h
        omega
      · simp only [htrc, hg, if_true, if_false] at h ⊢
        omega
    · simp only [htrc, if_false] at h ⊢
      omega

theorem foldl_advance_snd_stable (ts : List IccTag) (c : Nat × Nat) (hc : c.2 ≠ 0) :
    (ts.foldl advance c).2 = c.2 := by
  induction ts generalizing c with
  | nil => rfl
  | cons t ts ih =>
    rw [List.foldl_cons]
    have h : (advance c t).2 = c.2 := by
      unfold advance
      split
      · simp [hc]
      · rfl
    rw [ih (advance c t) (by rw [h]; exact hc), h]

theorem advance_snd_trc (c : Nat × Nat) (t : IccTag) (ht : isTrcSig t.sig) (hc : 0 < c.1) :
    (advance c t).2 ≠ 0 ∧ (c.2 = 0 → (advance c t).2 = c.1) := by
  unfold advance
  rw [if_pos ht]
  by_cases hg : c.2 = 0
  · rw [if_pos hg]
    exact ⟨by simp only []; omega, fun _ => rfl⟩
  · rw [if_neg hg]
    exact ⟨hg, fun h => absurd h hg⟩

theorem length_sourceTags (data : List Nat) : (sourceTags data).length = wordAt data 128 := by
  simp [sourceTags]

theorem getElem?_sourceTags (data : List Nat) (k : Nat) (hk : k < wordAt data 128) :
    (sourceTags data)[k]? = some (sourceTag data k) := by
  simp [sourceTags, hk]

theorem cursor_fst_ge (data : List Nat) (k : Nat) :
    128 + 4 + wordAt data 128 * 12 ≤ (cursor data k).1 :=
  foldl_advance_fst_ge _ (128 + 4 + wordAt data 128 * 12, 0)

theorem cursor_succ (data : List Nat) (k : Nat) (hk : k < wordAt data 128) :
    cursor data (k + 1) = advance (cursor data k) (sourceTag data k) := by
  unfold cursor
  rw [List.take_succ, getElem?_sourceTags data k hk, List.foldl_append]
  rfl

theorem cursor_final (data : List Nat) (k : Nat) :
    cursor data (wordAt data 128)
      = ((sourceTags data).drop k).foldl advance (cursor data k) := by
  unfold cursor
  rw [← List.foldl_append]
  congr 1
  rw [List.take_of_length_le (by rw [length_sourceTags]), List.take_append_drop]

theorem gammaOffset_of_trc (data : List Nat) (k : Nat) (hk : k < wordAt data 128)
    (ht : isTrcSig (tagSig data k)) :
    gammaOffset data = (advance (cursor data k) (sourceTag data k)).2 ∧
    gammaOffset data ≠ 0 := by
  have hpos : 0 < (cursor data k).1 := by
    have := cursor_fst_ge data k
    omega
  obtain ⟨hne, -⟩ := advance_snd_trc (cursor data k) (sourceTag data k) ht hpos
  unfold gammaOffset
  rw [cursor_final data (k + 1), cursor_succ data k hk,
    foldl_advance_snd_stable _ _ hne]
  exact ⟨rfl, hne⟩

theorem exists_first_trc (ts : List IccTag) (c : Nat × Nat) (hc : 0 < c.1) (hg : c.2 = 0)
    (h : ∃ t ∈ ts, isTrcSig t.sig) :
    ∃ k t, ts[k]? = some t ∧ isTrcSig t.sig ∧ ((ts.take k).foldl advance c).2 = 0 ∧
      ((ts.take k).foldl advance c).1 = (ts.foldl advance c).2 := by
  induction ts generalizing c with
  | nil => simp at h
  | cons t ts ih =>
    by_cases ht : isTrcSig t.sig
    · refine ⟨0, t, by simp, ht, hg, ?_⟩
      obtain ⟨hne, heq⟩ := advance_snd_trc c t ht hc
      rw [List.foldl_cons, foldl_advance_snd_stable _ _ hne, heq hg]
      rfl
    · have h' : ∃ t' ∈ ts, isTrcSig t'.sig := by
        obtain ⟨t', hm, ht'⟩ := h
        rcases List.mem_cons.mp hm with rfl | hm
        · exact absurd ht' ht
        · exact ⟨t', hm, ht'⟩
      have hadv : (advance c t).2 = 0 := by
        unfold advance
        rw [if_neg ht]
        exact hg
      obtain ⟨k, t', h1, h2, h3, h4⟩ :=
        ih (advance c t) (Nat.lt_of_lt_of_le hc (advance_fst_ge c t)) hadv h'
      exact ⟨k + 1, t', by simpa using h1, h2, by simpa using h3, by simpa using h4⟩

theorem bytesAt_replicate (sz a m : Nat) (h : a + m ≤ sz) :
    bytesAt (List.replicate sz 0) a m = List.replicate m 0 := by
  unfold bytesAt
  rw [List.drop_replicate, List.take_replicate]
  congr 1
  omega

theorem makeStdGammaBuffer_spec (le : Bool) (spare : Nat) (data : List Nat) (h : WellFormed data) :
    ∃ nd, makeStdGammaBuffer le spare data = .ok nd ∧
      nd.length = 128 + 4 + 12 * wordAt data 128 + 16 + payloadSize (sourceTags data) ∧
      (cursor data (wordAt data 128)).1 ≤ nd.length ∧
      bytesAt nd 0 4 = beBytes nd.length ∧
      bytesAt nd 4 128 = bytesAt data 4 128 ∧
      (∀ k, k < wordAt data 128 →
        bytesAt nd (128 + 4 + k * 12) 12
          = beBytes (tagSig data k)
            ++ beBytes (if isTrcSig (tagSig data k) then gammaOffset data
                else newOffset data k)
            ++ beBytes (if isTrcSig (tagSig data k) then 14 else tagSize data k) ∧
        (¬ isTrcSig (tagSig data k) →
          bytesAt nd (newOffset data k) (tagSize data k)
            = bytesAt data (tagOffset data k) (tagSize data k))) ∧
      ((∃ k, k < wordAt data 128 ∧ isTrcSig (tagSig data k)) →
        bytesAt nd (gammaOffset data) 14 = curveBlock ∧
        bytesAt nd (gammaOffset data + 14) 2 = [0, 0]) := by
  obtain ⟨hb, hdir, hpay, hwrap⟩ := h
  have hcount : ntohl le (hostValue le (bytesAt data 128 4)) = wordAt data 128 :=
    ntohl_hostValue_bytes le _ (length_bytesAt _ _ _ (by omega))
      (fun x hx => hb x (mem_bytesAt _ _ _ _ hx))
  have hloop1 : (List.range (wordAt data 128)).foldlM (readTag le spare data) ([], 16)
      = .ok (sourceTags data, 16 + payloadSize (sourceTags data)) :=
    readTags_ok le spare data hb 16 (wordAt data 128) hdir (by
      have : sourceTags data = (List.range (wordAt data 128)).map (sourceTag data) := rfl
      rw [← this]
      omega)
  have hsz : (128 + 4 + wordAt data 128 * 12 + (16 + payloadSize (sourceTags data)))
        % 4294967296
      = 128 + 4 + 12 * wordAt data 128 + 16 + payloadSize (sourceTags data) := by
    rw [Nat.mod_eq_of_lt (by omega)]
    omega
  have hoff : (128 + 4 + wordAt data 128 * 12) % 4294967296
      = 128 + 4 + wordAt data 128 * 12 := Nat.mod_eq_of_lt (by omega)
  generalize hL : 128 + 4 + 12 * wordAt data 128 + 16 + payloadSize (sourceTags data) = L
    at hsz
  have hL32 : L < 4294967296 := by omega
  have hhead : (bytesAt data 0 (128 + 4)).length = 132 := length_bytesAt _ _ _ (by omega)
  have l1 : (splice (List.replicate L 0) 0 (bytesAt data 0 (128 + 4))).length = L := by
    rw [length_splice _ _ _ (by rw [hhead]; simp; omega)]
    simp
  have l2 : (splice (splice (List.replicate L 0) 0 (bytesAt data 0 (128 + 4))) 0
      (beBytes L)).length = L := by
    rw [length_splice _ _ _ (by rw [length_beBytes, l1]; omega), l1]
  have hend : ((sourceTags data).foldl advance (128 + 4 + wordAt data 128 * 12, 0)).1 ≤ L := by
    have := foldl_advance_fst_le (sourceTags data) (128 + 4 + wordAt data 128 * 12, 0)
      (by simp only []; omega)
    simp only [if_true] at this
    omega
  have hsrc : ∀ t ∈ sourceTags data, ¬ isTrcSig t.sig → t.offset + t.size ≤ data.length := by
    intro t ht _
    unfold sourceTags at ht
    obtain ⟨i, hi, rfl⟩ := List.mem_map.mp ht
    exact hpay i (List.mem_range.mp hi)
  obtain ⟨nd, hloop2, hlen, hpres, hfacts⟩ :=
    rewriteTags_spec le spare data L (128 + 4 + wordAt data 128 * 12) hL32 (sourceTags data) 0
      { nd := splice (splice (List.replicate L 0) 0 (bytesAt data 0 (128 + 4))) 0 (beBytes L)
        offset := 128 + 4 + wordAt data 128 * 12
        gamma_offset := 0 }
      l2 (by rw [length_sourceTags]; omega) (Nat.le_refl _) hend hsrc
  simp only [Nat.zero_add, Nat.zero_mul, Nat.add_zero] at hpres hfacts
  have hfinal : (sourceTags data).foldl advance (128 + 4 + wordAt data 128 * 12, 0)
      = cursor data (wordAt data 128) := by
    unfold cursor
    rw [List.take_of_length_le (by rw [length_sourceTags])]
  refine ⟨nd, ?_, hlen, by rw [← hfinal, hlen]; exact hend, ?_, ?_, ?_, ?_⟩
  · unfold makeStdGammaBuffer
    simp only [loadSource_ok spare data 128 4 (by omega), bind, Except.bind, hcount,
      align4_gamma_size, hloop1, hsz, hoff, loadSource_ok spare data 0 (128 + 4) (by omega),
      hostBytes_htonl]
    rw [storeBytes_ok _ _ _ (by rw [hhead]; simp; omega)]
    simp only []
    rw [storeBytes_ok _ _ _ (by rw [length_beBytes, l1]; omega)]
    simp only [hloop2]
    rfl
  · rw [hpres 0 4 (Or.inl (by omega)) (Or.inl (by omega)), hlen]
    exact bytesAt_splice_self _ 0 (beBytes L) (by rw [length_beBytes, l1]; omega)
  · rw [hpres 4 128 (Or.inl (by omega)) (Or.inl (by omega)),
      bytesAt_splice_right _ _ _ _ _ (by rw [length_beBytes, l1]; omega)
        (by rw [length_beBytes])]
    have e := bytesAt_splice_self (List.replicate L 0) 0 (bytesAt data 0 (128 + 4))
      (by rw [hhead]; simp; omega)
    rw [hhead] at e
    have e2 := bytesAt_sub (splice (List.replicate L 0) 0 (bytesAt data 0 (128 + 4)))
      0 132 4 128 (by omega)
    rw [e] at e2
    simp only [Nat.zero_add] at e2
    rw [e2]
    exact (bytesAt_sub data 0 132 4 128 (by omega)).symm
  · intro k hk
    obtain ⟨f1, f2, -⟩ := hfacts k (sourceTag data k) (getElem?_sourceTags data k hk)
    have hc : (List.take k (sourceTags data)).foldl advance
        (128 + 4 + wordAt data 128 * 12, 0) = cursor data k := rfl
    rw [hc] at f1 f2
    refine ⟨?_, fun ht => f2 ht⟩
    rw [f1]
    by_cases ht : isTrcSig (tagSig data k)
    · have hts : isTrcSig (sourceTag data k).sig := ht
      simp only [hts, if_true, ht, (gammaOffset_of_trc data k hk ht).1]
      rfl
    · have hts : ¬ isTrcSig (sourceTag data k).sig := ht
      simp only [hts, if_false, ht]
      rfl
  · rintro ⟨k0, hk0, ht0⟩
    obtain ⟨k, t, h1, h2, h3, h4⟩ := exists_first_trc (sourceTags data)
      (128 + 4 + wordAt data 128 * 12, 0) (by simp only []; omega) rfl
      ⟨sourceTag data k0, by
        unfold sourceTags
        exact List.mem_map.mpr ⟨k0, List.mem_range.mpr hk0, rfl⟩, ht0⟩
    obtain ⟨-, -, f3⟩ := hfacts k t h1
    obtain ⟨f4, f5⟩ := f3 h2 h3
    have hg : gammaOffset data
        = ((List.take k (sourceTags data)).foldl advance
            (128 + 4 + wordAt data 128 * 12, 0)).1 := by
      unfold gammaOffset
      rw [← hfinal, h4]
    rw [← hg] at f4 f5
    refine ⟨f4, ?_⟩
    rw [f5]
    have hk : k < (sourceTags data).length := by
      by_contra hcon
      rw [List.getElem?_eq_none (by omega)] at h1
      exact Option.noConfusion h1
    -- the block ends inside the buffer
    have hsplit : (sourceTags data).foldl advance (128 + 4 + wordAt data 128 * 12, 0)
        = ((sourceTags data).drop (k + 1)).foldl advance
            (advance ((List.take k (sourceTags data)).foldl advance
              (128 + 4 + wordAt data 128 * 12, 0)) t) := by
      conv_lhs => rw [← List.take_append_drop (k + 1) (sourceTags data)]
      rw [List.foldl_append, List.take_succ, h1, List.foldl_append]
      rfl
    have hadv : (advance ((List.take k (sourceTags data)).foldl advance
        (128 + 4 + wordAt data 128 * 12, 0)) t).1 = gammaOffset data + 16 := by
      rw [hg]
      simp [advance, h2, h3]
    have hge := foldl_advance_fst_ge ((sourceTags data).drop (k + 1))
      (advance ((List.take k (sourceTags data)).foldl advance
        (128 + 4 + wordAt data 128 * 12, 0)) t)
    rw [← hsplit, hadv] at hge
    have hge2 : 128 + 4 + wordAt data 128 * 12 ≤ gammaOffset data := by
      rw [hg]
      exact foldl_advance_fst_ge _ (128 + 4 + wordAt data 128 * 12, 0)
    rw [bytesAt_splice_right _ _ _ _ _ (by rw [length_beBytes, l1]; omega)
        (by rw [length_beBytes]; omega),
      bytesAt_splice_right _ _ _ _ _ (by rw [hhead]; simp; omega) (by rw [hhead]; omega),
      bytesAt_replicate _ _ _ (by omega)]
    rfl

theorem cursor_mono (data : List Nat) (k : Nat) :
    (cursor data k).1 ≤ (cursor data (wordAt data 128)).1 := by
  rw [cursor_final data k]
  exact foldl_advance_fst_ge _ _

theorem entry_fields (buf : List Nat) (a x y z : Nat) (hx : x < 4294967296)
    (hy : y < 4294967296) (hz : z < 4294967296)
    (h : bytesAt buf a 12 = beBytes x ++ beBytes y ++ beBytes z) :
    wordAt buf a = x ∧ wordAt buf (a + 4) = y ∧ wordAt buf (a + 8) = z := by
  have h0 := wordAt_of_bytesAt buf a 12 0 _ h (by decide)
  have h4 := wordAt_of_bytesAt buf a 12 4 _ h (by decide)
  have h8 := wordAt_of_bytesAt buf a 12 8 _ h (by decide)
  rw [Nat.add_zero] at h0
  refine ⟨h0.trans ?_, h4.trans ?_, h8.trans ?_⟩
  · exact beValue_beBytes x hx
  · exact beValue_beBytes y hy
  · exact beValue_beBytes z hz

theorem makeStdGammaBuffer_fields (le : Bool) (spare : Nat) (data : List Nat) (h : WellFormed data) :
    ∃ nd, makeStdGammaBuffer le spare data = .ok nd ∧
      wordAt nd 128 = wordAt data 128 ∧
      (∀ k, k < wordAt data 128 →
        tagSig nd k = tagSig data k ∧
        tagOffset nd k
          = (if isTrcSig (tagSig data k) then gammaOffset data else newOffset data k) ∧
        tagSize nd k = (if isTrcSig (tagSig data k) then 14 else tagSize data k)) := by
  obtain ⟨nd, hok, hlen, hcur, -, hhead, hent, hcurve⟩ := makeStdGammaBuffer_spec le spare data h
  have hL32 : nd.length < 4294967296 := by rw [hlen]; exact h.noWrap
  refine ⟨nd, hok, ?_, ?_⟩
  · have e1 := wordAt_of_bytesAt nd 4 128 124 _ hhead (by decide)
    have e2 := wordAt_of_bytesAt data 4 128 124 _ rfl (by decide)
    exact e1.trans e2.symm
  · intro k hk
    obtain ⟨he, -⟩ := hent k hk
    have hoff : (if isTrcSig (tagSig data k) then gammaOffset data else newOffset data k)
        < 4294967296 := by
      split
      · next ht =>
        have hg := (hcurve ⟨k, hk, ht⟩).1
        have hl := congrArg List.length hg
        unfold bytesAt at hl
        simp [curveBlock, beBytes] at hl
        omega
      · have := cursor_mono data k
        unfold newOffset
        omega
    have hsize : (if isTrcSig (tagSig data k) then 14 else tagSize data k) < 4294967296 := by
      split
      · decide
      · exact wordAt_lt data h.bytes _
    exact entry_fields nd _ _ _ _ (wordAt_lt data h.bytes _) hoff hsize he

theorem mapFind_mapErase_self {V : Type} (m : List (String × V)) (k : String) :
    mapFind (mapErase m k) k = none := by
  induction m with
  | nil => rfl
  | cons p m ih =>
    obtain ⟨k', v⟩ := p
    by_cases h : k' = k
    · simp only [mapErase, h, if_true, ih]
    · simp only [mapErase, h, if_false, mapFind, ih]

theorem mapFind_mapInsert {V : Type} (m : List (String × V)) (k k' : String) (v : V) :
    mapFind (mapInsert m k v) k'
      = match mapFind m k' with
        | some r => some r
        | none => if k = k' then some v else none := by
  unfold mapInsert
  cases h : mapFind m k with
  | some r =>
    simp only []
    cases h' : mapFind m k' with
    | some r' => rfl
    | none =>
      have : ¬ k = k' := by
        intro e
        rw [e, h'] at h
        exact Option.noConfusion h
      simp [this]
  | none =>
    simp only [mapFind]
    by_cases e : k = k'
    · subst e
      simp [h]
    · simp only [e, if_false]
      cases mapFind m k' <;> rfl

theorem mapFind_mapInsert_self {V : Type} (m : List (String × V)) (k : String) (v : V)
    (h : mapFind m k = none) : mapFind (mapInsert m k v) k = some v := by
  rw [mapFind_mapInsert, h]
  simp

theorem mapFind_mapInsert_isSome {V : Type} (m : List (String × V)) (k : String) (v : V) :
    (mapFind (mapInsert m k v) k).isSome = true := by
  rw [mapFind_mapInsert]
  cases mapFind m k <;> simp

theorem mapFind_mapInsert_of_some {V : Type} (m : List (String × V)) (k k' : String) (v r : V)
    (h : mapFind m k' = some r) : mapFind (mapInsert m k v) k' = some r := by
  rw [mapFind_mapInsert, h]

theorem createFromMatrix_eq {H : Type} (cmsOpenProfileFromMem : List Nat → cmsHPROFILE H)
    (le : Bool) (matrix : Nat → Nat → ℚ) (gamma : Bool) (name : String)
    (hname : (cstr name).length ≤ 723) :
    createFromMatrix cmsOpenProfileFromMem le matrix gamma name
      = .ok (cmsOpenProfileFromMem (bytesAt (profileBytes le matrix gamma name) 0 476)) := by
  unfold createFromMatrix
  rw [createFromMatrixBuffer_eq le matrix gamma name hname]
  simp only [bind, Except.bind, loadBytes]
  rw [if_pos (by rw [length_profileBytes le matrix gamma name hname]; omega)]
  rfl

theorem mapFind_eight {V : Type} (name : String) (hname : name ∉ wpnames)
    (v0 v1 v2 v3 v4 v5 v6 v7 : V) :
    mapFind [("Rec2020", v7), ("BestRGB", v6), ("Beta RGB", v5), ("BruceRGB", v4),
      ("WideGamut", v3), ("ProPhoto", v2), ("Adobe RGB", v1), ("sRGB", v0)] name = none := by
  simp only [wpnames, List.mem_cons, List.mem_singleton, List.not_mem_nil, or_false,
    not_or] at hname
  obtain ⟨h0, h1, h2, h3, h4, h5, h6, h7⟩ := hname
  simp only [mapFind]
  rw [if_neg (Ne.symm h7), if_neg (Ne.symm h6), if_neg (Ne.symm h5), if_neg (Ne.symm h4),
    if_neg (Ne.symm h3), if_neg (Ne.symm h2), if_neg (Ne.symm h1), if_neg (Ne.symm h0)]

theorem findOrSRGB_eight {V : Type} (v0 v1 v2 v3 v4 v5 v6 v7 : V) :
    (∀ i, i < 8 →
      findOrSRGB [("Rec2020", v7), ("BestRGB", v6), ("Beta RGB", v5), ("BruceRGB", v4),
          ("WideGamut", v3), ("ProPhoto", v2), ("Adobe RGB", v1), ("sRGB", v0)]
          (wpnames.getD i "")
        = .ok ([v0, v1, v2, v3, v4, v5, v6, v7].getD i v0)) ∧
    (∀ name, name ∉ wpnames →
      findOrSRGB [("Rec2020", v7), ("BestRGB", v6), ("Beta RGB", v5), ("BruceRGB", v4),
          ("WideGamut", v3), ("ProPhoto", v2), ("Adobe RGB", v1), ("sRGB", v0)] name
        = .ok v0) := by
  constructor
  · intro i hi
    interval_cases i <;> rfl
  · intro name hname
    unfold findOrSRGB
    rw [mapFind_eight name hname]
    rfl

theorem loadProfilesEntry_handles {H : Type} (env : Env H) (dirName : String)
    (nameUpper onlyRgb : Bool) (P : List (String × cmsHPROFILE H))
    (C : List (String × ProfileContent)) (fileName : String) :
    loadProfilesEntry env dirName nameUpper onlyRgb
        { profiles := some P, profileContents := some C, profileNames := none } fileName
      = match loadedHandle env dirName onlyRgb fileName with
        | some h =>
          { profiles := some (mapInsert P (derivedName env nameUpper fileName) (some h))
            profileContents := some (mapInsert C (derivedName env nameUpper fileName)
              (ProfileContent.ofFile env (env.build_filename dirName fileName)))
            profileNames := none }
        | none => { profiles := some P, profileContents := some C, profileNames := none } := by
  unfold loadProfilesEntry loadedHandle passesFilter derivedName
  by_cases h4 : fileName.length < 4
  · simp [h4, Nat.not_le.mpr h4]
  · have h4' : 4 ≤ fileName.length := Nat.not_lt.mp h4
    simp only [h4, if_false, h4', decide_True, Bool.true_and]
    by_cases hext : env.casefold (fileName.drop (fileName.length - 4)) ≠ ".icc" ∧
        env.casefold (fileName.drop (fileName.length - 4)) ≠ ".icm"
    · simp [hext]
    · have hext' : env.casefold (fileName.drop (fileName.length - 4)) = ".icc" ∨
          env.casefold (fileName.drop (fileName.length - 4)) = ".icm" := by
        by_cases h1 : env.casefold (fileName.drop (fileName.length - 4)) = ".icc"
        · exact Or.inl h1
        · by_cases h2 : env.casefold (fileName.drop (fileName.length - 4)) = ".icm"
          · exact Or.inr h2
          · exact absurd ⟨h1, h2⟩ hext
      have hdec : (decide (env.casefold (fileName.drop (fileName.length - 4)) = ".icc") ||
          decide (env.casefold (fileName.drop (fileName.length - 4)) = ".icm")) = true := by
        rcases hext' with h | h <;> simp [h]
      simp only [hext, if_false, hdec, Bool.true_and]
      cases hreg : env.isRegular (env.build_filename dirName fileName)
      · simp
      · simp only [Bool.not_true, Bool.false_eq_true, if_false, if_true]
        cases hp : (ProfileContent.ofFile env (env.build_filename dirName fileName)).toProfile
            env with
        | none => rfl
        | some h =>
          simp only []
          by_cases hrgb : (!onlyRgb || env.isRgb h) = true
          · simp only [hrgb, if_true]
            cases nameUpper <;> rfl
          · simp only [hrgb, if_false]
            rfl

theorem loadProfiles_foldl_keeps {H : Type} (env : Env H) (dirName : String)
    (nameUpper onlyRgb : Bool) (name : String) (x : cmsHPROFILE H) (c : ProfileContent) :
    ∀ (l : List String) (P : List (String × cmsHPROFILE H))
      (C : List (String × ProfileContent)),
      mapFind P name = some x → mapFind C name = some c →
      ∃ P' C', l.foldl (loadProfilesEntry env dirName nameUpper onlyRgb)
          { profiles := some P, profileContents := some C, profileNames := none }
          = { profiles := some P', profileContents := some C', profileNames := none } ∧
        mapFind P' name = some x ∧ mapFind C' name = some c
  | [], P, C, hP, hC => ⟨P, C, rfl, hP, hC⟩
  | f :: l, P, C, hP, hC => by
    rw [List.foldl_cons, loadProfilesEntry_handles]
    cases loadedHandle env dirName onlyRgb f with
    | none => exact loadProfiles_foldl_keeps env dirName nameUpper onlyRgb name x c l P C hP hC
    | some h =>
      exact loadProfiles_foldl_keeps env dirName nameUpper onlyRgb name x c l _ _
        (mapFind_mapInsert_of_some _ _ _ _ _ hP) (mapFind_mapInsert_of_some _ _ _ _ _ hC)

theorem mapFind_mapInsert_none {V : Type} (m : List (String × V)) (k k' : String) (v : V)
    (h : mapFind m k' = none) (hne : k ≠ k') : mapFind (mapInsert m k v) k' = none := by
  rw [mapFind_mapInsert, h]
  simp [hne]

theorem loadProfiles_foldl_absent {H : Type} (env : Env H) (dirName : String)
    (nameUpper onlyRgb : Bool) (name : String) :
    ∀ (l : List String) (P : List (String × cmsHPROFILE H))
      (C : List (String × ProfileContent)),
      (∀ g ∈ l, (loadedHandle env dirName onlyRgb g).isSome = true →
        derivedName env nameUpper g ≠ name) →
      mapFind P name = none → mapFind C name = none →
      ∃ P' C', l.foldl (loadProfilesEntry env dirName nameUpper onlyRgb)
          { profiles := some P, profileContents := some C, profileNames := none }
          = { profiles := some P', profileContents := some C', profileNames := none } ∧
        mapFind P' name = none ∧ mapFind C' name = none
  | [], P, C, _, hP, hC => ⟨P, C, rfl, hP, hC⟩
  | f :: l, P, C, hl, hP, hC => by
    rw [List.foldl_cons, loadProfilesEntry_handles]
    have hf := hl f (List.mem_cons_self _ _)
    have hl' : ∀ g ∈ l, (loadedHandle env dirName onlyRgb g).isSome = true →
        derivedName env nameUpper g ≠ name := fun g hg => hl g (List.mem_cons_of_mem _ hg)
    cases hh : loadedHandle env dirName onlyRgb f with
    | none =>
      exact loadProfiles_foldl_absent env dirName nameUpper onlyRgb name l P C hl' hP hC
    | some h =>
      rw [hh] at hf
      exact loadProfiles_foldl_absent env dirName nameUpper onlyRgb name l _ _ hl'
        (mapFind_mapInsert_none _ _ _ _ hP (hf rfl))
        (mapFind_mapInsert_none _ _ _ _ hC (hf rfl))

theorem loadProfiles_keeps {H : Type} (env : Env H) (dirName : String)
    (nameUpper onlyRgb : Bool) (name : String) (x : cmsHPROFILE H) (c : ProfileContent)
    (P : List (String × cmsHPROFILE H)) (C : List (String × ProfileContent))
    (hP : mapFind P name = some x) (hC : mapFind C name = some c) :
    ∃ P' C', loadProfiles env dirName
        { profiles := some P, profileContents := some C, profileNames := none }
        nameUpper onlyRgb
        = { profiles := some P', profileContents := some C', profileNames := none } ∧
      mapFind P' name = some x ∧ mapFind C' name = some c := by
  unfold loadProfiles
  split
  · exact ⟨P, C, rfl, hP, hC⟩
  · split
    · exact loadProfiles_foldl_keeps env dirName nameUpper onlyRgb name x c _ P C hP hC
    · exact ⟨P, C, rfl, hP, hC⟩

/-! ### The directory loader, entry by entry -/

theorem loadProfilesEntry_eq {H : Type} (env : Env H) (dirName : String)
    (nameUpper onlyRgb : Bool) (m : LoadMaps H) (fileName : String) :
    loadProfilesEntry env dirName nameUpper onlyRgb m fileName
      = if passesFilter env dirName fileName then
          { profiles :=
              match m.profiles, loadedHandle env dirName onlyRgb fileName with
              | some P, some h => some (mapInsert P (derivedName env nameUpper fileName) (some h))
              | P, _ => P
            profileContents :=
              match m.profiles, loadedHandle env dirName onlyRgb fileName with
              | some _, some _ => m.profileContents.map (fun c =>
                  mapInsert c (derivedName env nameUpper fileName)
                    (ProfileContent.ofFile env (env.build_filename dirName fileName)))
              | _, _ => m.profileContents
            profileNames := m.profileNames.map (fun n =>
              mapInsert n (derivedName env nameUpper fileName)
                (env.build_filename dirName fileName)) }
        else m := by
  obtain ⟨P, C, N⟩ := m
  unfold loadProfilesEntry loadedHandle passesFilter derivedName
  by_cases h4 : fileName.length < 4
  · simp [h4, Nat.not_le.mpr h4]
  · have h4' : 4 ≤ fileName.length := Nat.not_lt.mp h4
    simp only [h4, if_false, h4', decide_True, Bool.true_and]
    by_cases hext : env.casefold (fileName.drop (fileName.length - 4)) ≠ ".icc" ∧
        env.casefold (fileName.drop (fileName.length - 4)) ≠ ".icm"
    · simp [hext]
    · have hext' : env.casefold (fileName.drop (fileName.length - 4)) = ".icc" ∨
          env.casefold (fileName.drop (fileName.length - 4)) = ".icm" := by
        by_cases h1 : env.casefold (fileName.drop (fileName.length - 4)) = ".icc"
        · exact Or.inl h1
        · by_cases h2 : env.casefold (fileName.drop (fileName.length - 4)) = ".icm"
          · exact Or.inr h2
          · exact absurd ⟨h1, h2⟩ hext
      have hdec : (decide (env.casefold (fileName.drop (fileName.length - 4)) = ".icc") ||
          decide (env.casefold (fileName.drop (fileName.length - 4)) = ".icm")) = true := by
        rcases hext' with h | h <;> simp [h]
      simp only [hext, if_false, hdec, Bool.true_and]
      cases hreg : env.isRegular (env.build_filename dirName fileName)
      · simp
      · simp only [Bool.not_true, Bool.false_eq_true, if_false, if_true]
        cases P with
        | none => cases N <;> cases nameUpper <;> rfl
        | some P =>
          cases hp : (ProfileContent.ofFile env (env.build_filename dirName fileName)).toProfile
              env with
          | none => cases N <;> cases nameUpper <;> rfl
          | some h =>
            simp only []
            by_cases hrgb : (!onlyRgb || env.isRgb h) = true
            · simp only [hrgb, if_true]
              cases N <;> cases nameUpper <;> rfl
            · simp only [hrgb, if_false]
              cases N <;> cases nameUpper <;> rfl

theorem loadProfilesEntry_names {H : Type} (env : Env H) (dirName : String)
    (nameUpper onlyRgb : Bool) (m : LoadMaps H) (fileName : String) :
    (loadProfilesEntry env dirName nameUpper onlyRgb m fileName).profileNames
      = m.profileNames.map (fun n =>
          if passesFilter env dirName fileName then
            mapInsert n (derivedName env nameUpper fileName)
              (env.build_filename dirName fileName)
          else n) := by
  rw [loadProfilesEntry_eq]
  cases hp : passesFilter env dirName fileName
  · cases h : m.profileNames <;> simp [h]
  · cases h : m.profileNames <;> simp [h]

theorem loadProfiles_foldl_names {H : Type} (env : Env H) (dirName : String)
    (nameUpper onlyRgb : Bool) (k : String) :
    ∀ (l : List String) (m : LoadMaps H) (N : List (String × String)),
      m.profileNames = some N →
      ∃ N', (l.foldl (loadProfilesEntry env dirName nameUpper onlyRgb) m).profileNames
          = some N' ∧
        mapFind N' k
          = match mapFind N k with
            | some v => some v
            | none =>
              (l.find? (fun f => passesFilter env dirName f &&
                decide (derivedName env nameUpper f = k))).map (env.build_filename dirName)
  | [], m, N, hN => ⟨N, hN, by cases mapFind N k <;> rfl⟩
  | f :: l, m, N, hN => by
    have hstep := loadProfilesEntry_names env dirName nameUpper onlyRgb m f
    rw [hN] at hstep
    simp only [Option.map_some'] at hstep
    obtain ⟨N', hN', hfind⟩ := loadProfiles_foldl_names env dirName nameUpper onlyRgb k l
      (loadProfilesEntry env dirName nameUpper onlyRgb m f) _ hstep
    refine ⟨N', by rw [List.foldl_cons]; exact hN', ?_⟩
    rw [hfind]
    cases hp : passesFilter env dirName f
    · simp only [Bool.false_eq_true, if_false, List.find?_cons, hp, Bool.false_and]
    · simp only [if_true, List.find?_cons, hp, Bool.true_and]
      rw [mapFind_mapInsert]
      cases hk : mapFind N k with
      | some v => rfl
      | none =>
        by_cases hd : derivedName env nameUpper f = k
        · simp [hd]
        · simp [hd]

/-! ### The description tag and the regions behind it -/

theorem bytesAt_profileBytes_length (le : Bool) (matrix : Nat → Nat → ℚ) (gamma : Bool)
    (name : String) (hname : (cstr name).length ≤ 723) :
    bytesAt (profileBytes le matrix gamma name) 296 4
      = hostBytes le ((name.length + 1) % 4294967296) := by
  obtain ⟨hB, l1, l2, -⟩ := length_profileBytes_aux le matrix gamma name hname
  unfold profileBytes
  rw [bytesAt_splice_left _ _ _ _ _ (by rw [l2]; simp; omega) (by omega)]
  have h := bytesAt_splice_self (splice ((profileWords gamma (matrixWords matrix)).flatMap beBytes)
    260 (cstr "--rawtherapee profile--" ++ [0])) 296
    (hostBytes le ((name.length + 1) % 4294967296)) (by rw [length_hostBytes, l1]; omega)
  rw [length_hostBytes] at h
  exact h

theorem directory_of_region (buf : List Nat)
    (hdir : bytesAt buf 128 124 = pbodyFinal.flatMap beBytes) (i : Nat) (hi : i < 10) :
    wordAt buf 128 = 10 ∧
    tagSig buf i = pbodyFinal.getD (3 * i + 1) 0 ∧
    tagOffset buf i = pbodyFinal.getD (3 * i + 2) 0 ∧
    tagSize buf i = pbodyFinal.getD (3 * i + 3) 0 := by
  have hw : ∀ k, k + 4 ≤ 124 → wordAt buf (128 + k) = wordAt (pbodyFinal.flatMap beBytes) k :=
    fun k hk => wordAt_of_bytesAt buf 128 124 k _ hdir hk
  refine ⟨(hw 0 (by decide)).trans (by decide), ?_⟩
  have hs : tagSig buf i = wordAt buf (128 + (4 + 12 * i)) := by
    unfold tagSig; congr 1; omega
  have ho : tagOffset buf i = wordAt buf (128 + (8 + 12 * i)) := by
    unfold tagOffset; congr 1; omega
  have hz : tagSize buf i = wordAt buf (128 + (12 + 12 * i)) := by
    unfold tagSize; congr 1; omega
  rw [hs, ho, hz, hw _ (by omega), hw _ (by omega), hw _ (by omega)]
  interval_cases i <;> exact ⟨by decide, by decide, by decide⟩

theorem length_cstr_nameOfLength_724 : (cstr (nameOfLength 724)).length = 724 := by decide!

/-! ### The selection of the output profile for a custom gamma -/

theorem customGammaPro_iff (icm : ColorManagementParams) :
    customGammaPro icm = true ↔
      (icm.freegamma = true ∧ icm.gampos < 1.35) ∨
        icm.gamma = "linear_g1.0" ∨ icm.gamma = "High_g1.3_s3.35" := by
  unfold customGammaPro
  by_cases h1 : icm.freegamma = true ∧ icm.gampos < 1.35
  · simp [h1]
  · by_cases h2 : icm.gamma = "linear_g1.0" ∨ icm.gamma = "High_g1.3_s3.35"
    · have h1' : (icm.freegamma && decide (icm.gampos < 1.35)) = false := by
        simpa using h1
      simp [h1', h2]
    · have h1' : (icm.freegamma && decide (icm.gampos < 1.35)) = false := by
        simpa using h1
      have h2' : (decide (icm.gamma = "linear_g1.0") || decide (icm.gamma = "High_g1.3_s3.35"))
          = false := by simpa using h2
      simp [h1', h2', h1, h2]

theorem customGammaOutProfile_eq {H : Type} (s : ICCStore H) (rt : RTSettings)
    (icm : ColorManagementParams) :
    customGammaOutProfile s rt icm
      = match resolvedOutputName rt icm.working (customGammaPro icm) with
        | some n => if outputProfileExist s n then some n else none
        | none => none := by
  unfold customGammaOutProfile resolvedOutputName
  generalize customGammaPro icm = pro
  generalize icm.working = w
  by_cases h1 : w = "sRGB"
  · subst h1
    cases pro <;> cases ha : outputProfileExist s rt.srgb <;>
      cases hb : outputProfileExist s rt.srgb10 <;> simp [ha, hb]
  by_cases h2 : w = "ProPhoto"
  · subst h2
    cases pro <;> cases ha : outputProfileExist s rt.prophoto <;>
      cases hb : outputProfileExist s rt.prophoto10 <;> simp [ha, hb]
  by_cases h3 : w = "Adobe RGB"
  · subst h3
    cases ha : outputProfileExist s rt.adobe <;> simp [ha]
  by_cases h4 : w = "WideGamut"
  · subst h4
    cases ha : outputProfileExist s rt.widegamut <;> simp [ha]
  by_cases h5 : w = "Beta RGB"
  · subst h5
    cases ha : outputProfileExist s rt.beta <;> simp [ha]
  by_cases h6 : w = "BestRGB"
  · subst h6
    cases ha : outputProfileExist s rt.best <;> simp [ha]
  by_cases h7 : w = "BruceRGB"
  · subst h7
    cases ha : outputProfileExist s rt.bruce <;> simp [ha]
  by_cases h8 : w = "Rec2020"
  · subst h8
    cases ha : outputProfileExist s rt.rec2020 <;> simp [ha]
  simp [h1, h2, h3, h4, h5, h6, h7, h8]

theorem resolvedOutputName_eq_none (rt : RTSettings) (working : String) (pro : Bool) :
    resolvedOutputName rt working pro = none ↔ working ∉ wpnames := by
  unfold resolvedOutputName wpnames
  by_cases h1 : working = "sRGB"
  · simp [h1]
  by_cases h2 : working = "ProPhoto"
  · simp [h2]
  by_cases h3 : working = "Adobe RGB"
  · simp [h3]
  by_cases h4 : working = "WideGamut"
  · simp [h4]
  by_cases h5 : working = "Beta RGB"
  · simp [h5]
  by_cases h6 : working = "BestRGB"
  · simp [h6]
  by_cases h7 : working = "BruceRGB"
  · simp [h7]
  by_cases h8 : working = "Rec2020"
  · simp [h8]
  simp [h1, h2, h3, h4, h5, h6, h7, h8]

theorem createCustomGammaOutputProfile_eq {H : Type} (env : Env H) (mluAlloc : Bool)
    (formatFloat : ℚ → String) (rt : RTSettings) (s : ICCStore H)
    (icm : ColorManagementParams) (ga : GammaValues) :
    createCustomGammaOutputProfile env mluAlloc formatFloat rt s icm ga
      = match (resolvedOutputName rt icm.working (customGammaPro icm)).bind
            (mapFind s.fileProfiles) with
        | some (some h) =>
          { profile := some h, store := s, loads := []
            writes :=
              (if mluAlloc then
                [TagWrite.description h (customGammaDescription formatFloat icm)]
              else []) ++
              [TagWrite.toneCurve h 0x72545243 5 [ga 0, ga 1, ga 2, ga 3, ga 4, ga 5, ga 6],
               TagWrite.toneCurve h 0x67545243 5 [ga 0, ga 1, ga 2, ga 3, ga 4, ga 5, ga 6],
               TagWrite.toneCurve h 0x62545243 5 [ga 0, ga 1, ga 2, ga 3, ga 4, ga 5, ga 6]] }
        | _ => { profile := none, store := s, loads := [], writes := [] } := by
  unfold createCustomGammaOutputProfile
  rw [customGammaOutProfile_eq]
  cases hn : resolvedOutputName rt icm.working (customGammaPro icm) with
  | none => rfl
  | some n =>
    have h3 : mapFind s.fileProfiles n = none ∨ mapFind s.fileProfiles n = some none ∨
        ∃ h, mapFind s.fileProfiles n = some (some h) := by
      cases mapFind s.fileProfiles n with
      | none => exact Or.inl rfl
      | some r =>
        cases r with
        | none => exact Or.inr (Or.inl rfl)
        | some h => exact Or.inr (Or.inr ⟨h, rfl⟩)
    rcases h3 with hf | hf | ⟨h, hf⟩
    · simp [outputProfileExist, hf]
    · simp [outputProfileExist, getProfile, hf]
    · simp [outputProfileExist, getProfile, hf]

/-! ### The intent mask -/

theorem getSupportedIntents_bits {H : Type} (cmsIsIntentSupported : H → Nat → Nat → Bool)
    (h : H) (direction : Nat) :
    (∀ k, k < 4 →
      (getSupportedIntents cmsIsIntentSupported (some h) direction).result.testBit k
        = cmsIsIntentSupported h k direction) ∧
    (∀ k, 4 ≤ k →
      (getSupportedIntents cmsIsIntentSupported (some h) direction).result.testBit k = false) ∧
    (getSupportedIntents cmsIsIntentSupported (some h) direction).queries
      = [(h, 0, direction), (h, 1, direction), (h, 2, direction), (h, 3, direction)] := by
  have hq : (getSupportedIntents cmsIsIntentSupported (some h) direction).queries
      = [(h, 0, direction), (h, 1, direction), (h, 2, direction), (h, 3, direction)] := by
    simp only [getSupportedIntents, getSupportedIntent, INTENT_PERCEPTUAL,
      INTENT_RELATIVE_COLORIMETRIC, INTENT_SATURATION, INTENT_ABSOLUTE_COLORIMETRIC]
    cases cmsIsIntentSupported h 0 direction <;> cases cmsIsIntentSupported h 1 direction <;>
      cases cmsIsIntentSupported h 2 direction <;>
      cases cmsIsIntentSupported h 3 direction <;> simp
  have hr : (getSupportedIntents cmsIsIntentSupported (some h) direction).result
      = (if cmsIsIntentSupported h 0 direction then 1 else 0)
        + (if cmsIsIntentSupported h 1 direction then 2 else 0)
        + (if cmsIsIntentSupported h 2 direction then 4 else 0)
        + (if cmsIsIntentSupported h 3 direction then 8 else 0) := by
    simp only [getSupportedIntents, getSupportedIntent, INTENT_PERCEPTUAL,
      INTENT_RELATIVE_COLORIMETRIC, INTENT_SATURATION, INTENT_ABSOLUTE_COLORIMETRIC]
    cases cmsIsIntentSupported h 0 direction <;> cases cmsIsIntentSupported h 1 direction <;>
      cases cmsIsIntentSupported h 2 direction <;>
      cases cmsIsIntentSupported h 3 direction <;> simp
  refine ⟨?_, ?_, hq⟩
  · intro k hk
    rw [hr]
    interval_cases k <;>
      cases cmsIsIntentSupported h 0 direction <;> cases cmsIsIntentSupported h 1 direction <;>
      cases cmsIsIntentSupported h 2 direction <;>
      cases cmsIsIntentSupported h 3 direction <;> decide
  · intro k hk
    apply Nat.testBit_lt_two_pow
    have h16 : (getSupportedIntents cmsIsIntentSupported (some h) direction).result < 2 ^ 4 := by
      rw [hr]
      cases cmsIsIntentSupported h 0 direction <;> cases cmsIsIntentSupported h 1 direction <;>
        cases cmsIsIntentSupported h 2 direction <;>
        cases cmsIsIntentSupported h 3 direction <;> simp
    exact lt_of_lt_of_le h16 (Nat.pow_le_pow_right (by decide) hk)

/-! ### The quotient `1. / eps` -/

theorem doubleDiv_one_eps : doubleDiv 1 0.000000001 = 8388607999999999 / 8388608 := by
  decide!

/-! ### The layout of the rewritten profile -/

theorem roundUp4_mod (x : Nat) : roundUp4 x % 4 = 0 := by
  unfold roundUp4
  exact Nat.mul_mod_left _ _

theorem le_roundUp4 (x : Nat) : x ≤ roundUp4 x := by
  unfold roundUp4
  omega

theorem advance_fst_mod (c : Nat × Nat) (t : IccTag) (h : c.1 % 4 = 0) :
    (advance c t).1 % 4 = 0 := by
  unfold advance
  split
  · split
    · simp only []; omega
    · exact h
  · have := roundUp4_mod t.size
    simp only []
    omega

theorem foldl_advance_fst_mod (ts : List IccTag) (c : Nat × Nat) (h : c.1 % 4 = 0) :
    (ts.foldl advance c).1 % 4 = 0 := by
  induction ts generalizing c with
  | nil => exact h
  | cons t ts ih =>
    rw [List.foldl_cons]
    exact ih _ (advance_fst_mod c t h)

theorem cursor_fst_mod (data : List Nat) (k : Nat) : (cursor data k).1 % 4 = 0 :=
  foldl_advance_fst_mod _ _ (by simp only []; omega)

theorem cursor_le_of_le (data : List Nat) (i j : Nat) (hij : i ≤ j) :
    (cursor data i).1 ≤ (cursor data j).1 := by
  have hsplit : (sourceTags data).take j
      = (sourceTags data).take i ++ ((sourceTags data).take j).drop i := by
    have h := List.take_append_drop i ((sourceTags data).take j)
    rw [List.take_take, Nat.min_eq_left hij] at h
    exact h.symm
  unfold cursor
  rw [hsplit, List.foldl_append]
  exact foldl_advance_fst_ge _ _

theorem newOffset_add_size (data : List Nat) (k : Nat) (hk : k < wordAt data 128)
    (ht : ¬ isTrcSig (tagSig data k)) :
    newOffset data k + roundUp4 (tagSize data k) = (cursor data (k + 1)).1 := by
  rw [cursor_succ data k hk]
  unfold advance newOffset
  rw [if_neg (by exact ht)]
  rfl

theorem cursor_count (data : List Nat) :
    cursor data (wordAt data 128)
      = (sourceTags data).foldl advance (128 + 4 + wordAt data 128 * 12, 0) := by
  unfold cursor
  rw [List.take_of_length_le (by rw [length_sourceTags])]

theorem gammaOffset_first (data : List Nat)
    (h : ∃ k, k < wordAt data 128 ∧ isTrcSig (tagSig data k)) :
    ∃ k0, k0 < wordAt data 128 ∧ isTrcSig (tagSig data k0) ∧
      gammaOffset data = (cursor data k0).1 ∧
      (cursor data (k0 + 1)).1 = gammaOffset data + 16 := by
  obtain ⟨k, hk, ht⟩ := h
  have hex : ∃ t ∈ sourceTags data, isTrcSig t.sig := by
    refine ⟨sourceTag data k, ?_, ht⟩
    exact List.getElem?_mem (getElem?_sourceTags data k hk)
  obtain ⟨k0, t, h1, h2, h3, h4⟩ := exists_first_trc (sourceTags data)
    (128 + 4 + wordAt data 128 * 12, 0) (by simp only []; omega) rfl hex
  have hk0 : k0 < wordAt data 128 := by
    have hlt := (List.getElem?_eq_some_iff.mp h1).1
    rw [length_sourceTags] at hlt
    exact hlt
  have ht0 : t = sourceTag data k0 := by
    rw [getElem?_sourceTags data k0 hk0] at h1
    exact (Option.some.inj h1).symm
  subst ht0
  have hg : gammaOffset data = (cursor data k0).1 := by
    unfold gammaOffset
    rw [cursor_count]
    exact h4.symm
  refine ⟨k0, hk0, h2, hg, ?_⟩
  rw [cursor_succ data k0 hk0, hg]
  have h3' : (cursor data k0).2 = 0 := h3
  unfold advance
  rw [if_pos h2, if_pos h3']

theorem curveBlock_bytes :
    curveBlock = [0x63, 0x75, 0x72, 0x76, 0, 0, 0, 0, 0, 0, 0, 1, 0x02, 0x39] := by decide

/-! ### Invariants of the store maps -/

theorem cacheConsistent_insert {H : Type} (env : Env H) (P : List (String × cmsHPROFILE H))
    (C : List (String × ProfileContent)) (hinv : CacheConsistent env P C) (k : String)
    (h : H) (c : ProfileContent) (hc : c.toProfile env = some h) :
    CacheConsistent env (mapInsert P k (some h)) (mapInsert C k c) := by
  intro k'
  rw [mapFind_mapInsert, mapFind_mapInsert]
  rcases hinv k' with ⟨hP, hC⟩ | ⟨h', c', hP, hC, hpc⟩
  · rw [hP, hC]
    by_cases hk : k = k'
    · right
      exact ⟨h, c, by simp [hk], by simp [hk], hc⟩
    · left
      simp [hk]
  · right
    rw [hP, hC]
    exact ⟨h', c', rfl, rfl, hpc⟩

theorem loadedHandle_parse {H : Type} (env : Env H) (dirName : String) (onlyRgb : Bool)
    (fileName : String) (h : H) (hl : loadedHandle env dirName onlyRgb fileName = some h) :
    (ProfileContent.ofFile env (env.build_filename dirName fileName)).toProfile env
      = some h := by
  unfold loadedHandle at hl
  split at hl
  · split at hl
    · next h' hparse =>
      split at hl
      · rw [hparse, ← Option.some.inj hl]
      · exact Option.noConfusion hl
    · exact Option.noConfusion hl
  · exact Option.noConfusion hl

theorem loadProfiles_foldl_consistent {H : Type} (env : Env H) (dirName : String)
    (nameUpper onlyRgb : Bool) :
    ∀ (l : List String) (P : List (String × cmsHPROFILE H))
      (C : List (String × ProfileContent)), CacheConsistent env P C →
      ∃ P' C', l.foldl (loadProfilesEntry env dirName nameUpper onlyRgb)
          { profiles := some P, profileContents := some C, profileNames := none }
          = { profiles := some P', profileContents := some C', profileNames := none } ∧
        CacheConsistent env P' C'
  | [], P, C, hinv => ⟨P, C, rfl, hinv⟩
  | f :: l, P, C, hinv => by
    rw [List.foldl_cons, loadProfilesEntry_handles]
    cases hl : loadedHandle env dirName onlyRgb f with
    | none => exact loadProfiles_foldl_consistent env dirName nameUpper onlyRgb l P C hinv
    | some h =>
      exact loadProfiles_foldl_consistent env dirName nameUpper onlyRgb l _ _
        (cacheConsistent_insert env P C hinv _ h _
          (loadedHandle_parse env dirName onlyRgb f h hl))

theorem loadProfiles_consistent {H : Type} (env : Env H) (dirName : String)
    (nameUpper onlyRgb : Bool) (P : List (String × cmsHPROFILE H))
    (C : List (String × ProfileContent)) (hinv : CacheConsistent env P C) :
    ∃ P' C', loadProfiles env dirName
        { profiles := some P, profileContents := some C, profileNames := none }
        nameUpper onlyRgb
        = { profiles := some P', profileContents := some C', profileNames := none } ∧
      CacheConsistent env P' C' := by
  unfold loadProfiles
  split
  · exact ⟨P, C, rfl, hinv⟩
  · split
    · exact loadProfiles_foldl_consistent env dirName nameUpper onlyRgb _ P C hinv
    · exact ⟨P, C, rfl, hinv⟩

theorem init_cacheConsistent {H : Type} (env : Env H) (s : ICCStore H)
    (usrICCDir rtICCDir : String) :
    CacheConsistent env (init env s usrICCDir rtICCDir).fileProfiles
      (init env s usrICCDir rtICCDir).fileProfileContents := by
  obtain ⟨P1, C1, h1, inv1⟩ := loadProfiles_consistent env (env.build_filename rtICCDir "output")
    false true [] [] (fun _ => Or.inl ⟨rfl, rfl⟩)
  obtain ⟨P2, C2, h2, inv2⟩ := loadProfiles_consistent env usrICCDir false true P1 C1 inv1
  have e : (init env s usrICCDir rtICCDir).fileProfiles = P2
      ∧ (init env s usrICCDir rtICCDir).fileProfileContents = C2 := by
    simp only [init, h1, h2, Option.getD_some, and_self]
  rw [e.1, e.2]
  exact inv2

theorem getProfile_cacheConsistent {H : Type} (env : Env H) (s : ICCStore H) (name : String)
    (hinv : CacheConsistent env s.fileProfiles s.fileProfileContents) :
    CacheConsistent env (getProfile env s name).store.fileProfiles
      (getProfile env s name).store.fileProfileContents := by
  cases hf : mapFind s.fileProfiles name with
  | some r =>
    simp only [getProfile, hf]
    exact hinv
  | none =>
    by_cases hfile : name.take 5 = "file:"
    · cases hparse : (ProfileContent.ofFile env (name.drop 5)).toProfile env with
      | none =>
        simp only [getProfile, hf, hfile, if_true, hparse]
        exact hinv
      | some h =>
        simp only [getProfile, hf, hfile, if_true, hparse]
        exact cacheConsistent_insert env _ _ hinv name h _ hparse
    · simp only [getProfile, hf, hfile, if_false]
      exact hinv

theorem getStdProfile_output_maps {H : Type} (env : Env H) (s : ICCStore H) (name : String) :
    (getStdProfile env s name).store.fileProfiles = s.fileProfiles ∧
    (getStdProfile env s name).store.fileProfileContents = s.fileProfileContents := by
  cases hf : mapFind s.fileStdProfiles (env.uppercase name) with
  | some r => simp only [getStdProfile, hf, and_self]
  | none =>
    cases hn : mapFind s.fileStdProfilesFileNames (env.uppercase name) with
    | none => simp only [getStdProfile, hf, hn, and_self]
    | some path => simp only [getStdProfile, hf, hn, and_self]

theorem run_cacheConsistent {H : Type} (env : Env H) (s : ICCStore H) (call : StoreCall)
    (hinv : CacheConsistent env s.fileProfiles s.fileProfileContents) :
    CacheConsistent env (runCall env s call).fileProfiles (runCall env s call).fileProfileContents := by
  cases call with
  | init u r => exact init_cacheConsistent env s u r
  | getProfile name => exact getProfile_cacheConsistent env s name hinv
  | getStdProfile name =>
    obtain ⟨e1, e2⟩ := getStdProfile_output_maps env s name
    simp only [runCall, e1, e2]
    exact hinv
  | getContent _ => exact hinv
  | getProfiles => exact hinv
  | getProfilesFromDir _ => exact hinv
  | outputProfileExist _ => exact hinv

theorem foldl_run_cacheConsistent {H : Type} (env : Env H) :
    ∀ (calls : List StoreCall) (s : ICCStore H),
      CacheConsistent env s.fileProfiles s.fileProfileContents →
      CacheConsistent env (calls.foldl (runCall env) s).fileProfiles
        (calls.foldl (runCall env) s).fileProfileContents
  | [], _, hinv => hinv
  | call :: calls, s, hinv =>
    foldl_run_cacheConsistent env calls _ (run_cacheConsistent env s call hinv)

theorem constructorStep_foldlM_file_maps {H : Type}
    (cmsOpenProfileFromMem : List Nat → cmsHPROFILE H) (le : Bool)
    (wprofiles iwprofiles : Nat → Nat → Nat → ℚ) :
    ∀ (l : List Nat) (s : ICCStore H),
      ∃ s', l.foldlM (constructorStep cmsOpenProfileFromMem le wprofiles iwprofiles) s
          = .ok s' ∧
        s'.fileProfiles = s.fileProfiles ∧
        s'.fileProfileContents = s.fileProfileContents ∧
        s'.fileStdProfiles = s.fileStdProfiles ∧
        s'.fileStdProfilesFileNames = s.fileStdProfilesFileNames
  | [], s => ⟨s, rfl, rfl, rfl, rfl, rfl⟩
  | i :: l, s => by
    have hempty : (cstr "").length ≤ 723 := by decide
    obtain ⟨s', hs', h1, h2, h3, h4⟩ := constructorStep_foldlM_file_maps cmsOpenProfileFromMem
      le wprofiles iwprofiles l
      { s with
        wProfiles := mapAssign s.wProfiles (wpnames.getD i "")
          (cmsOpenProfileFromMem (bytesAt (profileBytes le (wprofiles i) false "") 0 476))
        wProfilesGamma := mapAssign s.wProfilesGamma (wpnames.getD i "")
          (cmsOpenProfileFromMem (bytesAt (profileBytes le (wprofiles i) true "") 0 476))
        wMatrices := mapAssign s.wMatrices (wpnames.getD i "") (wprofiles i)
        iwMatrices := mapAssign s.iwMatrices (wpnames.getD i "") (iwprofiles i) }
    refine ⟨s', ?_, h1, h2, h3, h4⟩
    rw [List.foldlM_cons]
    simp only [constructorStep, createFromMatrix_eq _ _ _ _ _ hempty, bind, Except.bind, pure,
      Except.pure]
    exact hs'

theorem construct_file_maps {H : Type} (cmsOpenProfileFromMem : List Nat → cmsHPROFILE H)
    (cmsCreate_sRGBProfile : cmsHPROFILE H) (le : Bool)
    (wprofiles iwprofiles : Nat → Nat → Nat → ℚ) :
    ∃ s, ICCStore.construct cmsOpenProfileFromMem cmsCreate_sRGBProfile le wprofiles iwprofiles
        = .ok s ∧
      s.fileProfiles = [] ∧ s.fileProfileContents = [] ∧
      s.fileStdProfiles = [] ∧ s.fileStdProfilesFileNames = [] := by
  have hxyz : (cstr "XYZ").length ≤ 723 := by decide
  unfold ICCStore.construct createXYZProfile
  rw [createFromMatrix_eq _ _ _ _ _ hxyz]
  simp only [bind, Except.bind]
  exact constructorStep_foldlM_file_maps cmsOpenProfileFromMem le wprofiles iwprofiles _ _

/-- C1, as amended: for every host byte order, every matrix and every name of at most 67
bytes, the buffer `createFromMatrix` assembles with `gamma = false` is built without a fault,
and each of its entries 4, 5, 6 (`rTRC`, `gTRC`, `bTRC`) declares size 14 and points at a
curve record `curv`, reserved 0, entry count 1, whose single 16-bit value is `0x0100`
(gamma 1.0): the 1-entry encoding, not the 0-entry identity curve. -/
theorem createFromMatrix_linear_curve (le : Bool) (matrix : Nat → Nat → ℚ) (name : String)
    (hname : (cstr name).length ≤ 67) :
    ∃ buf, createFromMatrixBuffer le matrix false name = .ok (buf, 476) ∧
      ∀ i, i < 3 →
        tagSig buf (4 + i) = [0x72545243, 0x67545243, 0x62545243].getD i 0 ∧
        tagSize buf (4 + i) = 14 ∧
        wordAt buf (tagOffset buf (4 + i)) = 0x63757276 ∧
        wordAt buf (tagOffset buf (4 + i) + 4) = 0 ∧
        wordAt buf (tagOffset buf (4 + i) + 8) = 1 ∧
        halfAt buf (tagOffset buf (4 + i) + 12) = 0x0100 := by
  refine ⟨_, createFromMatrixBuffer_eq le matrix false name (by omega), ?_⟩
  intro i hi
  obtain ⟨h1, h2, h3, h4⟩ := createFromMatrix_trc le matrix false name hname i hi
  rw [h2]
  refine ⟨h1, h3, ?_, ?_, ?_, ?_⟩
  · exact (wordAt_of_bytesAt _ _ 16 0 _ h4 (by decide)).trans (by decide)
  · exact (wordAt_of_bytesAt _ _ 16 4 _ h4 (by decide)).trans (by decide)
  · exact (wordAt_of_bytesAt _ _ 16 8 _ h4 (by decide)).trans (by decide)
  · exact (halfAt_of_bytesAt _ _ 16 12 _ h4 (by decide)).trans (by decide)

/-- Witness of `createFromMatrix_linear_curve`: the call of `createXYZProfile` on a
little-endian host. -/
theorem createFromMatrix_linear_curve_witness :
    (cstr "XYZ").length ≤ 67 ∧
    ∃ buf, createFromMatrixBuffer true identityMatrix false "XYZ" = .ok (buf, 476) ∧
      ∀ i, i < 3 →
        tagSig buf (4 + i) = [0x72545243, 0x67545243, 0x62545243].getD i 0 ∧
        tagSize buf (4 + i) = 14 ∧
        wordAt buf (tagOffset buf (4 + i)) = 0x63757276 ∧
        wordAt buf (tagOffset buf (4 + i) + 4) = 0 ∧
        wordAt buf (tagOffset buf (4 + i) + 8) = 1 ∧
        halfAt buf (tagOffset buf (4 + i) + 12) = 0x0100 :=
  ⟨by decide, createFromMatrix_linear_curve true identityMatrix "XYZ" (by decide)⟩

/-- C1, counterexample: for the identity matrix, `gamma = false` and the name `XYZ` (the call
of `createXYZProfile`) the entry count of each of the three tone-response curves is 1, not 0. -/
theorem createFromMatrix_identity_curve_count :
    (createFromMatrixBuffer true identityMatrix false "XYZ").map
        (fun r => [4, 5, 6].map (fun i => wordAt r.1 (tagOffset r.1 i + 8)))
      = .ok [1, 1, 1] := by
  rw [createFromMatrixBuffer_eq true identityMatrix false "XYZ" (by decide)]
  have h := fun i hi => createFromMatrix_trc true identityMatrix false "XYZ" (by decide) i hi
  obtain ⟨-, a0, -, b0⟩ := h 0 (by decide)
  obtain ⟨-, a1, -, b1⟩ := h 1 (by decide)
  obtain ⟨-, a2, -, b2⟩ := h 2 (by decide)
  simp only [Except.map, List.map_cons, List.map_nil]
  rw [show (5 : Nat) = 4 + 1 from rfl, show (6 : Nat) = 4 + 2 from rfl]
  conv_lhs => rw [show (4 : Nat) = 4 + 0 from rfl]
  rw [a0, a1, a2, wordAt_of_bytesAt _ _ 16 8 _ b0 (by decide),
    wordAt_of_bytesAt _ _ 16 8 _ b1 (by decide), wordAt_of_bytesAt _ _ 16 8 _ b2 (by decide)]
  rfl

/-- The sample profile is well formed. -/
theorem sampleProfile_wellFormed : WellFormed sampleProfile :=
  ⟨by decide!, by decide!, by decide!, by decide!⟩

/-- C2: for a well-formed serialized profile, the buffer `makeStdGammaProfile` builds has the
tag count of the source and, entry by entry, its signatures; every entry whose signature is
`rTRC`, `gTRC`, `bTRC` or `kTRC` records the size 14 and one and the same offset
`gammaOffset data`, the final value of `gamma_offset`, at which the 14-byte curve block
stands. -/
theorem makeStdGammaProfile_tone_tags_share_curve (le : Bool) (spare : Nat) (data : List Nat)
    (h : WellFormed data) :
    ∃ nd, makeStdGammaBuffer le spare data = .ok nd ∧
      wordAt nd 128 = wordAt data 128 ∧
      (∀ i, i < wordAt data 128 → tagSig nd i = tagSig data i) ∧
      (∀ i, i < wordAt data 128 → isTrcSig (tagSig nd i) →
        tagOffset nd i = gammaOffset data ∧ tagSize nd i = 14 ∧
        bytesAt nd (gammaOffset data) 14 = curveBlock) := by
  obtain ⟨nd, hok, -, -, -, -, -, hcurve⟩ := makeStdGammaBuffer_spec le spare data h
  obtain ⟨nd', hok', hcount, hfields⟩ := makeStdGammaBuffer_fields le spare data h
  obtain rfl : nd' = nd := by
    rw [hok] at hok'
    exact (Except.ok.inj hok').symm
  refine ⟨nd', hok, hcount, fun i hi => (hfields i hi).1, ?_⟩
  intro i hi ht
  obtain ⟨h1, h2, h3⟩ := hfields i hi
  rw [h1] at ht
  rw [if_pos ht] at h2 h3
  exact ⟨h2, h3, (hcurve ⟨i, hi, ht⟩).1⟩

/-- Witness of `makeStdGammaProfile_tone_tags_share_curve` on the sample profile. -/
theorem makeStdGammaProfile_tone_tags_share_curve_witness :
    WellFormed sampleProfile ∧
    ∃ nd, makeStdGammaBuffer true 0 sampleProfile = .ok nd ∧
      wordAt nd 128 = wordAt sampleProfile 128 ∧
      (∀ i, i < wordAt sampleProfile 128 → tagSig nd i = tagSig sampleProfile i) ∧
      (∀ i, i < wordAt sampleProfile 128 → isTrcSig (tagSig nd i) →
        tagOffset nd i = gammaOffset sampleProfile ∧ tagSize nd i = 14 ∧
        bytesAt nd (gammaOffset sampleProfile) 14 = curveBlock) :=
  ⟨sampleProfile_wellFormed,
    makeStdGammaProfile_tone_tags_share_curve true 0 sampleProfile sampleProfile_wellFormed⟩

/-- The profile `spareByteProfile`, whose only payload ends on the spare byte of the source
allocation, is rebuilt without a fault, whatever that byte holds, and the buffer of 168 bytes
goes to the parser: the run neither leaves its buffers nor returns the null handle by
itself. -/
theorem makeStdGammaProfile_spare_byte :
    spareByteProfile.length + 1 = tagOffset spareByteProfile 0 + tagSize spareByteProfile 0 ∧
    makeStdGammaProfile (fun (_ : Unit) => spareByteProfile) (fun nd => some nd.length) true
      0xCD (some ()) = .ok (some 168) := by
  decide!

/-- C5, counterexample: with a solver that returns `g_a = (0, 0, 0, 1, 2, 0, 0)`, power 1 and
slope 1, slots 1, 2 and 4 of the result are `1/3`, `2/3` and `1`: no single `k` gives
`1/(1+k)`, `k/(1+k)` and `k * slpos`, and the solver's fourth coefficient `k = 1` gives
`1/2` for slot 1. With slope `-2` and a solver returning ones, slot 3 is `-1/2`, not
`1 / max (slpos, eps) = 10^9`. -/
theorem getGammaArray_free_counterexample :
    (∀ k : ℚ, getGammaArray (constSolver (gammaValues [0, 0, 0, 1, 2, 0, 0]))
        (freeGammaParams 1 1) (fun _ => 0)
      ≠ gammaValues [1, 1 / (1 + k), k / (1 + k), 1 / max 1 0.000000001, k * 1, 0, 0]) ∧
    getGammaArray (constSolver (gammaValues [1, 1, 1, 1, 1, 1, 1]))
        (freeGammaParams 1 (-2)) (fun _ => 0)
      ≠ gammaValues [1, 1 / (1 + 1), 1 / (1 + 1), 1 / max (-2) 0.000000001, 1 * (-2), 0, 0] := by
  constructor
  · intro k h
    have h1 := congrFun h ⟨1, by decide⟩
    have h4 := congrFun h ⟨4, by decide⟩
    simp [getGammaArray, freeGammaParams, constSolver, Function.update, gammaValues,
      Fin.coe_ofNat_eq_mod] at h1 h4
    subst h4
    norm_num at h1
  · intro h
    have h3 := congrFun h ⟨3, by decide⟩
    simp [getGammaArray, freeGammaParams, constSolver, Function.update, gammaValues,
      Fin.coe_ofNat_eq_mod] at h3
    norm_num at h3

/-- C5, as amended: with the gamma solver an arbitrary function returning `g_a`, for every
parameter set with `freegamma = true` and `gampos ≠ 0`, and every `slpos`, `getGammaArray`
returns in exact arithmetic
`[gampos, 1/(1+g_a[4]), g_a[4]/(1+g_a[4]), 1/slope, g_a[3]*slpos, 0, 0]`, where
`g_a = calcGamma (1/gampos, slpos, 0, 0)`, slots 1 and 2 use the solver's fifth coefficient
`g_a[4]`, slot 4 its fourth coefficient `g_a[3]`, and `slope` is `slpos` unless `slpos` is
zero, in which case it is `eps = 10^-9`. Division is the division of the rationals. -/
theorem getGammaArray_free (calcGamma : ℚ → ℚ → Int → Int → GammaValues)
    (icm : ColorManagementParams) (ga : GammaValues) (hfree : icm.freegamma = true)
    (_hgam : icm.gampos ≠ 0) :
    getGammaArray calcGamma icm ga
      = gammaValues [icm.gampos,
          1 / (1 + calcGamma (1 / icm.gampos) icm.slpos 0 0 4),
          calcGamma (1 / icm.gampos) icm.slpos 0 0 4
            / (1 + calcGamma (1 / icm.gampos) icm.slpos 0 0 4),
          1 / (if icm.slpos = 0 then 1 / 1000000000 else icm.slpos),
          calcGamma (1 / icm.gampos) icm.slpos 0 0 3 * icm.slpos,
          0, 0] := by
  funext i
  fin_cases i <;> simp [getGammaArray, hfree, Function.update, gammaValues] <;> norm_num

/-- Witness of `getGammaArray_free`: power 2.4 and slope 0 with a constant solver. -/
theorem getGammaArray_free_witness :
    (freeGammaParams 2.4 0).freegamma = true ∧ (freeGammaParams 2.4 0).gampos ≠ 0 ∧
    getGammaArray (constSolver (gammaValues [0, 0, 0, 1, 2, 0, 0])) (freeGammaParams 2.4 0)
        (fun _ => 7)
      = gammaValues [(freeGammaParams 2.4 0).gampos,
          1 / (1 + constSolver (gammaValues [0, 0, 0, 1, 2, 0, 0])
            (1 / (freeGammaParams 2.4 0).gampos) (freeGammaParams 2.4 0).slpos 0 0 4),
          constSolver (gammaValues [0, 0, 0, 1, 2, 0, 0])
            (1 / (freeGammaParams 2.4 0).gampos) (freeGammaParams 2.4 0).slpos 0 0 4
            / (1 + constSolver (gammaValues [0, 0, 0, 1, 2, 0, 0])
              (1 / (freeGammaParams 2.4 0).gampos) (freeGammaParams 2.4 0).slpos 0 0 4),
          1 / (if (freeGammaParams 2.4 0).slpos = 0 then 1 / 1000000000
            else (freeGammaParams 2.4 0).slpos),
          constSolver (gammaValues [0, 0, 0, 1, 2, 0, 0])
            (1 / (freeGammaParams 2.4 0).gampos) (freeGammaParams 2.4 0).slpos 0 0 3
            * (freeGammaParams 2.4 0).slpos,
          0, 0] :=
  ⟨rfl, by norm_num [freeGammaParams],
    getGammaArray_free _ (freeGammaParams 2.4 0) _ rfl (by norm_num [freeGammaParams])⟩

/-- C6, counterexample: for the preset `standard_g2.2`, slot 3 of the result is the quotient
of `double` of 1 by `eps = 0.000000001`, which is `10^9 - 2^-23` and lies below `10^9`. -/
theorem getGammaArray_preset_slot_three :
    getGammaArray (constSolver (gammaValues [1, 2, 3, 4, 5, 6, 7]))
        (presetParams "standard_g2.2" 5 7) (fun _ => 9) 3
      = 1000000000 - 1 / 8388608 ∧
    getGammaArray (constSolver (gammaValues [1, 2, 3, 4, 5, 6, 7]))
        (presetParams "standard_g2.2" 5 7) (fun _ => 9) 3
      < 1000000000 := by
  have h : getGammaArray (constSolver (gammaValues [1, 2, 3, 4, 5, 6, 7]))
      (presetParams "standard_g2.2" 5 7) (fun _ => 9) 3 = doubleDiv 1 0.000000001 := by
    simp [getGammaArray, presetParams, Function.update]
  rw [h, doubleDiv_one_eps]
  constructor <;> norm_num

/-- C6, as amended: for every parameter set with `freegamma = false` whose `gamma` is one of
the seven named presets, `getGammaArray` returns the tuple of that preset, whatever `gampos`,
`slpos`, the solver and the previous content `ga` of the output array; the literals stand for
the `double` nearest to them, and slot 3 of `standard_g2.2`, `standard_g1.8` and
`linear_g1.0` is the quotient of `double` of 1 by `eps = 0.000000001`, which is
`10^9 - 2^-23`, not `10^9`. -/
theorem getGammaArray_presets (calcGamma : ℚ → ℚ → Int → Int → GammaValues)
    (icm : ColorManagementParams) (ga : GammaValues) (hfree : icm.freegamma = false) :
    (icm.gamma = "BT709_g2.2_s4.5" → getGammaArray calcGamma icm ga
      = gammaValues [2.22, 0.909995, 0.090005, 0.222222, 0.081071, 0, 0]) ∧
    (icm.gamma = "sRGB_g2.4_s12.92" → getGammaArray calcGamma icm ga
      = gammaValues [2.40, 0.947858, 0.052142, 0.077399, 0.039293, 0, 0]) ∧
    (icm.gamma = "High_g1.3_s3.35" → getGammaArray calcGamma icm ga
      = gammaValues [1.3, 0.998279, 0.001721, 0.298507, 0.005746, 0, 0]) ∧
    (icm.gamma = "Low_g2.6_s6.9" → getGammaArray calcGamma icm ga
      = gammaValues [2.6, 0.891161, 0.108839, 0.144928, 0.076332, 0, 0]) ∧
    (icm.gamma = "standard_g2.2" → getGammaArray calcGamma icm ga
      = gammaValues [2.2, 1, 0, 1000000000 - 1 / 8388608, 0, 0, 0]) ∧
    (icm.gamma = "standard_g1.8" → getGammaArray calcGamma icm ga
      = gammaValues [1.8, 1, 0, 1000000000 - 1 / 8388608, 0, 0, 0]) ∧
    (icm.gamma = "linear_g1.0" → getGammaArray calcGamma icm ga
      = gammaValues [1.0, 1, 0, 1000000000 - 1 / 8388608, 0, 0, 0]) ∧
    doubleDiv 1 0.000000001 = 1000000000 - 1 / 8388608 := by
  have hq : doubleDiv 1 (1 / 1000000000) = 8388607999999999 / 8388608 := by decide!
  refine ⟨?_, ?_, ?_, ?_, ?_, ?_, ?_, doubleDiv_one_eps.trans (by norm_num)⟩ <;> intro h <;>
    funext i <;> fin_cases i <;>
    simp [getGammaArray, hfree, h, Function.update, gammaValues] <;>
    first
      | done
      | (norm_num <;> exact hq)

/-- Witness of `getGammaArray_presets`: the preset `sRGB_g2.4_s12.92` with free-gamma fields
and an output array holding other values. -/
theorem getGammaArray_presets_witness :
    (presetParams "sRGB_g2.4_s12.92" 5 7).freegamma = false ∧
    getGammaArray (constSolver (gammaValues [1, 2, 3, 4, 5, 6, 7]))
        (presetParams "sRGB_g2.4_s12.92" 5 7) (fun _ => 9)
      = gammaValues [2.40, 0.947858, 0.052142, 0.077399, 0.039293, 0, 0] ∧
    getGammaArray (constSolver (gammaValues [1, 2, 3, 4, 5, 6, 7]))
        (presetParams "standard_g1.8" 5 7) (fun _ => 9)
      = gammaValues [1.8, 1, 0, 1000000000 - 1 / 8388608, 0, 0, 0] :=
  ⟨rfl, (getGammaArray_presets _ (presetParams "sRGB_g2.4_s12.92" 5 7) _ rfl).2.1 rfl,
    (getGammaArray_presets _ (presetParams "standard_g1.8" 5 7) _ rfl).2.2.2.2.2.1 rfl⟩

/-- C7: for every store and every name whose upper-cased form is a key of the path index and
not of the standard-profile map, one call of `getStdProfile` reads exactly the indexed file
and returns what it parses to; afterwards the key is gone from the path index whether or not
the load succeeded, it is a key of the standard-profile map exactly when the load succeeded,
and a second call with any name of the same upper-cased form reads no file, leaves the store
as it is and returns the handle of the first call (null when the first load failed). -/
theorem getStdProfile_loads_once {H : Type} (env : Env H) (s : ICCStore H) (name path : String)
    (hstd : mapFind s.fileStdProfiles (env.uppercase name) = none)
    (hidx : mapFind s.fileStdProfilesFileNames (env.uppercase name) = some path) :
    (getStdProfile env s name).loads = [path] ∧
    (getStdProfile env s name).profile = (ProfileContent.ofFile env path).toProfile env ∧
    mapFind (getStdProfile env s name).store.fileStdProfilesFileNames (env.uppercase name)
      = none ∧
    ((mapFind (getStdProfile env s name).store.fileStdProfiles (env.uppercase name)).isSome
      ↔ (getStdProfile env s name).profile.isSome) ∧
    ∀ name2, env.uppercase name2 = env.uppercase name →
      getStdProfile env (getStdProfile env s name).store name2
        = { profile := (getStdProfile env s name).profile
            store := (getStdProfile env s name).store
            loads := [] } := by
  have h1 : getStdProfile env s name
      = { profile := (ProfileContent.ofFile env path).toProfile env
          store := { s with
            fileStdProfiles :=
              match (ProfileContent.ofFile env path).toProfile env with
              | some _ => mapInsert s.fileStdProfiles (env.uppercase name)
                  ((ProfileContent.ofFile env path).toProfile env)
              | none => s.fileStdProfiles
            fileStdProfilesFileNames :=
              mapErase s.fileStdProfilesFileNames (env.uppercase name) }
          loads := [path] } := by
    simp only [getStdProfile, hstd, hidx]
  rw [h1]
  refine ⟨rfl, rfl, mapFind_mapErase_self _ _, ?_, ?_⟩
  · cases hp : (ProfileContent.ofFile env path).toProfile env with
    | none => simp [hstd]
    | some h => simp [mapFind_mapInsert_self _ _ _ hstd]
  · intro name2 h2
    cases hp : (ProfileContent.ofFile env path).toProfile env with
    | none =>
      simp only [getStdProfile, h2, hstd, mapFind_mapErase_self]
    | some h =>
      simp only [getStdProfile, h2, mapFind_mapInsert_self _ _ _ hstd]

/-- Witness of `getStdProfile_loads_once`: the input profile `Nikon D700` of the sample
environment, asked for in lower case. -/
theorem getStdProfile_loads_once_witness :
    mapFind (init sampleEnv (emptyStore (List Nat)) "/home/icc" "/rt").fileStdProfiles
      (sampleEnv.uppercase "nikon d700") = none ∧
    mapFind (init sampleEnv (emptyStore (List Nat)) "/home/icc" "/rt").fileStdProfilesFileNames
      (sampleEnv.uppercase "nikon d700") = some "/rt/input/Nikon D700.icc" ∧
    (getStdProfile sampleEnv (init sampleEnv (emptyStore (List Nat)) "/home/icc" "/rt")
      "nikon d700").loads = ["/rt/input/Nikon D700.icc"] ∧
    (getStdProfile sampleEnv
      (getStdProfile sampleEnv (init sampleEnv (emptyStore (List Nat)) "/home/icc" "/rt")
        "nikon d700").store "Nikon D700").loads = [] :=
  have h := getStdProfile_loads_once sampleEnv
    (init sampleEnv (emptyStore (List Nat)) "/home/icc" "/rt") "nikon d700"
    "/rt/input/Nikon D700.icc" (by decide) (by decide)
  ⟨by decide, by decide, h.1, by rw [h.2.2.2.2 "Nikon D700" (by decide)]⟩

/-- C8: `getProfile (name)` returns the cached handle when `name` is a key of the
output-profile map, reading no file and leaving the store as it is; otherwise, when `name`
starts with `file:` and the file named by the rest parses to a profile, it returns that
handle after inserting `name` into the handle map and into the content map; otherwise it
returns null and leaves the store as it is. -/
theorem getProfile_cases {H : Type} (env : Env H) (s : ICCStore H) (name : String) :
    (∀ r, mapFind s.fileProfiles name = some r →
      getProfile env s name = { profile := r, store := s, loads := [] }) ∧
    (∀ h, mapFind s.fileProfiles name = none → name.take 5 = "file:" →
      (ProfileContent.ofFile env (name.drop 5)).toProfile env = some h →
      (getProfile env s name).profile = some h ∧
      (getProfile env s name).store
        = { s with
            fileProfiles := mapInsert s.fileProfiles name (some h)
            fileProfileContents :=
              mapInsert s.fileProfileContents name (ProfileContent.ofFile env (name.drop 5)) } ∧
      mapFind (getProfile env s name).store.fileProfiles name = some (some h) ∧
      (mapFind (getProfile env s name).store.fileProfileContents name).isSome = true) ∧
    (mapFind s.fileProfiles name = none →
      (name.take 5 ≠ "file:" ∨
        (ProfileContent.ofFile env (name.drop 5)).toProfile env = none) →
      (getProfile env s name).profile = none ∧ (getProfile env s name).store = s) := by
  refine ⟨?_, ?_, ?_⟩
  · intro r hr
    simp only [getProfile, hr]
  · intro h hnone hfile hparse
    have e : getProfile env s name
        = { profile := some h
            store := { s with
              fileProfiles := mapInsert s.fileProfiles name (some h)
              fileProfileContents :=
                mapInsert s.fileProfileContents name
                  (ProfileContent.ofFile env (name.drop 5)) }
            loads := [name.drop 5] } := by
      simp only [getProfile, hnone, hfile, if_true, hparse]
    rw [e]
    exact ⟨rfl, rfl, mapFind_mapInsert_self _ _ _ hnone, mapFind_mapInsert_isSome _ _ _⟩
  · intro hnone hor
    rcases hor with hfile | hparse
    · simp only [getProfile, hnone, hfile, if_false, and_self]
    · by_cases hfile : name.take 5 = "file:"
      · simp only [getProfile, hnone, hfile, if_true, hparse, and_self]
      · simp only [getProfile, hnone, hfile, if_false, and_self]

/-- Witness of `getProfile_cases`: the three cases in the sample environment. -/
theorem getProfile_cases_witness :
    (getProfile sampleEnv (init sampleEnv (emptyStore (List Nat)) "/home/icc" "/rt") "A").loads
      = [] ∧
    (getProfile sampleEnv (emptyStore (List Nat)) "file:/home/icc/U.icm").profile
      = some [1, 2, 14] ∧
    (getProfile sampleEnv (emptyStore (List Nat)) "/home/icc/U.icm").profile = none :=
  have h := getProfile_cases sampleEnv (emptyStore (List Nat))
  have h0 := getProfile_cases sampleEnv
    (init sampleEnv (emptyStore (List Nat)) "/home/icc" "/rt") "A"
  ⟨by rw [h0.1 (some [1, 2, 10]) (by decide)],
    ((h "file:/home/icc/U.icm").2.1 [1, 2, 14] (by decide) (by decide) (by decide)).1,
    ((h "/home/icc/U.icm").2.2 (by decide) (Or.inl (by decide))).1⟩

/-- C9: the constructor succeeds, and in the store it builds each of the four working-space
operations returns, for each of the eight names of `wpnames`, the entry the constructor made
for that name, and for every other name what it returns for `sRGB`; no lookup
dereferences a missing element. -/
theorem workingSpace_falls_back_to_sRGB {H : Type}
    (cmsOpenProfileFromMem : List Nat → cmsHPROFILE H) (cmsCreate_sRGBProfile : cmsHPROFILE H)
    (le : Bool) (wprofiles iwprofiles : Nat → Nat → Nat → ℚ) :
    ∃ s, ICCStore.construct cmsOpenProfileFromMem cmsCreate_sRGBProfile le wprofiles iwprofiles
        = .ok s ∧
      (∀ i, i < 8 →
        ∃ p pg, createFromMatrix cmsOpenProfileFromMem le (wprofiles i) false "" = .ok p ∧
          createFromMatrix cmsOpenProfileFromMem le (wprofiles i) true "" = .ok pg ∧
          workingSpace s (wpnames.getD i "") = .ok p ∧
          workingSpaceGamma s (wpnames.getD i "") = .ok pg ∧
          workingSpaceMatrix s (wpnames.getD i "") = .ok (wprofiles i) ∧
          workingSpaceInverseMatrix s (wpnames.getD i "") = .ok (iwprofiles i)) ∧
      (∀ name, name ∉ wpnames →
        workingSpace s name = workingSpace s "sRGB" ∧
        workingSpaceGamma s name = workingSpaceGamma s "sRGB" ∧
        workingSpaceMatrix s name = workingSpaceMatrix s "sRGB" ∧
        workingSpaceInverseMatrix s name = workingSpaceInverseMatrix s "sRGB") ∧
      (mapFind s.wProfiles "sRGB").isSome = true ∧
      (mapFind s.wProfilesGamma "sRGB").isSome = true ∧
      (mapFind s.wMatrices "sRGB").isSome = true ∧
      (mapFind s.iwMatrices "sRGB").isSome = true := by
  have hempty : (cstr "").length ≤ 723 := by decide
  have hxyz : (cstr "XYZ").length ≤ 723 := by decide
  obtain ⟨P, hP⟩ : ∃ P : Nat → cmsHPROFILE H, P = fun i => cmsOpenProfileFromMem
      (bytesAt (profileBytes le (wprofiles i) false "") 0 476) := ⟨_, rfl⟩
  obtain ⟨PG, hPG⟩ : ∃ PG : Nat → cmsHPROFILE H, PG = fun i => cmsOpenProfileFromMem
      (bytesAt (profileBytes le (wprofiles i) true "") 0 476) := ⟨_, rfl⟩
  have hp' : ∀ i, createFromMatrix cmsOpenProfileFromMem le (wprofiles i) false ""
      = .ok (P i) := by
    intro i; rw [hP]; exact createFromMatrix_eq _ _ _ _ _ hempty
  have hpg' : ∀ i, createFromMatrix cmsOpenProfileFromMem le (wprofiles i) true ""
      = .ok (PG i) := by
    intro i; rw [hPG]; exact createFromMatrix_eq _ _ _ _ _ hempty
  have hcons : ICCStore.construct cmsOpenProfileFromMem cmsCreate_sRGBProfile le wprofiles
      iwprofiles
      = .ok
        { wProfiles := [("Rec2020", P 7), ("BestRGB", P 6), ("Beta RGB", P 5),
            ("BruceRGB", P 4), ("WideGamut", P 3), ("ProPhoto", P 2), ("Adobe RGB", P 1),
            ("sRGB", P 0)]
          wProfilesGamma := [("Rec2020", PG 7), ("BestRGB", PG 6), ("Beta RGB", PG 5),
            ("BruceRGB", PG 4), ("WideGamut", PG 3), ("ProPhoto", PG 2), ("Adobe RGB", PG 1),
            ("sRGB", PG 0)]
          wMatrices := [("Rec2020", wprofiles 7), ("BestRGB", wprofiles 6),
            ("Beta RGB", wprofiles 5), ("BruceRGB", wprofiles 4), ("WideGamut", wprofiles 3),
            ("ProPhoto", wprofiles 2), ("Adobe RGB", wprofiles 1), ("sRGB", wprofiles 0)]
          iwMatrices := [("Rec2020", iwprofiles 7), ("BestRGB", iwprofiles 6),
            ("Beta RGB", iwprofiles 5), ("BruceRGB", iwprofiles 4), ("WideGamut", iwprofiles 3),
            ("ProPhoto", iwprofiles 2), ("Adobe RGB", iwprofiles 1), ("sRGB", iwprofiles 0)]
          profilesDir := "", fileProfiles := [], fileProfileContents := []
          stdProfilesDir := "", fileStdProfiles := [], fileStdProfilesFileNames := []
          xyz := cmsOpenProfileFromMem
            (bytesAt (profileBytes le identityMatrix false "XYZ") 0 476)
          srgb := cmsCreate_sRGBProfile } := by
    have hr : List.range wpnames.length = [0, 1, 2, 3, 4, 5, 6, 7] := by decide
    unfold ICCStore.construct createXYZProfile
    rw [createFromMatrix_eq _ _ _ _ _ hxyz, hr]
    simp only [bind, Except.bind, List.foldlM_cons, List.foldlM_nil, constructorStep, hp',
      hpg', pure, Except.pure]
    rfl
  refine ⟨_, hcons, ?_, ?_, ?_⟩
  · intro i hi
    refine ⟨P i, PG i, hp' i, hpg' i, ?_⟩
    simp only [workingSpace, workingSpaceGamma, workingSpaceMatrix, workingSpaceInverseMatrix]
    interval_cases i <;> exact ⟨rfl, rfl, rfl, rfl⟩
  · intro name hname
    simp only [workingSpace, workingSpaceGamma, workingSpaceMatrix, workingSpaceInverseMatrix]
    rw [(findOrSRGB_eight _ _ _ _ _ _ _ _).2 name hname,
      (findOrSRGB_eight _ _ _ _ _ _ _ _).2 name hname,
      (findOrSRGB_eight _ _ _ _ _ _ _ _).2 name hname,
      (findOrSRGB_eight _ _ _ _ _ _ _ _).2 name hname]
    exact ⟨rfl, rfl, rfl, rfl⟩
  · exact ⟨rfl, rfl, rfl, rfl⟩

/-- C10: after `init (userDir, appDir)` from any prior store, when `fileName` is the first
entry of the application's output directory that the loader accepts under its name (it
passes the extension filter, is a regular file and parses to an RGB profile `h`), the handle
cached under that name is `h` and the content cached under it is the content of that file,
whatever the user directory holds: a user file of the same name is ignored. -/
theorem init_prefers_application_profile {H : Type} (env : Env H) (s : ICCStore H)
    (usrICCDir rtICCDir : String) (before after : List String) (fileName : String) (h : H)
    (hdir : (env.build_filename rtICCDir "output").isEmpty = false)
    (hlist : env.dir (env.build_filename rtICCDir "output")
      = some (before ++ fileName :: after))
    (hfirst : ∀ g ∈ before,
      (loadedHandle env (env.build_filename rtICCDir "output") true g).isSome = true →
      derivedName env false g ≠ derivedName env false fileName)
    (hload : loadedHandle env (env.build_filename rtICCDir "output") true fileName = some h) :
    mapFind (init env s usrICCDir rtICCDir).fileProfiles (derivedName env false fileName)
      = some (some h) ∧
    mapFind (init env s usrICCDir rtICCDir).fileProfileContents
        (derivedName env false fileName)
      = some (ProfileContent.ofFile env
          (env.build_filename (env.build_filename rtICCDir "output") fileName)) := by
  obtain ⟨P1, C1, e1, hP1, hC1⟩ := loadProfiles_foldl_absent env
    (env.build_filename rtICCDir "output") false true (derivedName env false fileName)
    before [] [] hfirst rfl rfl
  obtain ⟨P2, C2, e2, hP2, hC2⟩ := loadProfiles_foldl_keeps env
    (env.build_filename rtICCDir "output") false true (derivedName env false fileName)
    (some h) (ProfileContent.ofFile env
      (env.build_filename (env.build_filename rtICCDir "output") fileName))
    after (mapInsert P1 (derivedName env false fileName) (some h))
    (mapInsert C1 (derivedName env false fileName) (ProfileContent.ofFile env
      (env.build_filename (env.build_filename rtICCDir "output") fileName)))
    (mapFind_mapInsert_self _ _ _ hP1) (mapFind_mapInsert_self _ _ _ hC1)
  have happ : loadProfiles env (env.build_filename rtICCDir "output")
      { profiles := some [], profileContents := some [], profileNames := none } false true
      = { profiles := some P2, profileContents := some C2, profileNames := none } := by
    unfold loadProfiles
    rw [hdir, hlist]
    simp only [Bool.false_eq_true, if_false, List.foldl_append, List.foldl_cons, e1,
      loadProfilesEntry_handles, hload, e2]
  obtain ⟨P3, C3, e3, hP3, hC3⟩ := loadProfiles_keeps env usrICCDir false true
    (derivedName env false fileName) (some h) _ P2 C2 hP2 hC2
  have hinit : (init env s usrICCDir rtICCDir).fileProfiles = P3 ∧
      (init env s usrICCDir rtICCDir).fileProfileContents = C3 := by
    simp only [init, happ, e3, Option.getD_some, and_self]
  rw [hinit.1, hinit.2]
  exact ⟨hP3, hC3⟩

/-- Witness of `init_prefers_application_profile`: in the sample environment both `/rt/output`
and `/home/icc` hold an `A.icc`; the store caches the application's. -/
theorem init_prefers_application_profile_witness :
    (sampleEnv.build_filename "/rt" "output").isEmpty = false ∧
    sampleEnv.dir (sampleEnv.build_filename "/rt" "output")
      = some ([] ++ "A.icc" :: ["Bad.icc", "readme.txt"]) ∧
    loadedHandle sampleEnv (sampleEnv.build_filename "/rt" "output") true "A.icc"
      = some [1, 2, 10] ∧
    loadedHandle sampleEnv "/home/icc" true "A.icc" = some [1, 2, 13] ∧
    mapFind (init sampleEnv (emptyStore (List Nat)) "/home/icc" "/rt").fileProfiles
        (derivedName sampleEnv false "A.icc")
      = some (some [1, 2, 10]) ∧
    mapFind (init sampleEnv (emptyStore (List Nat)) "/home/icc" "/rt").fileProfileContents
        (derivedName sampleEnv false "A.icc")
      = some (ProfileContent.ofFile sampleEnv
          (sampleEnv.build_filename (sampleEnv.build_filename "/rt" "output") "A.icc")) :=
  have h := init_prefers_application_profile sampleEnv (emptyStore (List Nat)) "/home/icc"
    "/rt" [] ["Bad.icc", "readme.txt"] "A.icc" [1, 2, 10] (by decide) (by decide)
    (fun g hg => absurd hg (List.not_mem_nil g)) (by decide)
  ⟨by decide, by decide, by decide, by decide, h.1, h.2⟩

/-! ### The directory loader -/

/-- C11: for a directory listing `entries` and an initially empty path-only map, the keys of
the map after `loadProfiles` are exactly the derived names of the entries that pass the
filter (at least four characters, the last four case-fold to `.icc` or `.icm`, a regular
file), and each key holds the path of the first such entry of the listing with that derived
name. -/
theorem loadProfiles_path_index {H : Type} (env : Env H) (dirName : String)
    (entries : List String) (nameUpper onlyRgb : Bool) (m : LoadMaps H)
    (hempty : m.profileNames = some [])
    (hdir : dirName.isEmpty = false) (hlist : env.dir dirName = some entries) :
    ∃ N, (loadProfiles env dirName m nameUpper onlyRgb).profileNames = some N ∧
      (∀ k, (mapFind N k).isSome = true ↔
        ∃ f, f ∈ entries ∧ passesFilter env dirName f = true ∧
          derivedName env nameUpper f = k) ∧
      (∀ k, mapFind N k
        = (entries.find? (fun f => passesFilter env dirName f &&
            decide (derivedName env nameUpper f = k))).map (env.build_filename dirName)) := by
  have hload : loadProfiles env dirName m nameUpper onlyRgb
      = entries.foldl (loadProfilesEntry env dirName nameUpper onlyRgb) m := by
    unfold loadProfiles
    rw [hdir, hlist]
    simp
  have hall := fun k => loadProfiles_foldl_names env dirName nameUpper onlyRgb k entries m []
    hempty
  obtain ⟨N, hN, -⟩ := hall ""
  have hval : ∀ k, mapFind N k
      = (entries.find? (fun f => passesFilter env dirName f &&
          decide (derivedName env nameUpper f = k))).map (env.build_filename dirName) := by
    intro k
    obtain ⟨N', hN', hfind⟩ := hall k
    rw [hN] at hN'
    obtain rfl : N = N' := Option.some.inj hN'
    rw [hfind]
    rfl
  refine ⟨N, by rw [hload]; exact hN, ?_, hval⟩
  intro k
  rw [hval k]
  constructor
  · intro hs
    cases hf : entries.find? (fun f => passesFilter env dirName f &&
        decide (derivedName env nameUpper f = k)) with
    | none => rw [hf] at hs; simp at hs
    | some f =>
      have hmem := List.mem_of_find?_eq_some hf
      have hprop := List.find?_some hf
      simp only [Bool.and_eq_true, decide_eq_true_eq] at hprop
      exact ⟨f, hmem, hprop.1, hprop.2⟩
  · rintro ⟨f, hmem, hpass, hname⟩
    cases hf : entries.find? (fun f => passesFilter env dirName f &&
        decide (derivedName env nameUpper f = k)) with
    | none =>
      have := List.find?_eq_none.mp hf f hmem
      simp [hpass, hname] at this
    | some g => simp

/-- Witness of `loadProfiles_path_index`: the listing `A.icc`, `a.ICM`, `B.txt` with
`nameUpper` set yields the single key `A`, with the path of `A.icc`. -/
theorem loadProfiles_path_index_witness :
    ("/icc" : String).isEmpty = false ∧
    listingEnv.dir "/icc" = some ["A.icc", "a.ICM", "B.txt"] ∧
    (loadProfiles listingEnv "/icc"
        { profiles := none, profileContents := none, profileNames := some [] }
        true false).profileNames = some [("A", "/icc/A.icc")] ∧
    ∃ N, (loadProfiles listingEnv "/icc"
        { profiles := none, profileContents := none, profileNames := some [] }
        true false).profileNames = some N ∧
      (∀ k, (mapFind N k).isSome = true ↔
        ∃ f, f ∈ ["A.icc", "a.ICM", "B.txt"] ∧ passesFilter listingEnv "/icc" f = true ∧
          derivedName listingEnv true f = k) ∧
      (∀ k, mapFind N k
        = (["A.icc", "a.ICM", "B.txt"].find? (fun f => passesFilter listingEnv "/icc" f &&
            decide (derivedName listingEnv true f = k))).map
              (listingEnv.build_filename "/icc")) :=
  ⟨by decide, by decide, by decide,
    loadProfiles_path_index listingEnv "/icc" ["A.icc", "a.ICM", "B.txt"] true false
      { profiles := none, profileContents := none, profileNames := some [] } rfl
      (by decide) (by decide)⟩

/-- C12: for a directory entry that passes the filter of `loadProfiles` and whose derived
name is not yet a key: when a handle map is requested, the name is inserted into it, with the
parsed handle, exactly when the file's bytes parse to a profile and `onlyRgb` is off or the
profile is RGB, and then and only then into the content map, when one is requested too; when
a path-only map is requested, the name is inserted there with the file's path, whatever the
parse gives. -/
theorem loadProfilesEntry_inserts {H : Type} (env : Env H) (dirName : String)
    (nameUpper onlyRgb : Bool) (m : LoadMaps H) (fileName : String)
    (hpass : passesFilter env dirName fileName = true) :
    (∀ P, m.profiles = some P → mapFind P (derivedName env nameUpper fileName) = none →
      ∃ P', (loadProfilesEntry env dirName nameUpper onlyRgb m fileName).profiles = some P' ∧
        ((mapFind P' (derivedName env nameUpper fileName)).isSome = true ↔
          ∃ h, (ProfileContent.ofFile env (env.build_filename dirName fileName)).toProfile env
              = some h ∧ (onlyRgb = false ∨ env.isRgb h = true)) ∧
        (∀ h, (ProfileContent.ofFile env (env.build_filename dirName fileName)).toProfile env
            = some h → (onlyRgb = false ∨ env.isRgb h = true) →
          mapFind P' (derivedName env nameUpper fileName) = some (some h)) ∧
        ∀ C, m.profileContents = some C →
          mapFind C (derivedName env nameUpper fileName) = none →
          ∃ C', (loadProfilesEntry env dirName nameUpper onlyRgb m fileName).profileContents
              = some C' ∧
            ((mapFind C' (derivedName env nameUpper fileName)).isSome = true ↔
              ∃ h, (ProfileContent.ofFile env
                  (env.build_filename dirName fileName)).toProfile env = some h ∧
                (onlyRgb = false ∨ env.isRgb h = true))) ∧
    (∀ N, m.profileNames = some N → mapFind N (derivedName env nameUpper fileName) = none →
      ∃ N', (loadProfilesEntry env dirName nameUpper onlyRgb m fileName).profileNames
          = some N' ∧
        mapFind N' (derivedName env nameUpper fileName)
          = some (env.build_filename dirName fileName)) := by
  have hloaded : loadedHandle env dirName onlyRgb fileName
      = match (ProfileContent.ofFile env (env.build_filename dirName fileName)).toProfile env
          with
        | some h => if !onlyRgb || env.isRgb h then some h else none
        | none => none := by
    unfold loadedHandle
    rw [if_pos hpass]
  have hcond : ∀ h, ((!onlyRgb || env.isRgb h) = true) ↔ (onlyRgb = false ∨ env.isRgb h = true) := by
    intro h
    cases onlyRgb <;> simp
  rw [loadProfilesEntry_eq, if_pos hpass]
  constructor
  · intro P hP hnone
    cases hparse : (ProfileContent.ofFile env (env.build_filename dirName fileName)).toProfile
        env with
    | none =>
      rw [hparse] at hloaded
      replace hloaded : loadedHandle env dirName onlyRgb fileName = none := hloaded
      simp only [hP, hloaded]
      refine ⟨P, rfl, ?_, ?_, ?_⟩
      · rw [hnone]; simp
      · intro h hh; exact Option.noConfusion hh
      · intro C hC hCnone
        refine ⟨C, hC, ?_⟩
        rw [hCnone]; simp
    | some h =>
      rw [hparse] at hloaded
      replace hloaded : loadedHandle env dirName onlyRgb fileName
          = if (!onlyRgb || env.isRgb h) = true then some h else none := hloaded
      by_cases hrgb : (!onlyRgb || env.isRgb h) = true
      · rw [if_pos hrgb] at hloaded
        simp only [hP, hloaded]
        refine ⟨_, rfl, ?_, ?_, ?_⟩
        · rw [mapFind_mapInsert_self _ _ _ hnone]
          simp only [Option.isSome_some, true_iff]
          exact ⟨h, rfl, (hcond h).mp hrgb⟩
        · intro h' hh' _
          obtain rfl : h = h' := Option.some.inj hh'
          exact mapFind_mapInsert_self _ _ _ hnone
        · intro C hC hCnone
          refine ⟨_, by rw [hC]; rfl, ?_⟩
          rw [mapFind_mapInsert_self _ _ _ hCnone]
          simp only [Option.isSome_some, true_iff]
          exact ⟨h, rfl, (hcond h).mp hrgb⟩
      · rw [if_neg hrgb] at hloaded
        simp only [hP, hloaded]
        have hno : ¬ ∃ h', some h = some h' ∧ (onlyRgb = false ∨ env.isRgb h' = true) := by
          rintro ⟨h', hh', hc⟩
          obtain rfl : h = h' := Option.some.inj hh'
          exact hrgb ((hcond h).mpr hc)
        refine ⟨P, rfl, ?_, ?_, ?_⟩
        · rw [hnone]
          simp only [Option.isSome_none, Bool.false_eq_true, false_iff]
          exact hno
        · intro h' hh' hc
          exact absurd ⟨h', hh', hc⟩ hno
        · intro C hC hCnone
          refine ⟨C, hC, ?_⟩
          rw [hCnone]
          simp only [Option.isSome_none, Bool.false_eq_true, false_iff]
          exact hno
  · intro N hN hnone
    refine ⟨mapInsert N (derivedName env nameUpper fileName)
      (env.build_filename dirName fileName), by simp only [hN, Option.map_some'], ?_⟩
    exact mapFind_mapInsert_self _ _ _ hnone

/-- Witness of `loadProfilesEntry_inserts`: the entry `Bad.icc` of the sample environment,
which the parser rejects, with all three maps requested and empty. -/
theorem loadProfilesEntry_inserts_witness :
    passesFilter sampleEnv "/rt/output" "Bad.icc" = true ∧
    (loadProfilesEntry sampleEnv "/rt/output" false true
        { profiles := some [], profileContents := some [], profileNames := some [] }
        "Bad.icc").profiles = some [] ∧
    (loadProfilesEntry sampleEnv "/rt/output" false true
        { profiles := some [], profileContents := some [], profileNames := some [] }
        "Bad.icc").profileNames = some [("Bad", "/rt/output/Bad.icc")] ∧
    ∃ N', (loadProfilesEntry sampleEnv "/rt/output" false true
        { profiles := some [], profileContents := some [], profileNames := some [] }
        "Bad.icc").profileNames = some N' ∧
      mapFind N' (derivedName sampleEnv false "Bad.icc")
        = some (sampleEnv.build_filename "/rt/output" "Bad.icc") :=
  ⟨by decide, by decide, by decide,
    (loadProfilesEntry_inserts sampleEnv "/rt/output" false true
      { profiles := some [], profileContents := some [], profileNames := some [] }
      "Bad.icc" (by decide)).2 [] rfl rfl⟩

/-! ### The buffer of `createFromMatrix` -/

/-- C13, at the failing input: for the identity matrix, `gamma = false` and the name `XYZ`
(the call of `createXYZProfile`), the four bytes of the string-length field of the
description tag, at byte offset 296, are `04 00 00 00` on a little-endian host, which read in
network byte order give 67108864 and not the length plus one, 4; on a big-endian host they
are `00 00 00 04`. The field is stored after the conversion loop, in host byte order. -/
theorem createFromMatrix_desc_length_host_order :
    (createFromMatrixBuffer true identityMatrix false "XYZ").map
        (fun r => (bytesAt r.1 296 4, wordAt r.1 296))
      = .ok ([4, 0, 0, 0], 67108864) ∧
    (createFromMatrixBuffer false identityMatrix false "XYZ").map
        (fun r => (bytesAt r.1 296 4, wordAt r.1 296))
      = .ok ([0, 0, 0, 4], 4) := by
  rw [createFromMatrixBuffer_eq true identityMatrix false "XYZ" (by decide),
    createFromMatrixBuffer_eq false identityMatrix false "XYZ" (by decide)]
  simp only [Except.map, wordAt]
  rw [bytesAt_profileBytes_length true identityMatrix false "XYZ" (by decide),
    bytesAt_profileBytes_length false identityMatrix false "XYZ" (by decide)]
  exact ⟨by decide, by decide⟩

set_option maxRecDepth 100000 in
/-- C14, at the failing input: for the identity matrix, `gamma = false` and a name of 28
bytes, entry 2 of the directory is `wtpt` at offset 328 with size 20, and the 20 bytes at
offset 328 start with `00` instead of the `X` of the type signature: the terminating NUL of
the copied name has replaced it. With a name of 27 bytes the tag is intact. -/
theorem createFromMatrix_long_name_overwrites_wtpt :
    (createFromMatrixBuffer true identityMatrix false "ABCDEFGHIJKLMNOPQRSTUVWXYZ01").map
        (fun r => (tagSig r.1 2, tagOffset r.1 2, tagSize r.1 2, bytesAt r.1 328 20))
      = .ok (0x77747074, 328, 20,
          [0x00, 0x59, 0x5a, 0x20, 0, 0, 0, 0,
           0, 0, 0xf3, 0x51, 0, 1, 0, 0, 0, 1, 0x16, 0xcc]) ∧
    (createFromMatrixBuffer true identityMatrix false "ABCDEFGHIJKLMNOPQRSTUVWXYZ0").map
        (fun r => (tagSig r.1 2, tagOffset r.1 2, tagSize r.1 2, bytesAt r.1 328 20))
      = .ok (0x77747074, 328, 20,
          [0x58, 0x59, 0x5a, 0x20, 0, 0, 0, 0,
           0, 0, 0xf3, 0x51, 0, 1, 0, 0, 0, 1, 0x16, 0xcc]) := by
  rw [createFromMatrixBuffer_eq true identityMatrix false "ABCDEFGHIJKLMNOPQRSTUVWXYZ01"
      (by decide),
    createFromMatrixBuffer_eq true identityMatrix false "ABCDEFGHIJKLMNOPQRSTUVWXYZ0"
      (by decide)]
  exact ⟨by decide!, by decide!⟩

/-- For names of at most 723 bytes, the ones whose copy stays inside the work buffer, the
buffer `createFromMatrix` assembles has 1024 bytes, tag count 10 and the signatures `cprt`,
`desc`, `wtpt`, `bkpt`, `rTRC`, `gTRC`, `bTRC`, `rXYZ`, `gXYZ`, `bXYZ` in that order; the
first payload starts at `132 + 12 * 10`, each further payload at the previous offset plus the
previous declared size rounded up to a multiple of 4; the size field at offset 0, which is
also the length handed to the library, is the end of the last payload, 476. -/
theorem createFromMatrix_layout (le : Bool) (matrix : Nat → Nat → ℚ) (gamma : Bool)
    (name : String) (hname : (cstr name).length ≤ 723) :
    ∃ buf, createFromMatrixBuffer le matrix gamma name = .ok (buf, wordAt buf 0) ∧
      buf.length = 1024 ∧
      wordAt buf 128 = 10 ∧
      (List.range 10).map (tagSig buf)
        = [0x63707274, 0x64657363, 0x77747074, 0x626b7074, 0x72545243, 0x67545243,
           0x62545243, 0x7258595a, 0x6758595a, 0x6258595a] ∧
      tagOffset buf 0 = 132 + 12 * 10 ∧
      (∀ i, i < 9 → tagOffset buf (i + 1) = tagOffset buf i + (tagSize buf i + 3) / 4 * 4) ∧
      (∀ i, i < 10 → tagOffset buf i % 4 = 0) ∧
      (∀ i j, i < j → j < 10 → tagOffset buf i + tagSize buf i ≤ tagOffset buf j) ∧
      wordAt buf 0 = tagOffset buf 9 + tagSize buf 9 ∧
      wordAt buf 0 = 476 ∧
      wordAt buf 0 ≤ buf.length := by
  have hdir := bytesAt_profileBytes_low le matrix gamma name hname 32 31 (by omega)
  rw [directoryWords] at hdir
  have hlen := length_profileBytes le matrix gamma name hname
  have h0 : wordAt (profileBytes le matrix gamma name) 0 = 476 := by
    unfold wordAt bytesAt
    rw [List.drop_zero, take_four_profileBytes le matrix gamma name hname]
    rfl
  have hd := directory_of_region _ hdir
  have hoff : ∀ i, i < 10 → tagOffset (profileBytes le matrix gamma name) i
      = pbodyFinal.getD (3 * i + 2) 0 := fun i hi => (hd i hi).2.2.1
  have hsize : ∀ i, i < 10 → tagSize (profileBytes le matrix gamma name) i
      = pbodyFinal.getD (3 * i + 3) 0 := fun i hi => (hd i hi).2.2.2
  have hsig : ∀ i, i < 10 → tagSig (profileBytes le matrix gamma name) i
      = pbodyFinal.getD (3 * i + 1) 0 := fun i hi => (hd i hi).2.1
  refine ⟨_, ?_, hlen, (hd 0 (by decide)).1, ?_, ?_, ?_, ?_, ?_, ?_, h0, ?_⟩
  · rw [h0]
    exact createFromMatrixBuffer_eq le matrix gamma name hname
  · simp only [List.range, List.range.loop, List.map_cons, List.map_nil]
    rw [hsig 0 (by decide), hsig 1 (by decide), hsig 2 (by decide), hsig 3 (by decide),
      hsig 4 (by decide), hsig 5 (by decide), hsig 6 (by decide), hsig 7 (by decide),
      hsig 8 (by decide), hsig 9 (by decide)]
    rfl
  · rw [hoff 0 (by decide)]
    rfl
  · intro i hi
    rw [hoff (i + 1) (by omega), hoff i (by omega), hsize i (by omega)]
    interval_cases i <;> rfl
  · intro i hi
    rw [hoff i hi]
    interval_cases i <;> rfl
  · intro i j hij hj
    rw [hoff i (by omega), hsize i (by omega), hoff j hj]
    interval_cases j <;> interval_cases i <;> decide
  · rw [h0, hoff 9 (by decide), hsize 9 (by decide)]
    rfl
  · rw [h0, hlen]
    decide

/-- C16, at the failing input: with a name of 724 bytes the copy of the description, which
starts at byte 300 and ends with a NUL, needs 1025 bytes: `createFromMatrix` writes past the
end of its work buffer of 1024 bytes and no buffer is assembled. With 723 bytes the copy
ends on the last byte of the buffer and the size field reads 476. -/
theorem createFromMatrix_overlong_name_faults :
    (cstr (nameOfLength 724)).length = 724 ∧
    createFromMatrixBuffer true identityMatrix false (nameOfLength 724)
      = .error .writeOutOfBounds ∧
    (createFromMatrixBuffer true identityMatrix false (nameOfLength 723)).map
        (fun r => (r.1.length, r.2)) = .ok (1024, 476) := by
  refine ⟨length_cstr_nameOfLength_724, ?_, ?_⟩
  · exact createFromMatrixBuffer_fault true identityMatrix false (nameOfLength 724)
      (by rw [length_cstr_nameOfLength_724]; decide)
  · have h723 : (cstr (nameOfLength 723)).length ≤ 723 := by decide!
    rw [createFromMatrixBuffer_eq true identityMatrix false (nameOfLength 723) h723]
    simp only [Except.map, length_profileBytes true identityMatrix false _ h723]

/-! ### The output profile for a custom gamma, and the intent masks -/

/-- C17, counterexample: with free gamma selected, `gampos = 2.4` and the preset field still
holding `linear_g1.0`, the flag `pro` is true although neither free gamma with a power below
1.35 nor a preset with free gamma off is selected; for the working space `sRGB` the chain then
picks the configured `srgb10` name. -/
theorem customGammaPro_stale_preset :
    customGammaPro stalePresetParams = true ∧
    ¬ ((stalePresetParams.freegamma = true ∧ stalePresetParams.gampos < 1.35) ∨
        (stalePresetParams.freegamma = false ∧
          (stalePresetParams.gamma = "linear_g1.0" ∨
            stalePresetParams.gamma = "High_g1.3_s3.35"))) ∧
    customGammaOutProfile sampleOutputStore sampleSettings stalePresetParams
      = some "RT_sRGB_g10" :=
  ⟨by decide!, by decide!, by decide!⟩

/-- C17, as amended: the flag `pro` of `createCustomGammaOutputProfile` is true exactly when
free gamma is selected with `gampos < 1.35`, or the preset field is `linear_g1.0` or
`High_g1.3_s3.35`, whether free gamma is selected or not; and the chain of tests selects, when
it is a key of the output-profile cache, for `sRGB` the configured `srgb10` name when the flag
is true and the `srgb` name otherwise, for `ProPhoto` the `prophoto10` name when the flag is
true and the `prophoto` name otherwise, and for `Adobe RGB`, `WideGamut`, `Beta RGB`,
`BestRGB`, `BruceRGB` and `Rec2020` the configured name of that space whatever the flag; it
selects nothing when that name is not a key or the working space is none of the eight. -/
theorem createCustomGammaOutputProfile_selection {H : Type} (s : ICCStore H) (rt : RTSettings)
    (icm : ColorManagementParams) :
    (customGammaPro icm = true ↔
      (icm.freegamma = true ∧ icm.gampos < 1.35) ∨
        icm.gamma = "linear_g1.0" ∨ icm.gamma = "High_g1.3_s3.35") ∧
    (icm.working = "sRGB" →
      customGammaOutProfile s rt icm
        = if outputProfileExist s (if customGammaPro icm then rt.srgb10 else rt.srgb)
          then some (if customGammaPro icm then rt.srgb10 else rt.srgb) else none) ∧
    (icm.working = "ProPhoto" →
      customGammaOutProfile s rt icm
        = if outputProfileExist s (if customGammaPro icm then rt.prophoto10 else rt.prophoto)
          then some (if customGammaPro icm then rt.prophoto10 else rt.prophoto) else none) ∧
    (icm.working = "Adobe RGB" →
      customGammaOutProfile s rt icm
        = if outputProfileExist s rt.adobe then some rt.adobe else none) ∧
    (icm.working = "WideGamut" →
      customGammaOutProfile s rt icm
        = if outputProfileExist s rt.widegamut then some rt.widegamut else none) ∧
    (icm.working = "Beta RGB" →
      customGammaOutProfile s rt icm
        = if outputProfileExist s rt.beta then some rt.beta else none) ∧
    (icm.working = "BestRGB" →
      customGammaOutProfile s rt icm
        = if outputProfileExist s rt.best then some rt.best else none) ∧
    (icm.working = "BruceRGB" →
      customGammaOutProfile s rt icm
        = if outputProfileExist s rt.bruce then some rt.bruce else none) ∧
    (icm.working = "Rec2020" →
      customGammaOutProfile s rt icm
        = if outputProfileExist s rt.rec2020 then some rt.rec2020 else none) ∧
    (icm.working ∉ wpnames → customGammaOutProfile s rt icm = none) := by
  refine ⟨customGammaPro_iff icm, ?_, ?_, ?_, ?_, ?_, ?_, ?_, ?_, ?_⟩
  all_goals
    intro hw
    rw [customGammaOutProfile_eq]
  · rw [hw]; rfl
  · rw [hw]; rfl
  · rw [hw]; rfl
  · rw [hw]; rfl
  · rw [hw]; rfl
  · rw [hw]; rfl
  · rw [hw]; rfl
  · rw [hw]; rfl
  · rw [(resolvedOutputName_eq_none rt icm.working (customGammaPro icm)).mpr hw]

/-- C18: `createCustomGammaOutputProfile` leaves the store as it is and reads no file; it
returns null when the working-space name is none of the eight known names, and when the
output-profile name resolved for the working space is not a key of the output-profile cache;
whenever it returns null it has written no tag of any profile; and when the resolved name is
a key of the cache, the handle returned is the one cached under that name. -/
theorem createCustomGammaOutputProfile_null_or_cached {H : Type} (env : Env H)
    (mluAlloc : Bool) (formatFloat : ℚ → String) (rt : RTSettings) (s : ICCStore H)
    (icm : ColorManagementParams) (ga : GammaValues) :
    (createCustomGammaOutputProfile env mluAlloc formatFloat rt s icm ga).store = s ∧
    (createCustomGammaOutputProfile env mluAlloc formatFloat rt s icm ga).loads = [] ∧
    (icm.working ∉ wpnames →
      (createCustomGammaOutputProfile env mluAlloc formatFloat rt s icm ga).profile = none) ∧
    (∀ n, resolvedOutputName rt icm.working (customGammaPro icm) = some n →
      mapFind s.fileProfiles n = none →
      (createCustomGammaOutputProfile env mluAlloc formatFloat rt s icm ga).profile = none) ∧
    ((createCustomGammaOutputProfile env mluAlloc formatFloat rt s icm ga).profile = none →
      (createCustomGammaOutputProfile env mluAlloc formatFloat rt s icm ga).writes = []) ∧
    (∀ n r, resolvedOutputName rt icm.working (customGammaPro icm) = some n →
      mapFind s.fileProfiles n = some r →
      (createCustomGammaOutputProfile env mluAlloc formatFloat rt s icm ga).profile = r) := by
  rw [createCustomGammaOutputProfile_eq]
  cases hn : resolvedOutputName rt icm.working (customGammaPro icm) with
  | none =>
    refine ⟨rfl, rfl, fun _ => rfl, fun n h => Option.noConfusion h, fun _ => rfl,
      fun n r h => Option.noConfusion h⟩
  | some n =>
    have hw : ¬ icm.working ∉ wpnames := by
      rw [← resolvedOutputName_eq_none rt icm.working (customGammaPro icm), hn]
      exact fun h => Option.noConfusion h
    simp only [Option.some_bind]
    cases hf : mapFind s.fileProfiles n with
    | none =>
      refine ⟨rfl, rfl, fun _ => rfl, fun _ _ _ => rfl, fun _ => rfl, ?_⟩
      intro n' r hn' hr
      obtain rfl : n = n' := Option.some.inj hn'
      rw [hf] at hr
      exact Option.noConfusion hr
    | some r =>
      cases r with
      | none =>
        refine ⟨rfl, rfl, fun _ => rfl, fun _ _ _ => rfl, fun _ => rfl, ?_⟩
        intro n' r hn' hr
        obtain rfl : n = n' := Option.some.inj hn'
        rw [hf] at hr
        exact Option.some.inj hr
      | some h =>
        refine ⟨rfl, rfl, fun h' => absurd h' hw, ?_, fun h' => Option.noConfusion h', ?_⟩
        · intro n' hn' hr
          obtain rfl : n = n' := Option.some.inj hn'
          rw [hf] at hr
          exact Option.noConfusion hr
        · intro n' r hn' hr
          obtain rfl : n = n' := Option.some.inj hn'
          rw [hf] at hr
          exact Option.some.inj hr

/-- Witness of `createCustomGammaOutputProfile_null_or_cached`: with the sample settings and
a cache holding `RT_sRGB` and `RT_sRGB_g10`, the parameters with the stale linear preset get
the handle cached under `RT_sRGB_g10` and four tag writes; an empty cache gives null and no
write. -/
theorem createCustomGammaOutputProfile_null_or_cached_witness :
    (createCustomGammaOutputProfile sampleEnv true (fun _ => "") sampleSettings
        sampleOutputStore stalePresetParams (fun _ => 0)).writes.length = 4 ∧
    resolvedOutputName sampleSettings stalePresetParams.working
        (customGammaPro stalePresetParams) = some "RT_sRGB_g10" ∧
    (createCustomGammaOutputProfile sampleEnv true (fun _ => "") sampleSettings
        sampleOutputStore stalePresetParams (fun _ => 0)).profile = some [1, 2, 21] ∧
    (createCustomGammaOutputProfile sampleEnv true (fun _ => "") sampleSettings
        (emptyStore (List Nat)) stalePresetParams (fun _ => 0)).profile = none ∧
    (createCustomGammaOutputProfile sampleEnv true (fun _ => "") sampleSettings
        (emptyStore (List Nat)) stalePresetParams (fun _ => 0)).writes = [] :=
  have h := createCustomGammaOutputProfile_null_or_cached sampleEnv true (fun _ => "")
    sampleSettings sampleOutputStore stalePresetParams (fun _ => 0)
  have h0 := createCustomGammaOutputProfile_null_or_cached sampleEnv true (fun _ => "")
    sampleSettings (emptyStore (List Nat)) stalePresetParams (fun _ => 0)
  have hn : resolvedOutputName sampleSettings stalePresetParams.working
      (customGammaPro stalePresetParams) = some "RT_sRGB_g10" := by decide!
  have hnull := h0.2.2.2.1 "RT_sRGB_g10" hn (by decide)
  ⟨by decide!, hn, h.2.2.2.2.2 "RT_sRGB_g10" (some [1, 2, 21]) hn (by decide), hnull,
    h0.2.2.2.2.1 hnull⟩

/-- C19: with the library's query `cmsIsIntentSupported` an arbitrary predicate, for every
non-null handle and each of `getInputIntents`, `getOutputIntents` and `getProofIntents`, bit
`k` of the mask, for `k` from 0 (perceptual) to 3 (absolute colorimetric), is set exactly when
the library reports intent `k` supported for the handle and the direction of the operation,
and every bit from 4 on is zero; the library is asked once for each of the four intents, in
order. For the null handle the mask is 0 and the library is not asked. -/
theorem getSupportedIntents_mask {H : Type} (cmsIsIntentSupported : H → Nat → Nat → Bool)
    (h : H) :
    ((∀ k, k < 4 → (getInputIntents cmsIsIntentSupported (some h)).result.testBit k
        = cmsIsIntentSupported h k LCMS_USED_AS_INPUT) ∧
      (∀ k, 4 ≤ k → (getInputIntents cmsIsIntentSupported (some h)).result.testBit k = false) ∧
      (getInputIntents cmsIsIntentSupported (some h)).queries
        = [(h, 0, LCMS_USED_AS_INPUT), (h, 1, LCMS_USED_AS_INPUT),
           (h, 2, LCMS_USED_AS_INPUT), (h, 3, LCMS_USED_AS_INPUT)]) ∧
    ((∀ k, k < 4 → (getOutputIntents cmsIsIntentSupported (some h)).result.testBit k
        = cmsIsIntentSupported h k LCMS_USED_AS_OUTPUT) ∧
      (∀ k, 4 ≤ k → (getOutputIntents cmsIsIntentSupported (some h)).result.testBit k = false) ∧
      (getOutputIntents cmsIsIntentSupported (some h)).queries
        = [(h, 0, LCMS_USED_AS_OUTPUT), (h, 1, LCMS_USED_AS_OUTPUT),
           (h, 2, LCMS_USED_AS_OUTPUT), (h, 3, LCMS_USED_AS_OUTPUT)]) ∧
    ((∀ k, k < 4 → (getProofIntents cmsIsIntentSupported (some h)).result.testBit k
        = cmsIsIntentSupported h k LCMS_USED_AS_PROOF) ∧
      (∀ k, 4 ≤ k → (getProofIntents cmsIsIntentSupported (some h)).result.testBit k = false) ∧
      (getProofIntents cmsIsIntentSupported (some h)).queries
        = [(h, 0, LCMS_USED_AS_PROOF), (h, 1, LCMS_USED_AS_PROOF),
           (h, 2, LCMS_USED_AS_PROOF), (h, 3, LCMS_USED_AS_PROOF)]) ∧
    (getInputIntents cmsIsIntentSupported none).result = 0 ∧
    (getInputIntents cmsIsIntentSupported none).queries = [] ∧
    (getOutputIntents cmsIsIntentSupported none).result = 0 ∧
    (getOutputIntents cmsIsIntentSupported none).queries = [] ∧
    (getProofIntents cmsIsIntentSupported none).result = 0 ∧
    (getProofIntents cmsIsIntentSupported none).queries = [] :=
  ⟨getSupportedIntents_bits cmsIsIntentSupported h LCMS_USED_AS_INPUT,
    getSupportedIntents_bits cmsIsIntentSupported h LCMS_USED_AS_OUTPUT,
    getSupportedIntents_bits cmsIsIntentSupported h LCMS_USED_AS_PROOF,
    rfl, rfl, rfl, rfl, rfl, rfl⟩

/-- Witness of `getSupportedIntents_mask`: for the sample query the handle 7 has the output
mask 5 (perceptual and saturation), the input mask 15 and the proof mask 0. -/
theorem getSupportedIntents_mask_witness :
    (getOutputIntents sampleIntentSupport (some 7)).result = 5 ∧
    (getInputIntents sampleIntentSupport (some 7)).result = 15 ∧
    (getProofIntents sampleIntentSupport (some 7)).result = 0 ∧
    (getOutputIntents sampleIntentSupport (some 7)).result.testBit 2
      = sampleIntentSupport 7 2 LCMS_USED_AS_OUTPUT ∧
    (getOutputIntents sampleIntentSupport (some 7)).result.testBit 4 = false :=
  have h := getSupportedIntents_mask sampleIntentSupport 7
  ⟨by decide, by decide, by decide, h.2.1.1 2 (by decide), h.2.1.2.1 4 (by decide)⟩

/-! ### The rewritten profile: curve block, size, layout -/

/-- The profile without a tone-response tag is well formed. -/
theorem plainProfile_wellFormed : WellFormed plainProfile :=
  ⟨by decide!, by decide!, by decide!, by decide!⟩

/-- C21: for a well-formed serialized profile with at least one tone-response tag, the
buffer `makeStdGammaProfile` builds holds, at the one offset that every tone-response entry
of its directory records, the 14-byte record `curv`, four zero bytes, the entry count 1 as a
big-endian 32-bit integer and the value `0x0239` as a big-endian 16-bit integer, followed by
two zero bytes; the offset is a multiple of 4 and the 16 bytes lie inside the buffer. -/
theorem makeStdGammaProfile_curve_block (le : Bool) (spare : Nat) (data : List Nat) (h : WellFormed data)
    (htrc : ∃ k, k < wordAt data 128 ∧ isTrcSig (tagSig data k)) :
    ∃ nd, makeStdGammaBuffer le spare data = .ok nd ∧
      (∀ k, k < wordAt data 128 → isTrcSig (tagSig data k) →
        tagOffset nd k = gammaOffset data ∧ tagSize nd k = 14) ∧
      gammaOffset data % 4 = 0 ∧
      gammaOffset data + 16 ≤ nd.length ∧
      bytesAt nd (gammaOffset data) 16
        = [0x63, 0x75, 0x72, 0x76, 0, 0, 0, 0, 0, 0, 0, 1, 0x02, 0x39, 0, 0] := by
  obtain ⟨nd, hok, -, hcur, -, -, -, hcurve⟩ := makeStdGammaBuffer_spec le spare data h
  obtain ⟨nd', hok', -, hfields⟩ := makeStdGammaBuffer_fields le spare data h
  obtain rfl : nd' = nd := by
    rw [hok] at hok'
    exact (Except.ok.inj hok').symm
  obtain ⟨k0, hk0, -, hg, hnext⟩ := gammaOffset_first data htrc
  obtain ⟨hblock, hpad⟩ := hcurve htrc
  refine ⟨nd', hok, ?_, ?_, ?_, ?_⟩
  · intro k hk ht
    obtain ⟨-, h2, h3⟩ := hfields k hk
    rw [if_pos ht] at h2 h3
    exact ⟨h2, h3⟩
  · rw [hg]
    exact cursor_fst_mod data k0
  · have hle := cursor_le_of_le data (k0 + 1) (wordAt data 128) hk0
    omega
  · rw [show (16 : Nat) = 14 + 2 from rfl, bytesAt_add, hblock, hpad, curveBlock_bytes]
    rfl

/-- Witness of `makeStdGammaProfile_curve_block` on the sample profile, whose second and
third tags are tone-response tags. -/
theorem makeStdGammaProfile_curve_block_witness :
    WellFormed sampleProfile ∧
    (∃ k, k < wordAt sampleProfile 128 ∧ isTrcSig (tagSig sampleProfile k)) ∧
    ∃ nd, makeStdGammaBuffer true 0 sampleProfile = .ok nd ∧
      (∀ k, k < wordAt sampleProfile 128 → isTrcSig (tagSig sampleProfile k) →
        tagOffset nd k = gammaOffset sampleProfile ∧ tagSize nd k = 14) ∧
      gammaOffset sampleProfile % 4 = 0 ∧
      gammaOffset sampleProfile + 16 ≤ nd.length ∧
      bytesAt nd (gammaOffset sampleProfile) 16
        = [0x63, 0x75, 0x72, 0x76, 0, 0, 0, 0, 0, 0, 0, 1, 0x02, 0x39, 0, 0] :=
  ⟨sampleProfile_wellFormed, ⟨1, by decide!, by decide!⟩,
    makeStdGammaProfile_curve_block true 0 sampleProfile sampleProfile_wellFormed
      ⟨1, by decide!, by decide!⟩⟩

/-- C22: for a well-formed serialized profile, `makeStdGammaProfile` runs without leaving
its buffers and builds a buffer of exactly `128 + 4 + 12 * tagCount + 16` bytes plus the
sizes, each rounded up to a multiple of 4, of the tags that are not tone-response tags; the
first four bytes hold that length in big-endian order, bytes 4 to 131 (the rest of the header
and the tag count) are those of the source, and every range the rewriter writes lies inside
the buffer: the directory entries, the copied payloads, and the 16 bytes of the curve block
when the source has a tone-response tag. -/
theorem makeStdGammaProfile_size (le : Bool) (spare : Nat) (data : List Nat) (h : WellFormed data) :
    ∃ nd, makeStdGammaBuffer le spare data = .ok nd ∧
      nd.length = 128 + 4 + 12 * wordAt data 128 + 16 + payloadSize (sourceTags data) ∧
      bytesAt nd 0 4 = beBytes nd.length ∧
      wordAt nd 0 = nd.length ∧
      bytesAt nd 4 124 = bytesAt data 4 124 ∧
      wordAt nd 128 = wordAt data 128 ∧
      (∀ k, k < wordAt data 128 → 128 + 4 + k * 12 + 12 ≤ nd.length) ∧
      (∀ k, k < wordAt data 128 → ¬ isTrcSig (tagSig data k) →
        128 + 4 + 12 * wordAt data 128 ≤ tagOffset nd k ∧
        tagOffset nd k + tagSize nd k ≤ nd.length) ∧
      ((∃ k, k < wordAt data 128 ∧ isTrcSig (tagSig data k)) →
        128 + 4 + 12 * wordAt data 128 ≤ gammaOffset data ∧
        gammaOffset data + 16 ≤ nd.length) := by
  obtain ⟨nd, hok, hlen, hcur, hfirst, hhead, -, -⟩ := makeStdGammaBuffer_spec le spare data h
  obtain ⟨nd', hok', hcount, hfields⟩ := makeStdGammaBuffer_fields le spare data h
  obtain rfl : nd' = nd := by
    rw [hok] at hok'
    exact (Except.ok.inj hok').symm
  have hL32 : nd'.length < 4294967296 := by rw [hlen]; exact h.noWrap
  refine ⟨nd', hok, hlen, hfirst, ?_, ?_, hcount, ?_, ?_, ?_⟩
  · unfold wordAt
    rw [hfirst]
    exact beValue_beBytes _ hL32
  · have e1 := bytesAt_sub nd' 4 128 0 124 (by decide)
    have e2 := bytesAt_sub data 4 128 0 124 (by decide)
    rw [Nat.add_zero] at e1 e2
    rw [e1, e2, hhead]
  · intro k hk
    omega
  · intro k hk ht
    obtain ⟨-, h2, h3⟩ := hfields k hk
    rw [if_neg ht] at h2 h3
    rw [h2, h3]
    have hge := cursor_fst_ge data k
    have hsum := newOffset_add_size data k hk ht
    have hle := cursor_le_of_le data (k + 1) (wordAt data 128) hk
    have hr := le_roundUp4 (tagSize data k)
    constructor
    · unfold newOffset; omega
    · omega
  · intro htrc
    obtain ⟨k0, hk0, -, hg, hnext⟩ := gammaOffset_first data htrc
    have hge := cursor_fst_ge data k0
    have hle := cursor_le_of_le data (k0 + 1) (wordAt data 128) hk0
    constructor
    · omega
    · omega

/-- Witness of `makeStdGammaProfile_size`: the profile without a tone-response tag gives a
buffer of 168 bytes, the sample profile with two of them a buffer of 192 bytes. -/
theorem makeStdGammaProfile_size_witness :
    WellFormed plainProfile ∧ WellFormed sampleProfile ∧
    128 + 4 + 12 * wordAt plainProfile 128 + 16 + payloadSize (sourceTags plainProfile)
      = 168 ∧
    128 + 4 + 12 * wordAt sampleProfile 128 + 16 + payloadSize (sourceTags sampleProfile)
      = 192 ∧
    (∃ nd, makeStdGammaBuffer true 0 plainProfile = .ok nd ∧
      nd.length
        = 128 + 4 + 12 * wordAt plainProfile 128 + 16
          + payloadSize (sourceTags plainProfile)) ∧
    ∃ nd, makeStdGammaBuffer true 0 sampleProfile = .ok nd ∧
      nd.length
        = 128 + 4 + 12 * wordAt sampleProfile 128 + 16
          + payloadSize (sourceTags sampleProfile) :=
  have h0 := makeStdGammaProfile_size true 0 plainProfile plainProfile_wellFormed
  have h1 := makeStdGammaProfile_size true 0 sampleProfile sampleProfile_wellFormed
  ⟨plainProfile_wellFormed, sampleProfile_wellFormed, by decide!, by decide!,
    h0.elim (fun nd hnd => ⟨nd, hnd.1, hnd.2.1⟩),
    h1.elim (fun nd hnd => ⟨nd, hnd.1, hnd.2.1⟩)⟩

/-- C23: for a well-formed serialized profile, every offset recorded in the directory that
`makeStdGammaProfile` builds is a multiple of 4 and at least `132 + 12 * tagCount`; the
payload ranges of two distinct entries that are not tone-response tags do not overlap; and
the payload range of an entry that is not a tone-response tag does not overlap the 16 bytes
of the shared curve block that a tone-response entry points at. Nothing is assumed on the
alignment or the overlap of the payloads of the source. -/
theorem makeStdGammaProfile_layout (le : Bool) (spare : Nat) (data : List Nat) (h : WellFormed data) :
    ∃ nd, makeStdGammaBuffer le spare data = .ok nd ∧
      wordAt nd 128 = wordAt data 128 ∧
      (∀ i, i < wordAt nd 128 →
        tagOffset nd i % 4 = 0 ∧ 132 + 12 * wordAt nd 128 ≤ tagOffset nd i) ∧
      (∀ i j, i < wordAt nd 128 → j < wordAt nd 128 → i ≠ j →
        ¬ isTrcSig (tagSig nd i) → ¬ isTrcSig (tagSig nd j) →
        tagOffset nd i + tagSize nd i ≤ tagOffset nd j ∨
          tagOffset nd j + tagSize nd j ≤ tagOffset nd i) ∧
      (∀ i k, i < wordAt nd 128 → k < wordAt nd 128 →
        ¬ isTrcSig (tagSig nd i) → isTrcSig (tagSig nd k) →
        tagOffset nd i + tagSize nd i ≤ tagOffset nd k ∨
          tagOffset nd k + 16 ≤ tagOffset nd i) := by
  obtain ⟨nd, hok, hcount, hfields⟩ := makeStdGammaBuffer_fields le spare data h
  have hplain : ∀ i, i < wordAt data 128 → ¬ isTrcSig (tagSig nd i) →
      ¬ isTrcSig (tagSig data i) ∧ tagOffset nd i = (cursor data i).1 ∧
      tagOffset nd i + tagSize nd i ≤ (cursor data (i + 1)).1 := by
    intro i hi ht
    obtain ⟨h1, h2, h3⟩ := hfields i hi
    rw [h1] at ht
    rw [if_neg ht] at h2 h3
    have hsum := newOffset_add_size data i hi ht
    have hr := le_roundUp4 (tagSize data i)
    refine ⟨ht, h2, ?_⟩
    rw [h2, h3]
    omega
  refine ⟨nd, hok, hcount, ?_, ?_, ?_⟩
  · intro i hi
    rw [hcount] at hi ⊢
    obtain ⟨h1, h2, -⟩ := hfields i hi
    by_cases ht : isTrcSig (tagSig data i)
    · rw [if_pos ht] at h2
      obtain ⟨k0, -, -, hg, -⟩ := gammaOffset_first data ⟨i, hi, ht⟩
      have hge := cursor_fst_ge data k0
      have hmod := cursor_fst_mod data k0
      rw [h2, hg]
      exact ⟨hmod, by omega⟩
    · rw [if_neg ht] at h2
      have hge := cursor_fst_ge data i
      have hmod := cursor_fst_mod data i
      rw [h2]
      unfold newOffset
      exact ⟨hmod, by omega⟩
  · intro i j hi hj hij hti htj
    rw [hcount] at hi hj
    obtain ⟨-, hoi, hei⟩ := hplain i hi hti
    obtain ⟨-, hoj, hej⟩ := hplain j hj htj
    rcases Nat.lt_or_gt_of_ne hij with hlt | hgt
    · left
      have hle := cursor_le_of_le data (i + 1) j hlt
      omega
    · right
      have hle := cursor_le_of_le data (j + 1) i hgt
      omega
  · intro i k hi hk hti htk
    rw [hcount] at hi hk
    obtain ⟨hdi, hoi, hei⟩ := hplain i hi hti
    obtain ⟨h1, h2, -⟩ := hfields k hk
    rw [h1] at htk
    rw [if_pos htk] at h2
    obtain ⟨k0, hk0, ht0, hg, hnext⟩ := gammaOffset_first data ⟨k, hk, htk⟩
    have hne : i ≠ k0 := fun e => hdi (e ▸ ht0)
    rw [h2]
    rcases Nat.lt_or_gt_of_ne hne with hlt | hgt
    · left
      have hle := cursor_le_of_le data (i + 1) k0 hlt
      omega
    · right
      have hle := cursor_le_of_le data (k0 + 1) i hgt
      omega

/-- Witness of `makeStdGammaProfile_layout` on the sample profile, in which the two
tone-response tags of the source share one payload. -/
theorem makeStdGammaProfile_layout_witness :
    WellFormed sampleProfile ∧
    tagOffset sampleProfile 1 = tagOffset sampleProfile 2 ∧
    ∃ nd, makeStdGammaBuffer false 0 sampleProfile = .ok nd ∧
      wordAt nd 128 = wordAt sampleProfile 128 ∧
      (∀ i, i < wordAt nd 128 →
        tagOffset nd i % 4 = 0 ∧ 132 + 12 * wordAt nd 128 ≤ tagOffset nd i) ∧
      (∀ i j, i < wordAt nd 128 → j < wordAt nd 128 → i ≠ j →
        ¬ isTrcSig (tagSig nd i) → ¬ isTrcSig (tagSig nd j) →
        tagOffset nd i + tagSize nd i ≤ tagOffset nd j ∨
          tagOffset nd j + tagSize nd j ≤ tagOffset nd i) ∧
      (∀ i k, i < wordAt nd 128 → k < wordAt nd 128 →
        ¬ isTrcSig (tagSig nd i) → isTrcSig (tagSig nd k) →
        tagOffset nd i + tagSize nd i ≤ tagOffset nd k ∨
          tagOffset nd k + 16 ≤ tagOffset nd i) :=
  ⟨sampleProfile_wellFormed, by decide!,
    makeStdGammaProfile_layout false 0 sampleProfile sampleProfile_wellFormed⟩

/-! ### Invariants of the store over sequences of calls -/

/-- C24: the constructor succeeds, and in every store reached from the constructed store by
a sequence of calls of `init`, `getProfile`, `getStdProfile`, `getContent`, `getProfiles`,
`getProfilesFromDir` and `outputProfileExist`, the output-profile handle map and the content
map have the same keys, no cached handle is null, and the handle cached under a key is what
the content cached under that key parses to. -/
theorem outputCache_consistent {H : Type} (env : Env H)
    (cmsCreate_sRGBProfile : cmsHPROFILE H) (le : Bool)
    (wprofiles iwprofiles : Nat → Nat → Nat → ℚ) :
    ∃ s0, ICCStore.construct env.cmsOpenProfileFromMem cmsCreate_sRGBProfile le wprofiles
        iwprofiles = .ok s0 ∧
      ∀ calls : List StoreCall,
        (∀ k, (mapFind (calls.foldl (runCall env) s0).fileProfiles k).isSome
          = (mapFind (calls.foldl (runCall env) s0).fileProfileContents k).isSome) ∧
        (∀ k, mapFind (calls.foldl (runCall env) s0).fileProfiles k ≠ some none) ∧
        (∀ k r c, mapFind (calls.foldl (runCall env) s0).fileProfiles k = some r →
          mapFind (calls.foldl (runCall env) s0).fileProfileContents k = some c →
          c.toProfile env = r) := by
  obtain ⟨s0, hs0, hP, hC, -, -⟩ := construct_file_maps env.cmsOpenProfileFromMem
    cmsCreate_sRGBProfile le wprofiles iwprofiles
  refine ⟨s0, hs0, ?_⟩
  intro calls
  have h0 : CacheConsistent env s0.fileProfiles s0.fileProfileContents := by
    rw [hP, hC]
    exact fun _ => Or.inl ⟨rfl, rfl⟩
  have hinv := foldl_run_cacheConsistent env calls s0 h0
  refine ⟨?_, ?_, ?_⟩
  · intro k
    rcases hinv k with ⟨h1, h2⟩ | ⟨h, c, h1, h2, -⟩
    · rw [h1, h2]
      rfl
    · rw [h1, h2]
      rfl
  · intro k hk
    rcases hinv k with ⟨h1, -⟩ | ⟨h, c, h1, -, -⟩
    · rw [h1] at hk
      exact Option.noConfusion hk
    · rw [h1] at hk
      exact Option.noConfusion (Option.some.inj hk)
  · intro k r c hr hc
    rcases hinv k with ⟨h1, -⟩ | ⟨h, c', h1, h2, h3⟩
    · rw [h1] at hr
      exact Option.noConfusion hr
    · rw [h1] at hr
      rw [h2] at hc
      rw [← Option.some.inj hr, ← Option.some.inj hc]
      exact h3

/-- Witness of `outputCache_consistent`: in the sample environment, after `init`, a
`getProfile` of a file the loader did not see, and a `getProfile` of a cached name, the two
maps have the same keys. -/
theorem outputCache_consistent_witness :
    ∃ s0, ICCStore.construct sampleEnv.cmsOpenProfileFromMem none true
        (fun _ => identityMatrix) (fun _ => identityMatrix) = .ok s0 ∧
      ∀ k, (mapFind ([StoreCall.init "/home/icc" "/rt",
              StoreCall.getProfile "file:/home/icc/U.icm",
              StoreCall.getProfile "A"].foldl (runCall sampleEnv) s0).fileProfiles k).isSome
        = (mapFind ([StoreCall.init "/home/icc" "/rt",
              StoreCall.getProfile "file:/home/icc/U.icm",
              StoreCall.getProfile "A"].foldl (runCall sampleEnv) s0).fileProfileContents
            k).isSome :=
  (outputCache_consistent sampleEnv none true (fun _ => identityMatrix)
    (fun _ => identityMatrix)).elim
    (fun s0 hs => ⟨s0, hs.1, (hs.2 _).1⟩)

/-- For every host byte order, every matrix and every name of at most 67 bytes, the buffer
`createFromMatrix` assembles with `gamma = true` is built without a fault; its entries 4, 5
and 6 are tone-response entries at the three offsets 368, 384 and 400, and each payload
starts with the 14 bytes `curv`, four zero bytes, the count 1 and the value `0x0239`: the
14 bytes that the buffer `makeStdGammaProfile` builds from any well-formed profile holds at
the one offset of its tone-response entries. -/
theorem createFromMatrix_gamma_curve_block (le : Bool) (matrix : Nat → Nat → ℚ)
    (name : String) (hname : (cstr name).length ≤ 67) :
    ∃ buf, createFromMatrixBuffer le matrix true name = .ok (buf, 476) ∧
      (∀ i, i < 3 →
        isTrcSig (tagSig buf (4 + i)) ∧
        tagOffset buf (4 + i) = 368 + 16 * i ∧
        bytesAt buf (tagOffset buf (4 + i)) 14
          = [0x63, 0x75, 0x72, 0x76, 0, 0, 0, 0, 0, 0, 0, 1, 0x02, 0x39]) ∧
      (∀ (le' : Bool) (spare : Nat) (data : List Nat), WellFormed data →
        ∀ k, k < wordAt data 128 → isTrcSig (tagSig data k) →
          ∃ nd, makeStdGammaBuffer le' spare data = .ok nd ∧
            ∀ i, i < 3 →
              bytesAt nd (tagOffset nd k) 14 = bytesAt buf (tagOffset buf (4 + i)) 14) := by
  refine ⟨_, createFromMatrixBuffer_eq le matrix true name (by omega), ?_⟩
  have hbuf := createFromMatrix_trc le matrix true name hname
  have hbytes : ∀ i, i < 3 →
      bytesAt (profileBytes le matrix true name)
          (tagOffset (profileBytes le matrix true name) (4 + i)) 14
        = [0x63, 0x75, 0x72, 0x76, 0, 0, 0, 0, 0, 0, 0, 1, 0x02, 0x39] := by
    intro i hi
    obtain ⟨-, h2, -, h4⟩ := hbuf i hi
    have e := bytesAt_sub (profileBytes le matrix true name) (368 + 16 * i) 16 0 14
      (by decide)
    rw [Nat.add_zero] at e
    rw [h2, e, h4]
    decide
  refine ⟨?_, ?_⟩
  · intro i hi
    obtain ⟨h1, h2, -, -⟩ := hbuf i hi
    refine ⟨?_, h2, hbytes i hi⟩
    rw [h1]
    interval_cases i <;> decide
  · intro le' spare data hwf k hk ht
    obtain ⟨nd, hok, -, -, -, -, -, hcurve⟩ := makeStdGammaBuffer_spec le' spare data hwf
    obtain ⟨nd', hok', -, hfields⟩ := makeStdGammaBuffer_fields le' spare data hwf
    obtain rfl : nd' = nd := by
      rw [hok] at hok'
      exact (Except.ok.inj hok').symm
    refine ⟨nd', hok, ?_⟩
    intro i hi
    obtain ⟨-, h2, -⟩ := hfields k hk
    rw [if_pos ht] at h2
    rw [h2, (hcurve ⟨k, hk, ht⟩).1, hbytes i hi, curveBlock_bytes]

set_option maxRecDepth 100000 in
/-- C26, at the failing input: for the identity matrix, `gamma = true` and a name of 70
bytes `A`, entry 4 of the buffer `createFromMatrix` assembles is `rTRC` at offset 368, and
the first 14 bytes of its payload are `41 41 00 76` followed by four zero bytes, the count 1
and `0x0239`: the last two bytes of the copied name and its terminating NUL have replaced
`cur` of the type signature. The 14 bytes that `makeStdGammaProfile` writes for the
tone-response entry 1 of the sample profile start with `63 75 72 76`. With a name of 67
bytes the payload of `rTRC` starts with `63 75 72 76` too. -/
theorem createFromMatrix_gamma_curve_overwritten :
    (cstr (nameOfLength 70)).length = 70 ∧
    (createFromMatrixBuffer true identityMatrix true (nameOfLength 70)).map
        (fun r => (tagSig r.1 4, tagOffset r.1 4, bytesAt r.1 (tagOffset r.1 4) 14))
      = .ok (0x72545243, 368,
          [0x41, 0x41, 0x00, 0x76, 0, 0, 0, 0, 0, 0, 0, 1, 0x02, 0x39]) ∧
    (makeStdGammaBuffer true 0 sampleProfile).map
        (fun nd => (tagSig nd 1, bytesAt nd (tagOffset nd 1) 14))
      = .ok (0x72545243,
          [0x63, 0x75, 0x72, 0x76, 0, 0, 0, 0, 0, 0, 0, 1, 0x02, 0x39]) ∧
    (createFromMatrixBuffer true identityMatrix true (nameOfLength 67)).map
        (fun r => (tagSig r.1 4, tagOffset r.1 4, bytesAt r.1 (tagOffset r.1 4) 14))
      = .ok (0x72545243, 368,
          [0x63, 0x75, 0x72, 0x76, 0, 0, 0, 0, 0, 0, 0, 1, 0x02, 0x39]) := by
  rw [createFromMatrixBuffer_eq true identityMatrix true (nameOfLength 70) (by decide!),
    createFromMatrixBuffer_eq true identityMatrix true (nameOfLength 67) (by decide!)]
  exact ⟨by decide!, by decide!, by decide!, by decide!⟩

/-! ### The fallback of the gamma presets -/

/-- C27, counterexample: for the name `default` that `getGamma` lists, slot 3 of the result
is the quotient of `double` of 1 by `eps = 0.000000001`, which is `10^9 - 2^-23` and lies
below `10^9`. -/
theorem getGammaArray_fallback_slot_three :
    "default" ∈ getGamma ∧
    getGammaArray (constSolver (gammaValues [1, 2, 3, 4, 5, 6, 7]))
        (presetParams "default" 5 7) (fun _ => 9) 3
      = 1000000000 - 1 / 8388608 ∧
    getGammaArray (constSolver (gammaValues [1, 2, 3, 4, 5, 6, 7]))
        (presetParams "default" 5 7) (fun _ => 9) 3
      < 1000000000 := by
  have h : getGammaArray (constSolver (gammaValues [1, 2, 3, 4, 5, 6, 7]))
      (presetParams "default" 5 7) (fun _ => 9) 3 = doubleDiv 1 0.000000001 := by
    simp [getGammaArray, presetParams, Function.update]
  rw [h, doubleDiv_one_eps]
  refine ⟨by decide, ?_, ?_⟩ <;> norm_num

/-- C27, as amended: for every parameter set with `freegamma = false`, when `gamma` is none
of the six names `BT709_g2.2_s4.5`, `sRGB_g2.4_s12.92`, `High_g1.3_s3.35`, `Low_g2.6_s6.9`,
`standard_g2.2`, `standard_g1.8`, `getGammaArray` returns the linear tuple
`(1.0, 1, 0, q, 0, 0, 0)`, where `q` is the quotient of `double` of 1 by `eps = 0.000000001`,
which is `10^9 - 2^-23`, not `10^9`; and whatever `gamma` is, the result does not depend on
the previous content of the output array: all seven slots are assigned. -/
theorem getGammaArray_fallback (calcGamma : ℚ → ℚ → Int → Int → GammaValues)
    (icm : ColorManagementParams) (ga : GammaValues) (hfree : icm.freegamma = false) :
    (icm.gamma ∉ ["BT709_g2.2_s4.5", "sRGB_g2.4_s12.92", "High_g1.3_s3.35", "Low_g2.6_s6.9",
        "standard_g2.2", "standard_g1.8"] →
      getGammaArray calcGamma icm ga
        = gammaValues [1.0, 1, 0, 1000000000 - 1 / 8388608, 0, 0, 0]) ∧
    (∀ ga', getGammaArray calcGamma icm ga' = getGammaArray calcGamma icm ga) ∧
    doubleDiv 1 0.000000001 = 1000000000 - 1 / 8388608 := by
  have hq : doubleDiv 1 (1 / 1000000000) = 8388607999999999 / 8388608 := by decide!
  refine ⟨?_, ?_, doubleDiv_one_eps.trans (by norm_num)⟩
  · intro h
    simp only [List.mem_cons, List.mem_singleton, List.not_mem_nil, or_false, not_or] at h
    obtain ⟨h1, h2, h3, h4, h5, h6⟩ := h
    funext i
    fin_cases i <;>
      simp [getGammaArray, hfree, h1, h2, h3, h4, h5, h6, Function.update, gammaValues] <;>
      first
        | done
        | (norm_num <;> exact hq)
  · intro ga'
    funext i
    simp only [getGammaArray, hfree, Bool.not_false, if_true]
    split_ifs <;> fin_cases i <;> simp [Function.update]

/-- Witness of `getGammaArray_fallback`: the name `default` that `getGamma` lists, the empty
string and an unknown name all give the linear tuple. -/
theorem getGammaArray_fallback_witness :
    "default" ∈ getGamma ∧
    (presetParams "default" 2.4 12.92).freegamma = false ∧
    getGammaArray (constSolver (gammaValues [1, 2, 3, 4, 5, 6, 7]))
        (presetParams "default" 2.4 12.92) (fun _ => 9)
      = gammaValues [1.0, 1, 0, 1000000000 - 1 / 8388608, 0, 0, 0] ∧
    getGammaArray (constSolver (gammaValues [1, 2, 3, 4, 5, 6, 7]))
        (presetParams "" 2.4 12.92) (fun _ => 9)
      = gammaValues [1.0, 1, 0, 1000000000 - 1 / 8388608, 0, 0, 0] ∧
    getGammaArray (constSolver (gammaValues [1, 2, 3, 4, 5, 6, 7]))
        (presetParams "gamma_x" 2.4 12.92) (fun _ => 9)
      = gammaValues [1.0, 1, 0, 1000000000 - 1 / 8388608, 0, 0, 0] :=
  ⟨by decide, rfl,
    (getGammaArray_fallback _ (presetParams "default" 2.4 12.92) _ rfl).1 (by decide),
    (getGammaArray_fallback _ (presetParams "" 2.4 12.92) _ rfl).1 (by decide),
    (getGammaArray_fallback _ (presetParams "gamma_x" 2.4 12.92) _ rfl).1 (by decide)⟩

end rtengine
